import Mathlib

/-! TM1729 segment-LCD driver: bit-banged bus protocol and field encoder

A shallow embedding of `TM1729.c` / `TM1729.h`.

* The two output lines and the blocking delays are modelled as a trace of
  `Event`s: every function that drives the lines returns the list of events
  it emits, in program order.
* `displayData` (a `uint8_t[26]`) is a `List Nat`; every store truncates to
  eight bits with an explicit `% 256`.
* `int` values are `Int`; C's `/` and `%` are `Int.tdiv` and `Int.tmod`.
-/

namespace TM1729

/-! ## Line driver and delays -/

/-- One externally observable action of the driver: a write of the clock line
(PB13), a write of the data line (PB14), a blocking delay, or the one-off pin
configuration done by `MyI2C_Init`. -/
inductive Event where
  | scl (level : Bool)
  | sda (level : Bool)
  | delay_us (n : Nat)
  | delay_ms (n : Nat)
  | gpio_setup
  deriving DecidableEq, Repr

/-- `MyI2C_W_SCL`: `GPIO_WriteBit(GPIOB, GPIO_Pin_13, (BitAction)BitValue)`. -/
def MyI2C_W_SCL (BitValue : Nat) : List Event := [Event.scl (BitValue != 0)]

/-- `MyI2C_W_SDA`: `GPIO_WriteBit(GPIOB, GPIO_Pin_14, (BitAction)BitValue)`. -/
def MyI2C_W_SDA (BitValue : Nat) : List Event := [Event.sda (BitValue != 0)]

/-- `Delay_us(n)`. -/
def Delay_us (n : Nat) : List Event := [Event.delay_us n]

/-- `Delay_ms(n)`. -/
def Delay_ms (n : Nat) : List Event := [Event.delay_ms n]

/-- `MyI2C_Init`: clock enable, open-drain configuration of PB13/PB14 and
`GPIO_SetBits` on both pins, recorded as a single event. -/
def MyI2C_Init : List Event := [Event.gpio_setup]

/-! ## Protocol constants (`TM1729.h`) -/

abbrev TM1729_SLAVE_ADDRESS : Nat := 0x7C
abbrev TM1729_ICSET : Nat := 0xEA
abbrev TM1729_BLKCTL : Nat := 0xF0
abbrev TM1729_DISCTL : Nat := 0xA2
abbrev TM1729_MODESET : Nat := 0xC8
abbrev TM1729_APCTL : Nat := 0xFC
abbrev TM1729_ADSET : Nat := 0x00

abbrev MAX_LIGHT : Nat := 26

/-! ## Protocol layer -/

/-- `MyI2C_Start`. -/
def MyI2C_Start : List Event :=
  MyI2C_W_SDA 1 ++ Delay_us 3 ++
  MyI2C_W_SCL 1 ++ Delay_us 3 ++
  MyI2C_W_SDA 0 ++ Delay_us 3 ++
  MyI2C_W_SCL 0 ++ Delay_us 3

/-- `MyI2C_Stop`. -/
def MyI2C_Stop : List Event :=
  MyI2C_W_SCL 1 ++ Delay_us 3 ++
  MyI2C_W_SDA 0 ++ Delay_us 3 ++
  MyI2C_W_SDA 1 ++ Delay_us 3 ++
  MyI2C_W_SDA 0 ++
  MyI2C_W_SCL 0

/-- The `for (i = 0; i < 8; i++)` loop of `MyI2C_SendByte`; the first argument
is the number of iterations still to run, the second the current value of the
`uint8_t` variable `Byte`. -/
def MyI2C_SendByte_loop : Nat → Nat → List Event
  | 0, _ => []
  | n + 1, Byte =>
    MyI2C_W_SCL 0 ++
    (if Byte &&& 0x80 ≠ 0 then MyI2C_W_SDA 1 else MyI2C_W_SDA 0) ++
    MyI2C_W_SCL 1 ++
    MyI2C_SendByte_loop n ((Byte <<< 1) % 256)

/-- `MyI2C_SendByte`. -/
def MyI2C_SendByte (Byte : Nat) : List Event :=
  MyI2C_W_SCL 0 ++
  MyI2C_SendByte_loop 8 Byte ++
  MyI2C_W_SCL 0 ++ Delay_us 3 ++
  MyI2C_W_SDA 0 ++ Delay_us 3 ++
  MyI2C_W_SCL 1 ++ Delay_us 6 ++
  MyI2C_W_SCL 0 ++ Delay_us 3

/-- The `for (i = 0; i < len; i++)` loop of `TM1729_WriteData`: `i` is the
loop counter, the third argument is `len - i`. -/
def TM1729_WriteData_loop (pData : List Nat) : Nat → Nat → List Event
  | _, 0 => []
  | i, n + 1 => MyI2C_SendByte (pData.getD i 0) ++ TM1729_WriteData_loop pData (i + 1) n

/-- `TM1729_WriteData(pData, len)`; `len` is a `uint8_t` parameter. -/
def TM1729_WriteData (pData : List Nat) (len : Nat) : List Event :=
  MyI2C_Start ++
  MyI2C_SendByte TM1729_SLAVE_ADDRESS ++
  MyI2C_SendByte TM1729_ADSET ++
  TM1729_WriteData_loop pData 0 (len % 256) ++
  MyI2C_Stop

/-! ## Chip functions -/

/-- `TM1729_Init`. -/
def TM1729_Init : List Event :=
  MyI2C_Init ++
  Delay_ms 10 ++
  MyI2C_Stop ++
  MyI2C_Start ++
  MyI2C_SendByte TM1729_SLAVE_ADDRESS ++
  MyI2C_SendByte TM1729_ICSET ++
  MyI2C_SendByte TM1729_DISCTL ++
  MyI2C_SendByte TM1729_BLKCTL ++
  MyI2C_SendByte TM1729_APCTL ++
  MyI2C_SendByte TM1729_MODESET ++
  MyI2C_Stop

/-- `TM1729_Clear`: `uint8_t clearData[MAX_LIGHT] = {0}` is sent. -/
def TM1729_Clear : List Event :=
  let clearData : List Nat := List.replicate MAX_LIGHT 0
  TM1729_WriteData clearData MAX_LIGHT

/-- The fill loop of `TM1729_DisplayAll`: `fillData[i] = 0xFF` for
`i = 0 .. MAX_LIGHT - 1`; the second argument is the number of iterations
still to run. -/
def TM1729_DisplayAll_loop (fillData : List Nat) : Nat → Nat → List Nat
  | _, 0 => fillData
  | i, n + 1 => TM1729_DisplayAll_loop (fillData.set i 0xFF) (i + 1) n

/-- `TM1729_DisplayAll`; the local array starts with unspecified contents
`fillData` (of length `MAX_LIGHT`). -/
def TM1729_DisplayAll (fillData : List Nat) : List Event :=
  TM1729_WriteData (TM1729_DisplayAll_loop fillData 0 MAX_LIGHT) MAX_LIGHT

/-- `App_Init`: sends the current contents of `displayData`. -/
def App_Init (displayData : List Nat) : List Event :=
  TM1729_WriteData displayData MAX_LIGHT

/-! ## Display memory and segment tables -/

/-- The initial value of the global `displayData`. -/
def displayData : List Nat :=
  [0x80, 0x00, 0x00, 0x80, 0x00, 0x80, 0x80, 0x80, 0x00, 0x10,
   0x00, 0x80, 0x00, 0x00, 0x80, 0x82, 0x00, 0x00, 0x00, 0x00,
   0x00, 0x00, 0x00, 0x00, 0x00, 0x00]

/-- `sge_data_1_9`: index 0 is the dash, indices 1..10 the digits 0..9. -/
def sge_data_1_9 : List Nat :=
  [0x20, 0x5F, 0x50, 0x6B, 0x79, 0x74, 0x3D, 0x3F, 0x58, 0x7F, 0x7D]

/-- `sge_data_10_15`: index 0 is the dash, indices 1..10 the digits 0..9. -/
def sge_data_10_15 : List Nat :=
  [0x02, 0xF5, 0x05, 0xD3, 0x97, 0x27, 0xB6, 0xF6, 0x15, 0xF7, 0xB7]

/-- A read `table[i]` with an `int` index; the default `0` stands for a read
past the end of the table, which no in-range call performs. -/
def tableAt (table : List Nat) (i : Int) : Nat := table.getD i.toNat 0

/-- A read `displayData[i]`; every index the code uses is a constant below 26. -/
def rd (buf : List Nat) (i : Nat) : Nat := buf.getD i 0

/-- The statement `displayData[i] &= m;` (the result is stored in a `uint8_t`). -/
def andAssign (i m : Nat) (buf : List Nat) : List Nat :=
  buf.set i ((rd buf i &&& m) % 256)

/-- The statement `displayData[i] |= v;` (the result is stored in a `uint8_t`). -/
def orAssign (i v : Nat) (buf : List Nat) : List Nat :=
  buf.set i ((rd buf i ||| v) % 256)

/-- A display buffer is 26 bytes. -/
def WF (buf : List Nat) : Prop := buf.length = MAX_LIGHT ∧ ∀ b ∈ buf, b < 256

instance (buf : List Nat) : Decidable (WF buf) := by
  unfold WF; infer_instance

/-! ## Field encoder -/

abbrev DATA_TYPE_SIGNAL : Int := 0
abbrev DATA_TYPE_BELL : Int := 1
abbrev DATA_TYPE_HOUR : Int := 2
abbrev DATA_TYPE_MINUTE : Int := 3
abbrev DATA_TYPE_SCORE : Int := 4
abbrev DATA_TYPE_BATTERY : Int := 5
abbrev DATA_TYPE_TEMP1 : Int := 6
abbrev DATA_TYPE_TEMP2 : Int := 7
abbrev DATA_TYPE_HUMIDITY : Int := 8
abbrev DATA_TYPE_CO2 : Int := 9

/-- What a call of `TM1729_DisplaySet` leaves behind: the returned status, the
contents of the global `displayData`, and the line-level events emitted. -/
structure Outcome where
  ret : Int
  displayData : List Nat
  trace : List Event
  deriving DecidableEq, Repr

/-- The common tail `TM1729_WriteData(displayData, MAX_LIGHT); return 0;`. -/
def sendAndReturn (buf : List Nat) : Outcome :=
  { ret := 0, displayData := buf, trace := TM1729_WriteData buf MAX_LIGHT }

/-- An early `return r;` with nothing sent. -/
def returnOnly (r : Int) (buf : List Nat) : Outcome :=
  { ret := r, displayData := buf, trace := [] }

/-- The body of `case DATA_TYPE_SIGNAL` under `data >= 0 && data <= 5`. -/
def setSignal (data : Int) (buf : List Nat) : List Nat :=
  let buf := if data = 0 then
      buf |> andAssign 9 0x1F |> andAssign 13 0x7F |> andAssign 12 0x7F
    else buf
  let buf := if data = 1 then
      buf |> andAssign 9 0x1F |> andAssign 13 0x7F |> andAssign 12 0x7F
          |> orAssign 9 0x20
    else buf
  let buf := if data = 2 then
      buf |> andAssign 9 0x1F |> andAssign 13 0x7F |> andAssign 12 0x7F
          |> orAssign 9 0x60
    else buf
  let buf := if data = 3 then
      buf |> andAssign 9 0x1F |> andAssign 13 0x7F |> andAssign 12 0x7F
          |> orAssign 9 0xE0
    else buf
  let buf := if data = 4 then
      buf |> andAssign 9 0x1F |> andAssign 13 0x7F |> andAssign 12 0x7F
          |> orAssign 9 0xE0 |> orAssign 13 0x80
    else buf
  let buf := if data = 5 then
      buf |> andAssign 9 0x1F |> andAssign 13 0x7F |> andAssign 12 0x7F
          |> orAssign 9 0xE0 |> orAssign 13 0x80 |> orAssign 12 0x80
    else buf
  buf

/-- The digit-pair encoding shared, statement for statement, by
`case DATA_TYPE_HOUR` (`k = 9`), `case DATA_TYPE_MINUTE` (`k = 11`) and
`case DATA_TYPE_SCORE` (`k = 13`), under the range check. -/
def setDigits10_15 (k : Nat) (data : Int) (buf : List Nat) : List Nat :=
  let h := Int.tdiv data 10
  let l := Int.tmod data 10
  buf |> andAssign k 0xF0
      |> andAssign (k + 1) 0x80
      |> andAssign (k + 2) 0x8F
      |> orAssign k (tableAt sge_data_10_15 (h + 1) >>> 4)
      |> orAssign (k + 1) ((tableAt sge_data_10_15 (h + 1) &&& 0x07) <<< 4)
      |> orAssign (k + 1) (tableAt sge_data_10_15 (l + 1) >>> 4)
      |> orAssign (k + 2) ((tableAt sge_data_10_15 (l + 1) &&& 0x07) <<< 4)

/-- The body of `case DATA_TYPE_BATTERY` under `data >= 0 && data <= 4`. -/
def setBattery (data : Int) (buf : List Nat) : List Nat :=
  let buf := if data = 0 then
      buf |> andAssign 4 0x7F |> andAssign 15 0xF2
    else buf
  let buf := if data = 1 then
      buf |> orAssign 4 0x80 |> andAssign 15 0xF2
    else buf
  let buf := if data = 2 then
      buf |> orAssign 4 0x80 |> andAssign 15 0xF2 |> orAssign 15 0x08
    else buf
  let buf := if data = 3 then
      buf |> orAssign 4 0x80 |> andAssign 15 0xF2 |> orAssign 15 0x09
    else buf
  let buf := if data = 4 then
      buf |> orAssign 4 0x80 |> andAssign 15 0xF2 |> orAssign 15 0x0D
    else buf
  buf

/-- The body shared by `case DATA_TYPE_TEMP1` (`hi = 8`, `lo = 7`) and
`case DATA_TYPE_TEMP2` (`hi = 6`, `lo = 5`) under `data >= -9 && data <= 99`. -/
def setTemp (hi lo : Nat) (data : Int) (buf : List Nat) : List Nat :=
  let buf := if data < 0 then
      buf |> andAssign hi 0x80 |> orAssign hi (tableAt sge_data_1_9 0)
    else
      let h := Int.tdiv data 10
      buf |> andAssign hi 0x80 |> orAssign hi (tableAt sge_data_1_9 (h + 1))
  let l := if data < 0 then -data else Int.tmod data 10
  buf |> andAssign lo 0x80 |> orAssign lo (tableAt sge_data_1_9 (l + 1))

/-- The body of `case DATA_TYPE_HUMIDITY` under `data >= 0 && data <= 99`. -/
def setHumidity (data : Int) (buf : List Nat) : List Nat :=
  let h := Int.tdiv data 10
  let l := Int.tmod data 10
  buf |> andAssign 4 0x80 |> orAssign 4 (tableAt sge_data_1_9 (h + 1))
      |> andAssign 3 0x80 |> orAssign 3 (tableAt sge_data_1_9 (l + 1))

/-- The body of `case DATA_TYPE_CO2` under `data >= 0 && data <= 999`. -/
def setCO2 (data : Int) (buf : List Nat) : List Nat :=
  let h := Int.tdiv data 100
  let m := Int.tmod (Int.tdiv data 10) 10
  let l := Int.tmod data 10
  buf |> orAssign 2 (tableAt sge_data_1_9 (h + 1))
      |> orAssign 1 (tableAt sge_data_1_9 (m + 1))
      |> andAssign 0 0x80
      |> orAssign 0 (tableAt sge_data_1_9 (l + 1))

/-- `TM1729_DisplaySet(type, data)`, run on the current contents `buf` of the
global `displayData`. -/
def TM1729_DisplaySet (type : Int) (data : Int) (buf : List Nat) : Outcome :=
  if type = DATA_TYPE_SIGNAL then
    if data ≥ 0 ∧ data ≤ 5 then sendAndReturn (setSignal data buf)
    else returnOnly (-1) buf
  else if type = DATA_TYPE_BELL then
    if data = 1 then sendAndReturn (orAssign 10 0x80 buf)
    else if data = 0 then sendAndReturn (andAssign 10 0x7F buf)
    else returnOnly (-1) buf
  else if type = DATA_TYPE_HOUR then
    if data ≥ 0 ∧ data ≤ 23 then sendAndReturn (setDigits10_15 9 data buf)
    else returnOnly (-1) buf
  else if type = DATA_TYPE_MINUTE then
    if data ≥ 0 ∧ data ≤ 59 then sendAndReturn (setDigits10_15 11 data buf)
    else returnOnly (-1) buf
  else if type = DATA_TYPE_SCORE then
    if data ≥ 0 ∧ data ≤ 99 then sendAndReturn (setDigits10_15 13 data buf)
    else returnOnly (-1) buf
  else if type = DATA_TYPE_BATTERY then
    if data ≥ 0 ∧ data ≤ 4 then sendAndReturn (setBattery data buf)
    else returnOnly (-1) buf
  else if type = DATA_TYPE_TEMP1 then
    if data ≥ -9 ∧ data ≤ 99 then sendAndReturn (setTemp 8 7 data buf)
    else returnOnly (-1) buf
  else if type = DATA_TYPE_TEMP2 then
    if data ≥ -9 ∧ data ≤ 99 then sendAndReturn (setTemp 6 5 data buf)
    else returnOnly (-1) buf
  else if type = DATA_TYPE_HUMIDITY then
    if data ≥ 0 ∧ data ≤ 99 then sendAndReturn (setHumidity data buf)
    else returnOnly (-1) buf
  else if type = DATA_TYPE_CO2 then
    if data ≥ 0 ∧ data ≤ 999 then sendAndReturn (setCO2 data buf)
    else returnOnly (-1) buf
  else returnOnly (-2) buf


/-! ## Specification vocabulary -/

/-- The ten field identifiers of `DataType`. -/
def knownType (type : Int) : Prop := 0 ≤ type ∧ type ≤ 9

instance (type : Int) : Decidable (knownType type) := by
  unfold knownType; infer_instance

/-- The inclusive range of each field, as the documentation of
`TM1729_DisplaySet` gives it. -/
def fieldRange (type : Int) : Option (Int × Int) :=
  if type = DATA_TYPE_SIGNAL then some (0, 5)
  else if type = DATA_TYPE_BELL then some (0, 1)
  else if type = DATA_TYPE_HOUR then some (0, 23)
  else if type = DATA_TYPE_MINUTE then some (0, 59)
  else if type = DATA_TYPE_SCORE then some (0, 99)
  else if type = DATA_TYPE_BATTERY then some (0, 4)
  else if type = DATA_TYPE_TEMP1 then some (-9, 99)
  else if type = DATA_TYPE_TEMP2 then some (-9, 99)
  else if type = DATA_TYPE_HUMIDITY then some (0, 99)
  else if type = DATA_TYPE_CO2 then some (0, 999)
  else none

/-- The value lies in the documented range of a known field. -/
def inRange (type data : Int) : Prop :=
  match fieldRange type with
  | some (lo, hi) => lo ≤ data ∧ data ≤ hi
  | none => False

instance (type data : Int) : Decidable (inRange type data) := by
  unfold inRange; split <;> infer_instance

/-- The three indicator patterns of the signal field, by level. -/
def signalBits (data : Int) : Nat × Nat × Nat :=
  if data = 1 then (0x20, 0, 0)
  else if data = 2 then (0x60, 0, 0)
  else if data = 3 then (0xE0, 0, 0)
  else if data = 4 then (0xE0, 0x80, 0)
  else if data = 5 then (0xE0, 0x80, 0x80)
  else (0, 0, 0)

/-- The low-nibble pattern of the battery field, by level. -/
def batteryBits (data : Int) : Nat :=
  if data = 2 then 0x08 else if data = 3 then 0x09 else if data = 4 then 0x0D else 0

/-- The bits of byte `i` that belong to each field; zero where the field owns
no bit of that byte. -/
def fieldMask (type : Int) (i : Nat) : Nat :=
  if type = DATA_TYPE_SIGNAL then
    (if i = 9 then 0xE0 else if i = 12 then 0x80 else if i = 13 then 0x80 else 0)
  else if type = DATA_TYPE_BELL then
    (if i = 10 then 0x80 else 0)
  else if type = DATA_TYPE_HOUR then
    (if i = 9 then 0x0F else if i = 10 then 0x7F else if i = 11 then 0x70 else 0)
  else if type = DATA_TYPE_MINUTE then
    (if i = 11 then 0x0F else if i = 12 then 0x7F else if i = 13 then 0x70 else 0)
  else if type = DATA_TYPE_SCORE then
    (if i = 13 then 0x0F else if i = 14 then 0x7F else if i = 15 then 0x70 else 0)
  else if type = DATA_TYPE_BATTERY then
    (if i = 4 then 0x80 else if i = 15 then 0x0D else 0)
  else if type = DATA_TYPE_TEMP1 then
    (if i = 7 then 0x7F else if i = 8 then 0x7F else 0)
  else if type = DATA_TYPE_TEMP2 then
    (if i = 5 then 0x7F else if i = 6 then 0x7F else 0)
  else if type = DATA_TYPE_HUMIDITY then
    (if i = 3 then 0x7F else if i = 4 then 0x7F else 0)
  else if type = DATA_TYPE_CO2 then
    (if i = 0 then 0x7F else if i = 1 then 0x7F else if i = 2 then 0x7F else 0)
  else 0

/-- The bits of byte `i` that belong to at least one of the ten fields. -/
def ownedMask (i : Nat) : Nat :=
  fieldMask 0 i ||| fieldMask 1 i ||| fieldMask 2 i ||| fieldMask 3 i ||| fieldMask 4 i |||
  fieldMask 5 i ||| fieldMask 6 i ||| fieldMask 7 i ||| fieldMask 8 i ||| fieldMask 9 i

/-- The bits of a byte outside a mask: `~mask & 0xFF`. -/
def outside (mask : Nat) : Nat := 0xFF ^^^ mask

/-! ## Observing the two lines -/

/-- The levels of the clock and data lines. -/
structure Lines where
  scl : Bool
  sda : Bool
  deriving DecidableEq, Repr

/-- The effect of one event on the lines; delays leave them as they are and
`GPIO_SetBits` in `MyI2C_Init` raises both. -/
def Lines.step (s : Lines) : Event → Lines
  | Event.scl l => { s with scl := l }
  | Event.sda l => { s with sda := l }
  | Event.delay_us _ => s
  | Event.delay_ms _ => s
  | Event.gpio_setup => { scl := true, sda := true }

/-- The lines after a whole trace. -/
def Lines.run (s : Lines) (es : List Event) : Lines := es.foldl Lines.step s

/-- The level of the data line at every rising edge of the clock line, in
order of occurrence, when the trace `es` is played from the line state `s`. -/
def risingSamples (s : Lines) : List Event → List Bool
  | [] => []
  | e :: es =>
    (if s.scl = false ∧ (s.step e).scl = true then [(s.step e).sda] else []) ++
      risingSamples (s.step e) es

/-- The number read from a list of bits, most significant first. -/
def bitsToNat (bits : List Bool) : Nat := bits.foldl (fun acc b => 2 * acc + b.toNat) 0

/-- The bits of an 8-bit value, most significant first. -/
def msbFirst (b : Nat) : List Bool :=
  [b.testBit 7, b.testBit 6, b.testBit 5, b.testBit 4,
   b.testBit 3, b.testBit 2, b.testBit 1, b.testBit 0]

/-- The levels that the loop of `MyI2C_SendByte` writes to the data line in its
first `n` rounds, in order: each round tests `Byte & 0x80` and then shifts
`Byte` left by one in its 8-bit variable. -/
def loopBits : Nat → Nat → List Bool
  | 0, _ => []
  | n + 1, Byte => decide (Byte &&& 0x80 ≠ 0) :: loopBits n ((Byte <<< 1) % 256)

/-! ## Bus-level vocabulary -/

/-- One call of the protocol layer. -/
inductive BusOp where
  | start
  | byte (b : Nat)
  | stop
  deriving DecidableEq, Repr

/-- The line-level events of one protocol-layer call. -/
def BusOp.lines : BusOp → List Event
  | BusOp.start => MyI2C_Start
  | BusOp.byte b => MyI2C_SendByte b
  | BusOp.stop => MyI2C_Stop

/-- The line-level events of a sequence of protocol-layer calls. -/
def lineTrace : List BusOp → List Event
  | [] => []
  | op :: ops => op.lines ++ lineTrace ops

/-- One bus transaction: a start, the given bytes in order, a stop. -/
def transaction (bytes : List Nat) : List BusOp :=
  BusOp.start :: (bytes.map BusOp.byte ++ [BusOp.stop])

/-- The five signal indicator bits of a buffer, in the order they light up:
byte 9 bits 5, 6, 7, then byte 13 bit 7, then byte 12 bit 7. -/
def indicatorBits (buf : List Nat) : List Bool :=
  [(rd buf 9).testBit 5, (rd buf 9).testBit 6, (rd buf 9).testBit 7,
   (rd buf 13).testBit 7, (rd buf 12).testBit 7]

/-- The all-zero buffer. -/
def zeroBuf : List Nat := List.replicate MAX_LIGHT 0

/-- The bits a call for `(type, data)` contributes to byte `i`: what it leaves
in that byte when it starts from the all-zero buffer. -/
def fieldBits (type data : Int) (i : Nat) : Nat :=
  rd (TM1729_DisplaySet type data zeroBuf).displayData i

/-- The bits of byte `i` that a call for field `type` carries over from the old
buffer: everything outside the field's mask and, for CO2, the whole of bytes 1
and 2, which are merged without being cleared. -/
def keepMask (type : Int) (i : Nat) : Nat :=
  if type = DATA_TYPE_CO2 ∧ (i = 1 ∨ i = 2) then 0xFF else outside (fieldMask type i)

/-- The contents of `displayData` after a sequence of `TM1729_DisplaySet`
calls, each given as `(type, data)`, made one after the other. -/
def runCalls (calls : List (Int × Int)) (buf : List Nat) : List Nat :=
  calls.foldl (fun b c => (TM1729_DisplaySet c.1 c.2 b).displayData) buf

/-- What a call of a `void` chip function leaves behind: the contents of the
global `displayData` and the line-level events emitted. -/
structure Effect where
  displayData : List Nat
  trace : List Event
  deriving DecidableEq, Repr

/-- A call of `TM1729_Clear` while the global `displayData` holds `buf`: the
function fills and sends its local array `clearData`; it has no statement that
writes `displayData`. -/
def TM1729_Clear_call (buf : List Nat) : Effect :=
  { displayData := buf, trace := TM1729_Clear }

/-- A call of `TM1729_DisplayAll` while the global `displayData` holds `buf`:
the function fills and sends its local array `fillData`; it has no statement
that writes `displayData`. -/
def TM1729_DisplayAll_call (fillData buf : List Nat) : Effect :=
  { displayData := buf, trace := TM1729_DisplayAll fillData }

/-- A call of `App_Init` while the global `displayData` holds `buf`: the
function sends `displayData` and does not write it. -/
def App_Init_call (buf : List Nat) : Effect :=
  { displayData := buf, trace := App_Init buf }

/-- The bytes of a sequence of protocol-layer calls, in order. -/
def busBytes : List BusOp → List Nat
  | [] => []
  | BusOp.byte b :: ops => b :: busBytes ops
  | BusOp.start :: ops => busBytes ops
  | BusOp.stop :: ops => busBytes ops

/-- The changes of level of the data line that happen while the clock line is
high, in order of occurrence, when the trace is played from the line state `s`:
`true` for a rising edge of the data line, `false` for a falling edge. -/
def dataEdgesClockHigh (s : Lines) : List Event → List Bool
  | [] => []
  | e :: es =>
    (if s.scl = true ∧ (s.step e).scl = true ∧ s.sda ≠ (s.step e).sda
      then [(s.step e).sda] else []) ++
      dataEdgesClockHigh (s.step e) es

/-! ## Bounds-checked run of the field encoder

The same statements as `TM1729_DisplaySet`, where every read of a segment table
and every access to `displayData` first checks its index against the declared
array size and the run stops with `none` at the first index out of bounds. The
accesses to `displayData` are the `&=` and `|=` statements of the field bodies
and the reads `pData[i]` that `TM1729_WriteData(displayData, MAX_LIGHT)` makes
in its loop. -/

/-- A checked read `table[i]`: `none` unless `0 <= i < length of the table`. -/
def checkedTableAt (table : List Nat) (i : Int) : Option Nat :=
  if 0 ≤ i ∧ i < table.length then some (tableAt table i) else none

/-- A checked `displayData[i] &= m;`: `none` unless `i < MAX_LIGHT`. -/
def checkedAndAssign (i m : Nat) (buf : List Nat) : Option (List Nat) :=
  if i < MAX_LIGHT then some (andAssign i m buf) else none

/-- A checked `displayData[i] |= v;`: `none` unless `i < MAX_LIGHT`. -/
def checkedOrAssign (i v : Nat) (buf : List Nat) : Option (List Nat) :=
  if i < MAX_LIGHT then some (orAssign i v buf) else none

/-- The three clearing statements every signal level starts with. -/
def checkedClearSignal (buf : List Nat) : Option (List Nat) := do
  let buf ← checkedAndAssign 9 0x1F buf
  let buf ← checkedAndAssign 13 0x7F buf
  checkedAndAssign 12 0x7F buf

/-- Checked body of `case DATA_TYPE_SIGNAL`. -/
def checkedSetSignal (data : Int) (buf : List Nat) : Option (List Nat) := do
  let buf ← if data = 0 then checkedClearSignal buf else pure buf
  let buf ← if data = 1 then do
      let buf ← checkedClearSignal buf
      checkedOrAssign 9 0x20 buf
    else pure buf
  let buf ← if data = 2 then do
      let buf ← checkedClearSignal buf
      checkedOrAssign 9 0x60 buf
    else pure buf
  let buf ← if data = 3 then do
      let buf ← checkedClearSignal buf
      checkedOrAssign 9 0xE0 buf
    else pure buf
  let buf ← if data = 4 then do
      let buf ← checkedClearSignal buf
      let buf ← checkedOrAssign 9 0xE0 buf
      checkedOrAssign 13 0x80 buf
    else pure buf
  let buf ← if data = 5 then do
      let buf ← checkedClearSignal buf
      let buf ← checkedOrAssign 9 0xE0 buf
      let buf ← checkedOrAssign 13 0x80 buf
      checkedOrAssign 12 0x80 buf
    else pure buf
  pure buf

/-- Checked body of the hour, minute and score cases. -/
def checkedSetDigits10_15 (k : Nat) (data : Int) (buf : List Nat) : Option (List Nat) := do
  let h := Int.tdiv data 10
  let l := Int.tmod data 10
  let buf ← checkedAndAssign k 0xF0 buf
  let buf ← checkedAndAssign (k + 1) 0x80 buf
  let buf ← checkedAndAssign (k + 2) 0x8F buf
  let t1 ← checkedTableAt sge_data_10_15 (h + 1)
  let buf ← checkedOrAssign k (t1 >>> 4) buf
  let t2 ← checkedTableAt sge_data_10_15 (h + 1)
  let buf ← checkedOrAssign (k + 1) ((t2 &&& 0x07) <<< 4) buf
  let u1 ← checkedTableAt sge_data_10_15 (l + 1)
  let buf ← checkedOrAssign (k + 1) (u1 >>> 4) buf
  let u2 ← checkedTableAt sge_data_10_15 (l + 1)
  checkedOrAssign (k + 2) ((u2 &&& 0x07) <<< 4) buf

/-- Checked body of `case DATA_TYPE_BATTERY`. -/
def checkedSetBattery (data : Int) (buf : List Nat) : Option (List Nat) := do
  let buf ← if data = 0 then do
      let buf ← checkedAndAssign 4 0x7F buf
      checkedAndAssign 15 0xF2 buf
    else pure buf
  let buf ← if data = 1 then do
      let buf ← checkedOrAssign 4 0x80 buf
      checkedAndAssign 15 0xF2 buf
    else pure buf
  let buf ← if data = 2 then do
      let buf ← checkedOrAssign 4 0x80 buf
      let buf ← checkedAndAssign 15 0xF2 buf
      checkedOrAssign 15 0x08 buf
    else pure buf
  let buf ← if data = 3 then do
      let buf ← checkedOrAssign 4 0x80 buf
      let buf ← checkedAndAssign 15 0xF2 buf
      checkedOrAssign 15 0x09 buf
    else pure buf
  let buf ← if data = 4 then do
      let buf ← checkedOrAssign 4 0x80 buf
      let buf ← checkedAndAssign 15 0xF2 buf
      checkedOrAssign 15 0x0D buf
    else pure buf
  pure buf

/-- Checked body of the two temperature cases. -/
def checkedSetTemp (hi lo : Nat) (data : Int) (buf : List Nat) : Option (List Nat) := do
  let buf ← if data < 0 then do
      let buf ← checkedAndAssign hi 0x80 buf
      let t ← checkedTableAt sge_data_1_9 0
      checkedOrAssign hi t buf
    else do
      let h := Int.tdiv data 10
      let buf ← checkedAndAssign hi 0x80 buf
      let t ← checkedTableAt sge_data_1_9 (h + 1)
      checkedOrAssign hi t buf
  let l := if data < 0 then -data else Int.tmod data 10
  let buf ← checkedAndAssign lo 0x80 buf
  let u ← checkedTableAt sge_data_1_9 (l + 1)
  checkedOrAssign lo u buf

/-- Checked body of `case DATA_TYPE_HUMIDITY`. -/
def checkedSetHumidity (data : Int) (buf : List Nat) : Option (List Nat) := do
  let h := Int.tdiv data 10
  let l := Int.tmod data 10
  let buf ← checkedAndAssign 4 0x80 buf
  let t ← checkedTableAt sge_data_1_9 (h + 1)
  let buf ← checkedOrAssign 4 t buf
  let buf ← checkedAndAssign 3 0x80 buf
  let u ← checkedTableAt sge_data_1_9 (l + 1)
  checkedOrAssign 3 u buf

/-- Checked body of `case DATA_TYPE_CO2`. -/
def checkedSetCO2 (data : Int) (buf : List Nat) : Option (List Nat) := do
  let h := Int.tdiv data 100
  let m := Int.tmod (Int.tdiv data 10) 10
  let l := Int.tmod data 10
  let t ← checkedTableAt sge_data_1_9 (h + 1)
  let buf ← checkedOrAssign 2 t buf
  let t ← checkedTableAt sge_data_1_9 (m + 1)
  let buf ← checkedOrAssign 1 t buf
  let buf ← checkedAndAssign 0 0x80 buf
  let t ← checkedTableAt sge_data_1_9 (l + 1)
  checkedOrAssign 0 t buf

/-- A checked read `pData[i]` of an array declared with `size` elements: `none`
unless `i < size`. -/
def checkedRead (size : Nat) (pData : List Nat) (i : Nat) : Option Nat :=
  if i < size then some (pData.getD i 0) else none

/-- The loop of `TM1729_WriteData` with the read `pData[i]` of every round
checked against the `size` of the array that `pData` points to. -/
def TM1729_WriteData_loop_checked (size : Nat) (pData : List Nat) :
    Nat → Nat → Option (List Event)
  | _, 0 => some []
  | i, n + 1 => do
    let b ← checkedRead size pData i
    let rest ← TM1729_WriteData_loop_checked size pData (i + 1) n
    pure (MyI2C_SendByte b ++ rest)

/-- `TM1729_WriteData(pData, len)` with every read of `pData` checked. -/
def TM1729_WriteData_checked (size : Nat) (pData : List Nat) (len : Nat) :
    Option (List Event) := do
  let body ← TM1729_WriteData_loop_checked size pData 0 (len % 256)
  pure (MyI2C_Start ++
    MyI2C_SendByte TM1729_SLAVE_ADDRESS ++
    MyI2C_SendByte TM1729_ADSET ++
    body ++
    MyI2C_Stop)

/-- The tail `TM1729_WriteData(displayData, MAX_LIGHT); return 0;` with the reads
of `displayData` checked against its `MAX_LIGHT` bytes. -/
def checkedSendAndReturn (buf : List Nat) : Option Outcome := do
  let trace ← TM1729_WriteData_checked MAX_LIGHT buf MAX_LIGHT
  pure { ret := 0, displayData := buf, trace := trace }

/-- The common tail after a checked body: the checked transfer and `return 0`. -/
def checkedSend (body : Option (List Nat)) : Option Outcome :=
  body.bind checkedSendAndReturn

/-- `TM1729_DisplaySet` with every array access checked. -/
def TM1729_DisplaySet_checked (type : Int) (data : Int) (buf : List Nat) : Option Outcome :=
  if type = DATA_TYPE_SIGNAL then
    if data ≥ 0 ∧ data ≤ 5 then checkedSend (checkedSetSignal data buf)
    else some (returnOnly (-1) buf)
  else if type = DATA_TYPE_BELL then
    if data = 1 then checkedSend (checkedOrAssign 10 0x80 buf)
    else if data = 0 then checkedSend (checkedAndAssign 10 0x7F buf)
    else some (returnOnly (-1) buf)
  else if type = DATA_TYPE_HOUR then
    if data ≥ 0 ∧ data ≤ 23 then checkedSend (checkedSetDigits10_15 9 data buf)
    else some (returnOnly (-1) buf)
  else if type = DATA_TYPE_MINUTE then
    if data ≥ 0 ∧ data ≤ 59 then checkedSend (checkedSetDigits10_15 11 data buf)
    else some (returnOnly (-1) buf)
  else if type = DATA_TYPE_SCORE then
    if data ≥ 0 ∧ data ≤ 99 then checkedSend (checkedSetDigits10_15 13 data buf)
    else some (returnOnly (-1) buf)
  else if type = DATA_TYPE_BATTERY then
    if data ≥ 0 ∧ data ≤ 4 then checkedSend (checkedSetBattery data buf)
    else some (returnOnly (-1) buf)
  else if type = DATA_TYPE_TEMP1 then
    if data ≥ -9 ∧ data ≤ 99 then checkedSend (checkedSetTemp 8 7 data buf)
    else some (returnOnly (-1) buf)
  else if type = DATA_TYPE_TEMP2 then
    if data ≥ -9 ∧ data ≤ 99 then checkedSend (checkedSetTemp 6 5 data buf)
    else some (returnOnly (-1) buf)
  else if type = DATA_TYPE_HUMIDITY then
    if data ≥ 0 ∧ data ≤ 99 then checkedSend (checkedSetHumidity data buf)
    else some (returnOnly (-1) buf)
  else if type = DATA_TYPE_CO2 then
    if data ≥ 0 ∧ data ≤ 999 then checkedSend (checkedSetCO2 data buf)
    else some (returnOnly (-1) buf)
  else some (returnOnly (-2) buf)

theorem knownType_cases {type : Int} (h : knownType type) :
    type = 0 ∨ type = 1 ∨ type = 2 ∨ type = 3 ∨ type = 4 ∨
    type = 5 ∨ type = 6 ∨ type = 7 ∨ type = 8 ∨ type = 9 := by
  unfold knownType at h; omega

@[simp] theorem sendAndReturn_ret (buf : List Nat) : (sendAndReturn buf).ret = 0 := rfl
@[simp] theorem sendAndReturn_displayData (buf : List Nat) :
    (sendAndReturn buf).displayData = buf := rfl
@[simp] theorem sendAndReturn_trace (buf : List Nat) :
    (sendAndReturn buf).trace = TM1729_WriteData buf MAX_LIGHT := rfl
@[simp] theorem returnOnly_ret (r : Int) (buf : List Nat) : (returnOnly r buf).ret = r := rfl
@[simp] theorem returnOnly_displayData (r : Int) (buf : List Nat) :
    (returnOnly r buf).displayData = buf := rfl
@[simp] theorem returnOnly_trace (r : Int) (buf : List Nat) : (returnOnly r buf).trace = [] := rfl

/-! ## The switch, case by case -/

theorem DisplaySet_signal (data : Int) (buf : List Nat) :
    TM1729_DisplaySet 0 data buf =
      if data ≥ 0 ∧ data ≤ 5 then sendAndReturn (setSignal data buf)
      else returnOnly (-1) buf := rfl

theorem DisplaySet_bell (data : Int) (buf : List Nat) :
    TM1729_DisplaySet 1 data buf =
      if data = 1 then sendAndReturn (orAssign 10 0x80 buf)
      else if data = 0 then sendAndReturn (andAssign 10 0x7F buf)
      else returnOnly (-1) buf := rfl

theorem DisplaySet_hour (data : Int) (buf : List Nat) :
    TM1729_DisplaySet 2 data buf =
      if data ≥ 0 ∧ data ≤ 23 then sendAndReturn (setDigits10_15 9 data buf)
      else returnOnly (-1) buf := rfl

theorem DisplaySet_minute (data : Int) (buf : List Nat) :
    TM1729_DisplaySet 3 data buf =
      if data ≥ 0 ∧ data ≤ 59 then sendAndReturn (setDigits10_15 11 data buf)
      else returnOnly (-1) buf := rfl

theorem DisplaySet_score (data : Int) (buf : List Nat) :
    TM1729_DisplaySet 4 data buf =
      if data ≥ 0 ∧ data ≤ 99 then sendAndReturn (setDigits10_15 13 data buf)
      else returnOnly (-1) buf := rfl

theorem DisplaySet_battery (data : Int) (buf : List Nat) :
    TM1729_DisplaySet 5 data buf =
      if data ≥ 0 ∧ data ≤ 4 then sendAndReturn (setBattery data buf)
      else returnOnly (-1) buf := rfl

theorem DisplaySet_temp1 (data : Int) (buf : List Nat) :
    TM1729_DisplaySet 6 data buf =
      if data ≥ -9 ∧ data ≤ 99 then sendAndReturn (setTemp 8 7 data buf)
      else returnOnly (-1) buf := rfl

theorem DisplaySet_temp2 (data : Int) (buf : List Nat) :
    TM1729_DisplaySet 7 data buf =
      if data ≥ -9 ∧ data ≤ 99 then sendAndReturn (setTemp 6 5 data buf)
      else returnOnly (-1) buf := rfl

theorem DisplaySet_humidity (data : Int) (buf : List Nat) :
    TM1729_DisplaySet 8 data buf =
      if data ≥ 0 ∧ data ≤ 99 then sendAndReturn (setHumidity data buf)
      else returnOnly (-1) buf := rfl

theorem DisplaySet_co2 (data : Int) (buf : List Nat) :
    TM1729_DisplaySet 9 data buf =
      if data ≥ 0 ∧ data ≤ 999 then sendAndReturn (setCO2 data buf)
      else returnOnly (-1) buf := rfl

theorem DisplaySet_unknown {type : Int} (h : ¬ knownType type) (data : Int) (buf : List Nat) :
    TM1729_DisplaySet type data buf = returnOnly (-2) buf := by
  unfold knownType at h
  unfold TM1729_DisplaySet
  rw [if_neg (show ¬ type = 0 by omega), if_neg (show ¬ type = 1 by omega),
    if_neg (show ¬ type = 2 by omega), if_neg (show ¬ type = 3 by omega),
    if_neg (show ¬ type = 4 by omega), if_neg (show ¬ type = 5 by omega),
    if_neg (show ¬ type = 6 by omega), if_neg (show ¬ type = 7 by omega),
    if_neg (show ¬ type = 8 by omega), if_neg (show ¬ type = 9 by omega)]

theorem fieldRange_unknown {type : Int} (h : ¬ knownType type) : fieldRange type = none := by
  unfold knownType at h
  unfold fieldRange
  rw [if_neg (show ¬ type = 0 by omega), if_neg (show ¬ type = 1 by omega),
    if_neg (show ¬ type = 2 by omega), if_neg (show ¬ type = 3 by omega),
    if_neg (show ¬ type = 4 by omega), if_neg (show ¬ type = 5 by omega),
    if_neg (show ¬ type = 6 by omega), if_neg (show ¬ type = 7 by omega),
    if_neg (show ¬ type = 8 by omega), if_neg (show ¬ type = 9 by omega)]

/-- A call that returns a non-zero status has changed nothing and sent nothing. -/
theorem DisplaySet_error (type data : Int) (buf : List Nat)
    (h : (TM1729_DisplaySet type data buf).ret ≠ 0) :
    (TM1729_DisplaySet type data buf).displayData = buf ∧
    (TM1729_DisplaySet type data buf).trace = [] := by
  by_cases hk : knownType type
  · revert h
    rcases knownType_cases hk with h | h | h | h | h | h | h | h | h | h <;> subst h
    · rw [DisplaySet_signal]; split <;> simp
    · rw [DisplaySet_bell]; repeat' split
      all_goals simp
    · rw [DisplaySet_hour]; split <;> simp
    · rw [DisplaySet_minute]; split <;> simp
    · rw [DisplaySet_score]; split <;> simp
    · rw [DisplaySet_battery]; split <;> simp
    · rw [DisplaySet_temp1]; split <;> simp
    · rw [DisplaySet_temp2]; split <;> simp
    · rw [DisplaySet_humidity]; split <;> simp
    · rw [DisplaySet_co2]; split <;> simp
  · rw [DisplaySet_unknown hk]; simp

theorem ret_guarded {c P : Prop} [Decidable c] [Decidable P] (h : P ↔ c)
    (a buf : List Nat) :
    (if c then sendAndReturn a else returnOnly (-1) buf).ret = if P then 0 else -1 := by
  by_cases hc : c
  · rw [if_pos hc, if_pos (h.2 hc)]; rfl
  · rw [if_neg hc, if_neg (mt h.1 hc)]; rfl

theorem inRange_bell (data : Int) : inRange 1 data ↔ data = 1 ∨ data = 0 := by
  show (0 ≤ data ∧ data ≤ 1) ↔ _
  omega

/-- The status alone, as a function of the arguments. -/
theorem DisplaySet_ret (type data : Int) (buf : List Nat) :
    (TM1729_DisplaySet type data buf).ret =
      if inRange type data then 0 else if knownType type then -1 else -2 := by
  by_cases hk : knownType type
  · rw [if_pos hk]
    rcases knownType_cases hk with h | h | h | h | h | h | h | h | h | h <;> subst h
    · exact ret_guarded (P := inRange 0 data) Iff.rfl _ _
    · rw [DisplaySet_bell]
      by_cases h1 : data = 1
      · rw [if_pos h1, if_pos ((inRange_bell data).2 (Or.inl h1))]; rfl
      · rw [if_neg h1]
        by_cases h0 : data = 0
        · rw [if_pos h0, if_pos ((inRange_bell data).2 (Or.inr h0))]; rfl
        · rw [if_neg h0, if_neg (fun h => (((inRange_bell data).1 h).elim h1 h0))]; rfl
    · exact ret_guarded (P := inRange 2 data) Iff.rfl _ _
    · exact ret_guarded (P := inRange 3 data) Iff.rfl _ _
    · exact ret_guarded (P := inRange 4 data) Iff.rfl _ _
    · exact ret_guarded (P := inRange 5 data) Iff.rfl _ _
    · exact ret_guarded (P := inRange 6 data) Iff.rfl _ _
    · exact ret_guarded (P := inRange 7 data) Iff.rfl _ _
    · exact ret_guarded (P := inRange 8 data) Iff.rfl _ _
    · exact ret_guarded (P := inRange 9 data) Iff.rfl _ _
  · rw [DisplaySet_unknown hk]
    have : ¬ inRange type data := by
      unfold inRange; rw [fieldRange_unknown hk]; exact id
    rw [if_neg this, if_neg hk]; rfl

theorem inRange_known {type data : Int} (h : inRange type data) : knownType type := by
  by_contra hk
  unfold inRange at h
  rw [fieldRange_unknown hk] at h
  exact h

/-! ## Reads after writes -/

theorem rd_set (buf : List Nat) (i v j : Nat) :
    rd (buf.set i v) j = if j = i ∧ i < buf.length then v else rd buf j := by
  unfold rd
  rw [List.getD_eq_getElem?_getD, List.getD_eq_getElem?_getD, List.getElem?_set]
  by_cases hji : j = i
  · subst hji
    by_cases hl : j < buf.length
    · simp [hl]
    · simp [hl, List.getElem?_eq_none (Nat.le_of_not_lt hl)]
  · have : ¬ i = j := fun h => hji h.symm
    simp [hji, this]

theorem rd_andAssign (i m : Nat) (buf : List Nat) (j : Nat) :
    rd (andAssign i m buf) j =
      if j = i ∧ i < buf.length then (rd buf i &&& m) % 256 else rd buf j :=
  rd_set buf i _ j

theorem rd_orAssign (i v : Nat) (buf : List Nat) (j : Nat) :
    rd (orAssign i v buf) j =
      if j = i ∧ i < buf.length then (rd buf i ||| v) % 256 else rd buf j :=
  rd_set buf i _ j

@[simp] theorem length_andAssign (i m : Nat) (buf : List Nat) :
    (andAssign i m buf).length = buf.length := by
  simp [andAssign]

@[simp] theorem length_orAssign (i v : Nat) (buf : List Nat) :
    (orAssign i v buf).length = buf.length := by
  simp [orAssign]

theorem rd_lt {buf : List Nat} (hwf : WF buf) (i : Nat) : rd buf i < 256 := by
  unfold rd
  rw [List.getD_eq_getElem?_getD]
  by_cases hl : i < buf.length
  · rw [List.getElem?_eq_getElem hl]
    exact hwf.2 _ (List.getElem_mem hl)
  · rw [List.getElem?_eq_none (Nat.le_of_not_lt hl)]
    exact Nat.zero_lt_succ _

theorem WF_set {buf : List Nat} (hwf : WF buf) (i v : Nat) (hv : v < 256) :
    WF (buf.set i v) := by
  refine ⟨by rw [List.length_set]; exact hwf.1, ?_⟩
  intro b hb
  rcases List.mem_or_eq_of_mem_set hb with h | h
  · exact hwf.2 b h
  · exact h ▸ hv

theorem WF_andAssign {buf : List Nat} (hwf : WF buf) (i m : Nat) : WF (andAssign i m buf) :=
  WF_set hwf i _ (Nat.mod_lt _ (by decide))

theorem WF_orAssign {buf : List Nat} (hwf : WF buf) (i v : Nat) : WF (orAssign i v buf) :=
  WF_set hwf i _ (Nat.mod_lt _ (by decide))

/-- Two buffers of the same length with the same bytes are equal. -/
theorem buf_ext {a b : List Nat} (hl : a.length = b.length) (h : ∀ i, rd a i = rd b i) :
    a = b := by
  apply List.ext_getElem hl
  intro n h1 h2
  have := h n
  unfold rd at this
  rw [List.getD_eq_getElem?_getD, List.getD_eq_getElem?_getD,
    List.getElem?_eq_getElem h1, List.getElem?_eq_getElem h2] at this
  exact this


/-! ## Stores under well-formedness: no truncation happens -/

theorem and_mod_byte {b : Nat} (hb : b < 256) (m : Nat) : (b &&& m) % 256 = b &&& m :=
  Nat.mod_eq_of_lt (Nat.lt_of_le_of_lt Nat.and_le_left hb)

theorem or_mod_byte {b v : Nat} (hb : b < 256) (hv : v < 256) : (b ||| v) % 256 = b ||| v :=
  Nat.mod_eq_of_lt (Nat.or_lt_two_pow (n := 8) hb hv)

theorem and_or_mod_byte {b v : Nat} (hb : b < 256) (hv : v < 256) (m : Nat) :
    ((b &&& m) ||| v) % 256 = (b &&& m) ||| v :=
  or_mod_byte (Nat.lt_of_le_of_lt Nat.and_le_left hb) hv

theorem and_or_or_mod_byte {b v w : Nat} (hb : b < 256) (hv : v < 256) (hw : w < 256)
    (m : Nat) : (((b &&& m) ||| v) ||| w) % 256 = ((b &&& m) ||| v) ||| w :=
  or_mod_byte (Nat.or_lt_two_pow (n := 8) (Nat.lt_of_le_of_lt Nat.and_le_left hb) hv) hw

theorem rd_andAssign_WF {buf : List Nat} (hwf : WF buf) {i : Nat} (hi : i < 26) (m j : Nat) :
    rd (andAssign i m buf) j = if j = i then rd buf i &&& m else rd buf j := by
  rw [rd_andAssign, and_mod_byte (rd_lt hwf i)]
  have hl : i < buf.length := by rw [hwf.1]; exact hi
  by_cases hj : j = i <;> simp [hj, hl]

theorem rd_orAssign_WF {buf : List Nat} (hwf : WF buf) {i : Nat} (hi : i < 26) {v : Nat}
    (hv : v < 256) (j : Nat) :
    rd (orAssign i v buf) j = if j = i then rd buf i ||| v else rd buf j := by
  rw [rd_orAssign, or_mod_byte (rd_lt hwf i) hv]
  have hl : i < buf.length := by rw [hwf.1]; exact hi
  by_cases hj : j = i <;> simp [hj, hl]

/-! ## Table entries -/

theorem tableAt_1_9_lt (x : Int) : tableAt sge_data_1_9 x < 128 := by
  unfold tableAt
  by_cases h : x.toNat < 11
  · generalize x.toNat = i at h
    revert i
    decide
  · rw [List.getD_eq_getElem?_getD, List.getElem?_eq_none (by simpa [sge_data_1_9] using h)]
    decide

theorem tableAt_10_15_lt (x : Int) : tableAt sge_data_10_15 x < 256 := by
  unfold tableAt
  by_cases h : x.toNat < 11
  · generalize x.toNat = i at h
    revert i
    decide
  · rw [List.getD_eq_getElem?_getD, List.getElem?_eq_none (by simpa [sge_data_10_15] using h)]
    decide

theorem shr4_lt {t : Nat} (ht : t < 256) : t >>> 4 < 256 := by
  rw [Nat.shiftRight_eq_div_pow]; omega

theorem and7_shl4_lt (t : Nat) : (t &&& 7) <<< 4 < 256 := by
  have h : t &&& 7 < 2 ^ 3 := Nat.and_lt_two_pow t (by decide)
  rw [Nat.shiftLeft_eq]; omega


/-! ## The byte values each field body leaves behind -/

theorem rd_setDigits10_15 {buf : List Nat} (hwf : WF buf) {k : Nat}
    (hk : k = 9 ∨ k = 11 ∨ k = 13) (data : Int) (j : Nat) :
    rd (setDigits10_15 k data buf) j =
      if j = k then
        rd buf k &&& 0xF0 ||| tableAt sge_data_10_15 (data.tdiv 10 + 1) >>> 4
      else if j = k + 1 then
        rd buf (k + 1) &&& 0x80 ||| (tableAt sge_data_10_15 (data.tdiv 10 + 1) &&& 0x07) <<< 4
          ||| tableAt sge_data_10_15 (data.tmod 10 + 1) >>> 4
      else if j = k + 2 then
        rd buf (k + 2) &&& 0x8F ||| (tableAt sge_data_10_15 (data.tmod 10 + 1) &&& 0x07) <<< 4
      else rd buf j := by
  have h1 := shr4_lt (tableAt_10_15_lt (data.tdiv 10 + 1))
  have h2 := and7_shl4_lt (tableAt sge_data_10_15 (data.tdiv 10 + 1))
  have h3 := shr4_lt (tableAt_10_15_lt (data.tmod 10 + 1))
  have h4 := and7_shl4_lt (tableAt sge_data_10_15 (data.tmod 10 + 1))
  have hl : buf.length = 26 := hwf.1
  simp only [setDigits10_15, rd_orAssign, rd_andAssign, length_orAssign, length_andAssign, hl]
  rcases hk with rfl | rfl | rfl <;>
    simp [and_mod_byte, or_mod_byte, and_or_mod_byte, and_or_or_mod_byte, rd_lt hwf,
      h1, h2, h3, h4] <;>
    split_ifs <;> first | rfl | omega

theorem rd_setSignal {buf : List Nat} (hwf : WF buf) {data : Int}
    (hr : 0 ≤ data ∧ data ≤ 5) (j : Nat) :
    rd (setSignal data buf) j =
      if j = 9 then rd buf 9 &&& 0x1F ||| (signalBits data).1
      else if j = 13 then rd buf 13 &&& 0x7F ||| (signalBits data).2.1
      else if j = 12 then rd buf 12 &&& 0x7F ||| (signalBits data).2.2
      else rd buf j := by
  have hl : buf.length = 26 := hwf.1
  have hd : data = 0 ∨ data = 1 ∨ data = 2 ∨ data = 3 ∨ data = 4 ∨ data = 5 := by omega
  rcases hd with rfl | rfl | rfl | rfl | rfl | rfl <;>
    simp [setSignal, signalBits, rd_orAssign, rd_andAssign, hl,
      and_mod_byte, or_mod_byte, and_or_mod_byte, rd_lt hwf] <;>
    split_ifs <;> first | rfl | omega

theorem rd_setBell_on {buf : List Nat} (hwf : WF buf) (j : Nat) :
    rd (orAssign 10 0x80 buf) j = if j = 10 then rd buf 10 ||| 0x80 else rd buf j :=
  rd_orAssign_WF hwf (by decide) (by decide) j

theorem rd_setBell_off {buf : List Nat} (hwf : WF buf) (j : Nat) :
    rd (andAssign 10 0x7F buf) j = if j = 10 then rd buf 10 &&& 0x7F else rd buf j :=
  rd_andAssign_WF hwf (by decide) _ j

theorem rd_setBattery {buf : List Nat} (hwf : WF buf) {data : Int}
    (hr : 0 ≤ data ∧ data ≤ 4) (j : Nat) :
    rd (setBattery data buf) j =
      if j = 4 then (if data = 0 then rd buf 4 &&& 0x7F else rd buf 4 ||| 0x80)
      else if j = 15 then rd buf 15 &&& 0xF2 ||| batteryBits data
      else rd buf j := by
  have hl : buf.length = 26 := hwf.1
  have hd : data = 0 ∨ data = 1 ∨ data = 2 ∨ data = 3 ∨ data = 4 := by omega
  rcases hd with rfl | rfl | rfl | rfl | rfl <;>
    simp [setBattery, batteryBits, rd_orAssign, rd_andAssign, hl,
      and_mod_byte, or_mod_byte, and_or_mod_byte, rd_lt hwf] <;>
    split_ifs <;> first | rfl | omega

theorem rd_setTemp {buf : List Nat} (hwf : WF buf) {hi lo : Nat}
    (hk : (hi = 8 ∧ lo = 7) ∨ (hi = 6 ∧ lo = 5)) (data : Int) (j : Nat) :
    rd (setTemp hi lo data buf) j =
      if j = hi then
        rd buf hi &&& 0x80 |||
          (if data < 0 then tableAt sge_data_1_9 0
           else tableAt sge_data_1_9 (data.tdiv 10 + 1))
      else if j = lo then
        rd buf lo &&& 0x80 |||
          tableAt sge_data_1_9 ((if data < 0 then -data else data.tmod 10) + 1)
      else rd buf j := by
  have h1 : tableAt sge_data_1_9 0 < 256 := by decide
  have h2 := Nat.lt_trans (tableAt_1_9_lt (data.tdiv 10 + 1)) (by decide : 128 < 256)
  have h3 := Nat.lt_trans (tableAt_1_9_lt (-data + 1)) (by decide : 128 < 256)
  have h4 := Nat.lt_trans (tableAt_1_9_lt (data.tmod 10 + 1)) (by decide : 128 < 256)
  have hl : buf.length = 26 := hwf.1
  rcases hk with ⟨rfl, rfl⟩ | ⟨rfl, rfl⟩ <;> by_cases hneg : data < 0 <;>
    simp [setTemp, hneg, rd_orAssign, rd_andAssign, hl,
      and_mod_byte, or_mod_byte, and_or_mod_byte, rd_lt hwf, h1, h2, h3, h4] <;>
    split_ifs <;> first | rfl | omega

theorem rd_setHumidity {buf : List Nat} (hwf : WF buf) (data : Int) (j : Nat) :
    rd (setHumidity data buf) j =
      if j = 4 then rd buf 4 &&& 0x80 ||| tableAt sge_data_1_9 (data.tdiv 10 + 1)
      else if j = 3 then rd buf 3 &&& 0x80 ||| tableAt sge_data_1_9 (data.tmod 10 + 1)
      else rd buf j := by
  have h2 := Nat.lt_trans (tableAt_1_9_lt (data.tdiv 10 + 1)) (by decide : 128 < 256)
  have h3 := Nat.lt_trans (tableAt_1_9_lt (data.tmod 10 + 1)) (by decide : 128 < 256)
  have hl : buf.length = 26 := hwf.1
  simp [setHumidity, rd_orAssign, rd_andAssign, hl,
      and_mod_byte, or_mod_byte, and_or_mod_byte, rd_lt hwf, h2, h3]
  split_ifs <;> first | rfl | omega

theorem rd_setCO2 {buf : List Nat} (hwf : WF buf) (data : Int) (j : Nat) :
    rd (setCO2 data buf) j =
      if j = 2 then rd buf 2 ||| tableAt sge_data_1_9 (data.tdiv 100 + 1)
      else if j = 1 then rd buf 1 ||| tableAt sge_data_1_9 ((data.tdiv 10).tmod 10 + 1)
      else if j = 0 then rd buf 0 &&& 0x80 ||| tableAt sge_data_1_9 (data.tmod 10 + 1)
      else rd buf j := by
  have h1 := Nat.lt_trans (tableAt_1_9_lt (data.tdiv 100 + 1)) (by decide : 128 < 256)
  have h2 := Nat.lt_trans (tableAt_1_9_lt ((data.tdiv 10).tmod 10 + 1)) (by decide : 128 < 256)
  have h3 := Nat.lt_trans (tableAt_1_9_lt (data.tmod 10 + 1)) (by decide : 128 < 256)
  have hl : buf.length = 26 := hwf.1
  simp [setCO2, rd_orAssign, rd_andAssign, hl,
      and_mod_byte, or_mod_byte, and_or_mod_byte, rd_lt hwf, h1, h2, h3]
  split_ifs <;> first | rfl | omega


/-! ## Well-formedness is preserved -/

theorem WF_ite {c : Prop} [Decidable c] {a b : List Nat} (ha : WF a) (hb : WF b) :
    WF (if c then a else b) := by
  split <;> assumption

theorem WF_setSignal {buf : List Nat} (hwf : WF buf) {data : Int}
    (hr : data ≥ 0 ∧ data ≤ 5) : WF (setSignal data buf) := by
  have hd : data = 0 ∨ data = 1 ∨ data = 2 ∨ data = 3 ∨ data = 4 ∨ data = 5 := by omega
  rcases hd with rfl | rfl | rfl | rfl | rfl | rfl <;> simp [setSignal] <;>
    repeat (first | exact hwf | apply WF_andAssign | apply WF_orAssign)

theorem WF_setDigits10_15 {buf : List Nat} (hwf : WF buf) (k : Nat) (data : Int) :
    WF (setDigits10_15 k data buf) := by
  simp only [setDigits10_15]
  repeat (first | exact hwf | apply WF_andAssign | apply WF_orAssign)

theorem WF_setBattery {buf : List Nat} (hwf : WF buf) {data : Int}
    (hr : data ≥ 0 ∧ data ≤ 4) : WF (setBattery data buf) := by
  have hd : data = 0 ∨ data = 1 ∨ data = 2 ∨ data = 3 ∨ data = 4 := by omega
  rcases hd with rfl | rfl | rfl | rfl | rfl <;> simp [setBattery] <;>
    repeat (first | exact hwf | apply WF_andAssign | apply WF_orAssign)

theorem WF_setTemp {buf : List Nat} (hwf : WF buf) (hi lo : Nat) (data : Int) :
    WF (setTemp hi lo data buf) := by
  simp only [setTemp]
  repeat (first | exact hwf | apply WF_ite | apply WF_andAssign | apply WF_orAssign)

theorem WF_setHumidity {buf : List Nat} (hwf : WF buf) (data : Int) :
    WF (setHumidity data buf) := by
  simp only [setHumidity]
  repeat (first | exact hwf | apply WF_andAssign | apply WF_orAssign)

theorem WF_setCO2 {buf : List Nat} (hwf : WF buf) (data : Int) : WF (setCO2 data buf) := by
  simp only [setCO2]
  repeat (first | exact hwf | apply WF_andAssign | apply WF_orAssign)

theorem WF_guarded {c : Prop} [Decidable c] {a buf : List Nat} (ha : c → WF a) (hb : WF buf)
    (r : Int) : WF (if c then sendAndReturn a else returnOnly r buf).displayData := by
  split
  · exact ha (by assumption)
  · exact hb

theorem WF_DisplaySet {buf : List Nat} (hwf : WF buf) (type data : Int) :
    WF (TM1729_DisplaySet type data buf).displayData := by
  by_cases hk : knownType type
  · rcases knownType_cases hk with h | h | h | h | h | h | h | h | h | h <;> subst h
    · exact WF_guarded (fun hr => WF_setSignal hwf hr) hwf _
    · rw [DisplaySet_bell]
      split
      · exact WF_orAssign hwf _ _
      · exact WF_guarded (fun _ => WF_andAssign hwf _ _) hwf _
    · exact WF_guarded (fun _ => WF_setDigits10_15 hwf _ data) hwf _
    · exact WF_guarded (fun _ => WF_setDigits10_15 hwf _ data) hwf _
    · exact WF_guarded (fun _ => WF_setDigits10_15 hwf _ data) hwf _
    · exact WF_guarded (fun hr => WF_setBattery hwf hr) hwf _
    · exact WF_guarded (fun _ => WF_setTemp hwf _ _ data) hwf _
    · exact WF_guarded (fun _ => WF_setTemp hwf _ _ data) hwf _
    · exact WF_guarded (fun _ => WF_setHumidity hwf data) hwf _
    · exact WF_guarded (fun _ => WF_setCO2 hwf data) hwf _
  · rw [DisplaySet_unknown hk]; exact hwf

/-! ## Masked merges -/

theorem and_outside {keep o : Nat} (h1 : keep &&& o = o) (b : Nat) :
    (b &&& keep) &&& o = b &&& o := by
  rw [Nat.and_assoc, h1]

theorem or_outside {v o : Nat} (h2 : v &&& o = 0) (b : Nat) :
    (b ||| v) &&& o = b &&& o := by
  apply Nat.eq_of_testBit_eq
  intro i
  have h := congrArg (fun n => n.testBit i) h2
  simp only [Nat.testBit_and, Nat.testBit_or, Nat.zero_testBit] at h ⊢
  revert h
  cases b.testBit i <;> cases v.testBit i <;> cases o.testBit i <;> simp

theorem and_or_outside {keep v o : Nat} (h1 : keep &&& o = o) (h2 : v &&& o = 0) (b : Nat) :
    (b &&& keep ||| v) &&& o = b &&& o := by
  rw [or_outside h2, and_outside h1]

/-! ## Where table patterns can have bits -/

theorem tableAt_1_9_top (x : Int) : tableAt sge_data_1_9 x &&& 0x80 = 0 := by
  have h := tableAt_1_9_lt x
  generalize tableAt sge_data_1_9 x = t at h
  revert t
  decide

set_option maxRecDepth 100000 in
theorem shr4_high : ∀ t, t < 256 → (t >>> 4) &&& 0xF0 = 0 := by
  decide

theorem and7_shl4_out (t : Nat) : ((t &&& 7) <<< 4) &&& 0x8F = 0 := by
  have h : t &&& 7 < 8 := Nat.and_lt_two_pow t (n := 3) (by decide)
  generalize t &&& 7 = x at h
  revert x
  decide

set_option maxRecDepth 100000 in
theorem shr4_low : ∀ t, t < 256 → (t >>> 4) &&& 0x80 = 0 := by
  decide

theorem and7_shl4_top (t : Nat) : ((t &&& 7) <<< 4) &&& 0x80 = 0 := by
  have h : t &&& 7 < 8 := Nat.and_lt_two_pow t (n := 3) (by decide)
  generalize t &&& 7 = x at h
  revert x
  decide

theorem or_and_zero {a b o : Nat} (ha : a &&& o = 0) (hb : b &&& o = 0) :
    (a ||| b) &&& o = 0 := by
  rw [or_outside hb, ha]

/-! ## Frame: each field body stays inside its mask -/

theorem frame_setSignal {buf : List Nat} (hwf : WF buf) {data : Int}
    (hr : 0 ≤ data ∧ data ≤ 5) (j : Nat) :
    rd (setSignal data buf) j &&& outside (fieldMask 0 j) =
      rd buf j &&& outside (fieldMask 0 j) := by
  rw [rd_setSignal hwf hr]
  have hd : data = 0 ∨ data = 1 ∨ data = 2 ∨ data = 3 ∨ data = 4 ∨ data = 5 := by omega
  show _ &&& outside (if j = 9 then 0xE0 else if j = 12 then 0x80 else if j = 13 then 0x80
    else 0) = _ &&& outside (if j = 9 then 0xE0 else if j = 12 then 0x80 else if j = 13
    then 0x80 else 0)
  by_cases h9 : j = 9
  · rw [if_pos h9, if_pos h9, h9]
    rcases hd with rfl | rfl | rfl | rfl | rfl | rfl <;>
      exact and_or_outside (by decide) (by decide) _
  · rw [if_neg h9, if_neg h9]
    by_cases h13 : j = 13
    · subst h13
      rw [if_pos rfl, if_neg (by decide), if_pos rfl]
      rcases hd with rfl | rfl | rfl | rfl | rfl | rfl <;>
        exact and_or_outside (by decide) (by decide) _
    · rw [if_neg h13]
      by_cases h12 : j = 12
      · subst h12
        rw [if_pos rfl, if_pos rfl]
        rcases hd with rfl | rfl | rfl | rfl | rfl | rfl <;>
          exact and_or_outside (by decide) (by decide) _
      · rw [if_neg h12]

theorem frame_setBell {buf : List Nat} (hwf : WF buf) {data : Int}
    (hr : data = 1 ∨ data = 0) (j : Nat) :
    rd (if data = 1 then orAssign 10 0x80 buf else andAssign 10 0x7F buf) j &&&
        outside (fieldMask 1 j) =
      rd buf j &&& outside (fieldMask 1 j) := by
  show _ &&& outside (if j = 10 then 0x80 else 0) = _ &&& outside (if j = 10 then 0x80 else 0)
  rcases hr with rfl | rfl
  · rw [if_pos rfl, rd_setBell_on hwf]
    split_ifs with h
    · subst h; exact or_outside (by decide) _
    · rfl
  · rw [if_neg (by decide), rd_setBell_off hwf]
    split_ifs with h
    · subst h; exact and_outside (by decide) _
    · rfl

theorem frame_setDigits10_15 {buf : List Nat} (hwf : WF buf) {k : Nat} {type : Int}
    (hk : (k = 9 ∧ type = 2) ∨ (k = 11 ∧ type = 3) ∨ (k = 13 ∧ type = 4))
    (data : Int) (j : Nat) :
    rd (setDigits10_15 k data buf) j &&& outside (fieldMask type j) =
      rd buf j &&& outside (fieldMask type j) := by
  have hk3 : k = 9 ∨ k = 11 ∨ k = 13 := by omega
  rw [rd_setDigits10_15 hwf hk3]
  have hm : fieldMask type j =
      if j = k then 0x0F else if j = k + 1 then 0x7F else if j = k + 2 then 0x70 else 0 := by
    rcases hk with ⟨rfl, rfl⟩ | ⟨rfl, rfl⟩ | ⟨rfl, rfl⟩ <;> rfl
  rw [hm]
  split_ifs with h1 h2 h3
  · subst h1
    exact and_or_outside (by decide) (shr4_high _ (tableAt_10_15_lt _)) _
  · subst h2
    rw [Nat.or_assoc]
    exact and_or_outside (by decide)
      (or_and_zero (and7_shl4_top _) (shr4_low _ (tableAt_10_15_lt _))) _
  · subst h3
    exact and_or_outside (by decide) (and7_shl4_out _) _
  · rfl

theorem frame_setBattery {buf : List Nat} (hwf : WF buf) {data : Int}
    (hr : 0 ≤ data ∧ data ≤ 4) (j : Nat) :
    rd (setBattery data buf) j &&& outside (fieldMask 5 j) =
      rd buf j &&& outside (fieldMask 5 j) := by
  rw [rd_setBattery hwf hr]
  have hd : data = 0 ∨ data = 1 ∨ data = 2 ∨ data = 3 ∨ data = 4 := by omega
  show _ &&& outside (if j = 4 then 0x80 else if j = 15 then 0x0D else 0) =
    _ &&& outside (if j = 4 then 0x80 else if j = 15 then 0x0D else 0)
  split_ifs with h4 h0 h15
  · subst h4; exact and_outside (by decide) _
  · subst h4; exact or_outside (by decide) _
  · subst h15
    rcases hd with rfl | rfl | rfl | rfl | rfl <;>
      exact and_or_outside (by decide) (by decide) _
  · rfl

theorem frame_setTemp {buf : List Nat} (hwf : WF buf) {hi lo : Nat} {type : Int}
    (hk : (hi = 8 ∧ lo = 7 ∧ type = 6) ∨ (hi = 6 ∧ lo = 5 ∧ type = 7))
    (data : Int) (j : Nat) :
    rd (setTemp hi lo data buf) j &&& outside (fieldMask type j) =
      rd buf j &&& outside (fieldMask type j) := by
  have hk2 : (hi = 8 ∧ lo = 7) ∨ (hi = 6 ∧ lo = 5) := by omega
  rw [rd_setTemp hwf hk2]
  have hm : fieldMask type j = if j = lo then 0x7F else if j = hi then 0x7F else 0 := by
    rcases hk with ⟨rfl, rfl, rfl⟩ | ⟨rfl, rfl, rfl⟩ <;> rfl
  rw [hm]
  have hne : hi ≠ lo := by omega
  by_cases h1 : j = hi
  · subst h1
    rw [if_pos rfl, if_neg hne, if_pos rfl]
    by_cases hneg : data < 0
    · rw [if_pos hneg]; exact and_or_outside (by decide) (tableAt_1_9_top _) _
    · rw [if_neg hneg]; exact and_or_outside (by decide) (tableAt_1_9_top _) _
  · rw [if_neg h1, if_neg h1]
    by_cases h2 : j = lo
    · subst h2
      rw [if_pos rfl, if_pos rfl]
      exact and_or_outside (by decide) (tableAt_1_9_top _) _
    · rw [if_neg h2, if_neg h2]

theorem frame_setHumidity {buf : List Nat} (hwf : WF buf) (data : Int) (j : Nat) :
    rd (setHumidity data buf) j &&& outside (fieldMask 8 j) =
      rd buf j &&& outside (fieldMask 8 j) := by
  rw [rd_setHumidity hwf]
  show _ &&& outside (if j = 3 then 0x7F else if j = 4 then 0x7F else 0) =
    _ &&& outside (if j = 3 then 0x7F else if j = 4 then 0x7F else 0)
  by_cases h4 : j = 4
  · subst h4
    exact and_or_outside (by decide) (tableAt_1_9_top _) _
  · rw [if_neg h4, if_neg h4]
    split_ifs with h
    · subst h; exact and_or_outside (by decide) (tableAt_1_9_top _) _
    · rfl

theorem frame_setCO2 {buf : List Nat} (hwf : WF buf) (data : Int) (j : Nat) :
    rd (setCO2 data buf) j &&& outside (fieldMask 9 j) =
      rd buf j &&& outside (fieldMask 9 j) := by
  rw [rd_setCO2 hwf]
  show _ &&& outside (if j = 0 then 0x7F else if j = 1 then 0x7F else if j = 2 then 0x7F
    else 0) = _ &&& outside (if j = 0 then 0x7F else if j = 1 then 0x7F else if j = 2
    then 0x7F else 0)
  by_cases h2 : j = 2
  · subst h2
    exact or_outside (tableAt_1_9_top _) _
  · rw [if_neg h2, if_neg h2]
    by_cases h1 : j = 1
    · subst h1
      exact or_outside (tableAt_1_9_top _) _
    · rw [if_neg h1, if_neg h1]
      split_ifs with h
      · subst h; exact and_or_outside (by decide) (tableAt_1_9_top _) _
      · rfl

/-- A successful call changes no bit outside the mask of the field it sets. -/
theorem DisplaySet_outside_mask {buf : List Nat} (hwf : WF buf) {type data : Int}
    (hr : inRange type data) (j : Nat) :
    rd (TM1729_DisplaySet type data buf).displayData j &&& outside (fieldMask type j) =
      rd buf j &&& outside (fieldMask type j) := by
  rcases knownType_cases (inRange_known hr) with h | h | h | h | h | h | h | h | h | h <;>
    subst h
  · have hr2 : data ≥ 0 ∧ data ≤ 5 := hr
    rw [DisplaySet_signal, if_pos hr2]
    exact frame_setSignal hwf hr j
  · have hr2 : data = 1 ∨ data = 0 := (inRange_bell data).1 hr
    have := frame_setBell hwf hr2 j
    rw [DisplaySet_bell]
    rcases hr2 with rfl | rfl
    · exact this
    · exact this
  · have hr2 : data ≥ 0 ∧ data ≤ 23 := hr
    rw [DisplaySet_hour, if_pos hr2]
    exact frame_setDigits10_15 hwf (Or.inl ⟨rfl, rfl⟩) data j
  · have hr2 : data ≥ 0 ∧ data ≤ 59 := hr
    rw [DisplaySet_minute, if_pos hr2]
    exact frame_setDigits10_15 hwf (Or.inr (Or.inl ⟨rfl, rfl⟩)) data j
  · have hr2 : data ≥ 0 ∧ data ≤ 99 := hr
    rw [DisplaySet_score, if_pos hr2]
    exact frame_setDigits10_15 hwf (Or.inr (Or.inr ⟨rfl, rfl⟩)) data j
  · have hr2 : data ≥ 0 ∧ data ≤ 4 := hr
    rw [DisplaySet_battery, if_pos hr2]
    exact frame_setBattery hwf hr j
  · have hr2 : data ≥ -9 ∧ data ≤ 99 := hr
    rw [DisplaySet_temp1, if_pos hr2]
    exact frame_setTemp hwf (Or.inl ⟨rfl, rfl, rfl⟩) data j
  · have hr2 : data ≥ -9 ∧ data ≤ 99 := hr
    rw [DisplaySet_temp2, if_pos hr2]
    exact frame_setTemp hwf (Or.inr ⟨rfl, rfl, rfl⟩) data j
  · have hr2 : data ≥ 0 ∧ data ≤ 99 := hr
    rw [DisplaySet_humidity, if_pos hr2]
    exact frame_setHumidity hwf data j
  · have hr2 : data ≥ 0 ∧ data ≤ 999 := hr
    rw [DisplaySet_co2, if_pos hr2]
    exact frame_setCO2 hwf data j

theorem fieldMask_unknown {type : Int} (h : ¬ knownType type) (i : Nat) :
    fieldMask type i = 0 := by
  unfold knownType at h
  unfold fieldMask
  rw [if_neg (show ¬ type = 0 by omega), if_neg (show ¬ type = 1 by omega),
    if_neg (show ¬ type = 2 by omega), if_neg (show ¬ type = 3 by omega),
    if_neg (show ¬ type = 4 by omega), if_neg (show ¬ type = 5 by omega),
    if_neg (show ¬ type = 6 by omega), if_neg (show ¬ type = 7 by omega),
    if_neg (show ¬ type = 8 by omega), if_neg (show ¬ type = 9 by omega)]

theorem fieldMask_high (type : Int) {i : Nat} (hi : 16 ≤ i) : fieldMask type i = 0 := by
  by_cases hk : knownType type
  · rcases knownType_cases hk with h | h | h | h | h | h | h | h | h | h <;> subst h <;>
      simp only [fieldMask] <;> simp <;> first | omega | (split_ifs <;> omega)
  · exact fieldMask_unknown hk i

/-- The complement of the union of all masks lies inside the complement of each. -/
theorem outside_owned (type : Int) (i : Nat) :
    outside (fieldMask type i) &&& outside (ownedMask i) = outside (ownedMask i) := by
  by_cases hi : i < 16
  · by_cases hk : knownType type
    · rcases knownType_cases hk with h | h | h | h | h | h | h | h | h | h <;> subst h <;>
        interval_cases i <;> decide
    · rw [fieldMask_unknown hk]
      interval_cases i <;> decide
  · have h16 : 16 ≤ i := Nat.le_of_not_lt hi
    simp only [ownedMask, fieldMask_high _ h16]
    decide

theorem and_byte_full {b : Nat} (hb : b < 256) : b &&& outside 0 = b := by
  show b &&& (2 ^ 8 - 1) = b
  rw [Nat.and_pow_two_sub_one_eq_mod]
  exact Nat.mod_eq_of_lt hb

/-! ## One byte on the lines -/

theorem risingSamples_append (a b : List Event) :
    ∀ s, risingSamples s (a ++ b) =
      risingSamples s a ++ risingSamples (Lines.run s a) b := by
  induction a with
  | nil => intro s; rfl
  | cons e a ih =>
    intro s
    have hrun : Lines.run s (e :: a) = Lines.run (s.step e) a := rfl
    rw [List.cons_append, risingSamples, risingSamples, ih, hrun, List.append_assoc]

theorem dataEdgesClockHigh_append (a b : List Event) :
    ∀ s, dataEdgesClockHigh s (a ++ b) =
      dataEdgesClockHigh s a ++ dataEdgesClockHigh (Lines.run s a) b := by
  induction a with
  | nil => intro s; rfl
  | cons e a ih =>
    intro s
    have hrun : Lines.run s (e :: a) = Lines.run (s.step e) a := rfl
    rw [List.cons_append, dataEdgesClockHigh, dataEdgesClockHigh, ih, hrun, List.append_assoc]

theorem Lines_run_append (a b : List Event) (s : Lines) :
    Lines.run s (a ++ b) = Lines.run (Lines.run s a) b := by
  unfold Lines.run
  rw [List.foldl_append]

/-- One round of the loop of `MyI2C_SendByte`, as three events. -/
theorem SendByte_loop_succ (n Byte : Nat) :
    MyI2C_SendByte_loop (n + 1) Byte =
      Event.scl false :: Event.sda (decide (Byte &&& 0x80 ≠ 0)) :: Event.scl true ::
        MyI2C_SendByte_loop n ((Byte <<< 1) % 256) := by
  by_cases h : Byte &&& 0x80 ≠ 0
  · simp [MyI2C_SendByte_loop, MyI2C_W_SCL, MyI2C_W_SDA, h]
  · simp [MyI2C_SendByte_loop, MyI2C_W_SCL, MyI2C_W_SDA, h]

theorem SendByte_loop_samples : ∀ n Byte s,
    risingSamples s (MyI2C_SendByte_loop n Byte) = loopBits n Byte := by
  intro n
  induction n with
  | zero => intro _ _; rfl
  | succ n ih =>
    intro Byte s
    rw [SendByte_loop_succ]
    simp [risingSamples, Lines.step, loopBits, ih]

theorem SendByte_loop_edges : ∀ n Byte s,
    dataEdgesClockHigh s (MyI2C_SendByte_loop n Byte) = [] := by
  intro n
  induction n with
  | zero => intro _ _; rfl
  | succ n ih =>
    intro Byte s
    rw [SendByte_loop_succ]
    simp [dataEdgesClockHigh, Lines.step, ih]

set_option maxRecDepth 100000 in
theorem loopBits_eq_msbFirst : ∀ b, b < 256 → loopBits 8 b = msbFirst b := by
  decide

/-- `MyI2C_SendByte` as its three parts: the clock pulled low, the eight rounds
of the loop, and the acknowledge slot. -/
theorem SendByte_parts (b : Nat) :
    MyI2C_SendByte b = [Event.scl false] ++ (MyI2C_SendByte_loop 8 b ++
      [Event.scl false, Event.delay_us 3, Event.sda false, Event.delay_us 3,
       Event.scl true, Event.delay_us 6, Event.scl false, Event.delay_us 3]) := by
  simp [MyI2C_SendByte, MyI2C_W_SCL, MyI2C_W_SDA, Delay_us]

theorem SendByte_first_event (b : Nat) :
    ∃ rest, MyI2C_SendByte b = Event.scl false :: rest := ⟨_, rfl⟩

theorem SendByte_samples {b : Nat} (hb : b < 256) (s : Lines) :
    risingSamples s (MyI2C_SendByte b) = msbFirst b ++ [false] := by
  rw [SendByte_parts, risingSamples_append, risingSamples_append, SendByte_loop_samples,
    loopBits_eq_msbFirst b hb]
  generalize Lines.run (Lines.run s [Event.scl false]) (MyI2C_SendByte_loop 8 b) = t
  rcases s with ⟨c, d⟩
  rcases t with ⟨c2, d2⟩
  cases c <;> cases d <;> cases c2 <;> cases d2 <;> rfl

theorem SendByte_run {b : Nat} (_hb : b < 256) (s : Lines) :
    Lines.run s (MyI2C_SendByte b) = ⟨false, false⟩ := by
  rw [SendByte_parts, Lines_run_append, Lines_run_append]
  generalize Lines.run (Lines.run s [Event.scl false]) (MyI2C_SendByte_loop 8 b) = t
  rcases t with ⟨c2, d2⟩
  cases c2 <;> cases d2 <;> rfl

/-- Sending a byte never moves the data line while the clock is high. -/
theorem SendByte_edges {b : Nat} (_hb : b < 256) (s : Lines) :
    dataEdgesClockHigh s (MyI2C_SendByte b) = [] := by
  rw [SendByte_parts, dataEdgesClockHigh_append, dataEdgesClockHigh_append, SendByte_loop_edges]
  generalize Lines.run (Lines.run s [Event.scl false]) (MyI2C_SendByte_loop 8 b) = t
  rcases s with ⟨c, d⟩
  rcases t with ⟨c2, d2⟩
  cases c <;> cases d <;> cases c2 <;> cases d2 <;> rfl

set_option maxRecDepth 100000 in
theorem bitsToNat_msbFirst : ∀ b, b < 256 → bitsToNat (msbFirst b) = b := by
  decide


/-! ## Transactions as sequences of protocol-layer calls -/

theorem WriteData_loop_eq (pData : List Nat) :
    ∀ n i, i + n ≤ pData.length →
      TM1729_WriteData_loop pData i n = lineTrace (((pData.drop i).take n).map BusOp.byte) := by
  intro n
  induction n with
  | zero => intro i _; simp [TM1729_WriteData_loop, lineTrace]
  | succ n ih =>
    intro i h
    have hi : i < pData.length := by omega
    rw [TM1729_WriteData_loop, ih (i + 1) (by omega), List.drop_eq_getElem_cons hi]
    simp [lineTrace, BusOp.lines, List.getD_eq_getElem?_getD, List.getElem?_eq_getElem hi]

theorem lineTrace_append (a b : List BusOp) :
    lineTrace (a ++ b) = lineTrace a ++ lineTrace b := by
  induction a with
  | nil => rfl
  | cons op a ih => simp [lineTrace, ih]

/-- `TM1729_WriteData` on a payload of `len` bytes is one transaction. -/
theorem WriteData_eq {pData : List Nat} {len : Nat} (hlen : pData.length = len)
    (h255 : len ≤ 255) :
    TM1729_WriteData pData len =
      lineTrace (transaction (TM1729_SLAVE_ADDRESS :: TM1729_ADSET :: pData)) := by
  have hmod : len % 256 = len := Nat.mod_eq_of_lt (by omega)
  unfold TM1729_WriteData transaction
  rw [hmod, WriteData_loop_eq pData len 0 (by omega)]
  simp [lineTrace, lineTrace_append, BusOp.lines, ← hlen]

theorem SendByte_loop_length : ∀ n b, (MyI2C_SendByte_loop n b).length = 3 * n := by
  intro n
  induction n with
  | zero => intro b; rfl
  | succ n ih =>
    intro b
    rw [MyI2C_SendByte_loop]
    split <;> simp [MyI2C_W_SCL, MyI2C_W_SDA, ih] <;> omega

theorem SendByte_length (b : Nat) : (MyI2C_SendByte b).length = 33 := by
  simp [MyI2C_SendByte, SendByte_loop_length, MyI2C_W_SCL, MyI2C_W_SDA, Delay_us]

theorem SendByte_inj {b c : Nat} (hb : b < 256) (hc : c < 256)
    (h : MyI2C_SendByte b = MyI2C_SendByte c) : b = c := by
  have h1 := bitsToNat_msbFirst b hb
  have h2 := bitsToNat_msbFirst c hc
  have hs : msbFirst b ++ [false] = msbFirst c ++ [false] := by
    rw [← SendByte_samples hb ⟨false, false⟩, ← SendByte_samples hc ⟨false, false⟩, h]
  rw [← h1, ← h2, List.append_cancel_right hs]

/-- The line-level trace determines the sequence of protocol-layer calls. -/
theorem lineTrace_inj : ∀ ops ops2 : List BusOp,
    (∀ b, BusOp.byte b ∈ ops → b < 256) → (∀ b, BusOp.byte b ∈ ops2 → b < 256) →
    lineTrace ops = lineTrace ops2 → ops = ops2 := by
  intro ops
  induction ops with
  | nil =>
    intro ops2 _ _ h
    cases ops2 with
    | nil => rfl
    | cons op r => cases op <;> simp [lineTrace, BusOp.lines, MyI2C_Start, MyI2C_Stop,
        MyI2C_SendByte, MyI2C_W_SCL, MyI2C_W_SDA] at h
  | cons op r ih =>
    intro ops2 h1 h2 h
    cases ops2 with
    | nil => cases op <;> simp [lineTrace, BusOp.lines, MyI2C_Start, MyI2C_Stop,
        MyI2C_SendByte, MyI2C_W_SCL, MyI2C_W_SDA] at h
    | cons op2 r2 =>
      have hr1 : ∀ b, BusOp.byte b ∈ r → b < 256 := fun b hb => h1 b (List.mem_cons_of_mem _ hb)
      have hr2 : ∀ b, BusOp.byte b ∈ r2 → b < 256 :=
        fun b hb => h2 b (List.mem_cons_of_mem _ hb)
      cases op <;> cases op2
      case start.start =>
        rw [ih r2 hr1 hr2 (List.append_cancel_left h)]
      case stop.stop =>
        rw [ih r2 hr1 hr2 (List.append_cancel_left h)]
      case byte.byte b c =>
        have hl : (MyI2C_SendByte b).length = (MyI2C_SendByte c).length := by
          rw [SendByte_length, SendByte_length]
        obtain ⟨hh, ht⟩ := List.append_inj h hl
        rw [SendByte_inj (h1 b (List.mem_cons_self _ _)) (h2 c (List.mem_cons_self _ _)) hh,
          ih r2 hr1 hr2 ht]
      all_goals
        simp [lineTrace, BusOp.lines, MyI2C_Start, MyI2C_Stop,
          MyI2C_SendByte, MyI2C_W_SCL, MyI2C_W_SDA, Delay_us] at h

/-- Every call either ends in the common tail (transfer, `return 0`) or
returns early with a non-zero status. -/
theorem DisplaySet_shape (type data : Int) (buf : List Nat) :
    (∃ b, TM1729_DisplaySet type data buf = sendAndReturn b) ∨
    (∃ r, r ≠ 0 ∧ TM1729_DisplaySet type data buf = returnOnly r buf) := by
  by_cases hk : knownType type
  · rcases knownType_cases hk with h | h | h | h | h | h | h | h | h | h <;> subst h
    · rw [DisplaySet_signal]; split
      · exact Or.inl ⟨_, rfl⟩
      · exact Or.inr ⟨-1, by decide, rfl⟩
    · rw [DisplaySet_bell]; split
      · exact Or.inl ⟨_, rfl⟩
      · split
        · exact Or.inl ⟨_, rfl⟩
        · exact Or.inr ⟨-1, by decide, rfl⟩
    · rw [DisplaySet_hour]; split
      · exact Or.inl ⟨_, rfl⟩
      · exact Or.inr ⟨-1, by decide, rfl⟩
    · rw [DisplaySet_minute]; split
      · exact Or.inl ⟨_, rfl⟩
      · exact Or.inr ⟨-1, by decide, rfl⟩
    · rw [DisplaySet_score]; split
      · exact Or.inl ⟨_, rfl⟩
      · exact Or.inr ⟨-1, by decide, rfl⟩
    · rw [DisplaySet_battery]; split
      · exact Or.inl ⟨_, rfl⟩
      · exact Or.inr ⟨-1, by decide, rfl⟩
    · rw [DisplaySet_temp1]; split
      · exact Or.inl ⟨_, rfl⟩
      · exact Or.inr ⟨-1, by decide, rfl⟩
    · rw [DisplaySet_temp2]; split
      · exact Or.inl ⟨_, rfl⟩
      · exact Or.inr ⟨-1, by decide, rfl⟩
    · rw [DisplaySet_humidity]; split
      · exact Or.inl ⟨_, rfl⟩
      · exact Or.inr ⟨-1, by decide, rfl⟩
    · rw [DisplaySet_co2]; split
      · exact Or.inl ⟨_, rfl⟩
      · exact Or.inr ⟨-1, by decide, rfl⟩
  · exact Or.inr ⟨-2, by decide, DisplaySet_unknown hk data buf⟩

/-- A successful call sends the buffer it leaves behind. -/
theorem DisplaySet_trace_of_ok {type data : Int} {buf : List Nat}
    (h : (TM1729_DisplaySet type data buf).ret = 0) :
    (TM1729_DisplaySet type data buf).trace =
      TM1729_WriteData (TM1729_DisplaySet type data buf).displayData MAX_LIGHT := by
  rcases DisplaySet_shape type data buf with ⟨b, hb⟩ | ⟨r, hr, hb⟩
  · rw [hb]; rfl
  · rw [hb] at h; exact absurd h hr

theorem ret_of_inRange {type data : Int} (hr : inRange type data) (buf : List Nat) :
    (TM1729_DisplaySet type data buf).ret = 0 := by
  rw [DisplaySet_ret, if_pos hr]

/-- Reading a well-formed buffer at the indices 0..25 gives the buffer. -/
theorem map_rd_range {buf : List Nat} (hwf : WF buf) :
    (List.range MAX_LIGHT).map (rd buf) = buf := by
  apply List.ext_getElem
  · simp [hwf.1]
  · intro n h1 h2
    simp [rd, List.getD_eq_getElem?_getD, List.getElem?_eq_getElem h2]

theorem byte_mem_transaction {b : Nat} {bytes : List Nat}
    (h : BusOp.byte b ∈ transaction bytes) : b ∈ bytes := by
  simpa [transaction] using h

/-! ## Reading a field back -/

theorem and_or_inside {keep v o : Nat} (h1 : keep &&& o = 0) (h2 : v &&& o = v) (b : Nat) :
    (b &&& keep ||| v) &&& o = v := by
  apply Nat.eq_of_testBit_eq
  intro i
  have h1i := congrArg (fun n => n.testBit i) h1
  have h2i := congrArg (fun n => n.testBit i) h2
  simp only [Nat.testBit_and, Nat.testBit_or, Nat.zero_testBit] at h1i h2i ⊢
  revert h1i h2i
  cases b.testBit i <;> cases v.testBit i <;> cases o.testBit i <;> cases keep.testBit i <;> simp

theorem or_and_self {a b o : Nat} (ha : a &&& o = a) (hb : b &&& o = b) :
    (a ||| b) &&& o = a ||| b := by
  apply Nat.eq_of_testBit_eq
  intro i
  have h1i := congrArg (fun n => n.testBit i) ha
  have h2i := congrArg (fun n => n.testBit i) hb
  simp only [Nat.testBit_and, Nat.testBit_or] at h1i h2i ⊢
  revert h1i h2i
  cases a.testBit i <;> cases b.testBit i <;> cases o.testBit i <;> simp

set_option maxRecDepth 100000 in
theorem shr4_in_low_nibble : ∀ t, t < 256 → (t >>> 4) &&& 0x0F = t >>> 4 := by
  decide

set_option maxRecDepth 100000 in
theorem shr4_in_low7 : ∀ t, t < 256 → (t >>> 4) &&& 0x7F = t >>> 4 := by
  decide

theorem and7_shl4_in_low7 (t : Nat) : ((t &&& 7) <<< 4) &&& 0x7F = (t &&& 7) <<< 4 := by
  have h : t &&& 7 < 8 := Nat.and_lt_two_pow t (n := 3) (by decide)
  generalize t &&& 7 = x at h
  revert x
  decide

theorem and7_shl4_in_70 (t : Nat) : ((t &&& 7) <<< 4) &&& 0x70 = (t &&& 7) <<< 4 := by
  have h : t &&& 7 < 8 := Nat.and_lt_two_pow t (n := 3) (by decide)
  generalize t &&& 7 = x at h
  revert x
  decide

/-- Every entry of `sge_data_10_15` has bit 3 clear, so its high nibble and
low three bits determine it. -/
theorem table_10_15_recombine : ∀ i, i < 11 →
    ((sge_data_10_15.getD i 0 >>> 4) <<< 4) ||| (sge_data_10_15.getD i 0 &&& 0x07) =
      sge_data_10_15.getD i 0 := by
  decide

set_option maxRecDepth 100000 in
theorem top_bit_cases : ∀ b, b < 256 → b &&& 0x80 = 0 ∨ b &&& 0x80 = 0x80 := by
  decide

theorem mid_byte_high : ∀ b, b < 256 → ∀ i, i < 11 → ∀ j, j < 11 →
    ((b &&& 0x80 ||| (sge_data_10_15.getD i 0 &&& 0x07) <<< 4 |||
        sge_data_10_15.getD j 0 >>> 4) >>> 4) &&& 0x07 = sge_data_10_15.getD i 0 &&& 0x07 := by
  intro b hb
  rcases top_bit_cases b hb with h | h <;> rw [h] <;> decide

theorem mid_byte_low : ∀ b, b < 256 → ∀ i, i < 11 → ∀ j, j < 11 →
    ((b &&& 0x80 ||| (sge_data_10_15.getD i 0 &&& 0x07) <<< 4 |||
        sge_data_10_15.getD j 0 >>> 4) &&& 0x0F) = sge_data_10_15.getD j 0 >>> 4 := by
  intro b hb
  rcases top_bit_cases b hb with h | h <;> rw [h] <;> decide

set_option maxRecDepth 1000000 in
theorem last_byte_high : ∀ b, b < 256 → ∀ j, j < 11 →
    ((b &&& 0x8F ||| (sge_data_10_15.getD j 0 &&& 0x07) <<< 4) >>> 4) &&& 0x07 =
      sge_data_10_15.getD j 0 &&& 0x07 := by
  decide!

/-- For a value in 0..99 the digit indices used on the tables are 1..10 and C's
truncating `/` and `%` agree with the mathematical ones. -/
theorem digits_of_nonneg {v : Int} (h0 : 0 ≤ v) (h99 : v ≤ 99) :
    v.tdiv 10 = v / 10 ∧ v.tmod 10 = v % 10 ∧
    (v / 10 + 1).toNat < 11 ∧ (v % 10 + 1).toNat < 11 := by
  refine ⟨Int.tdiv_eq_ediv h0 (by decide), Int.tmod_eq_emod h0 (by decide), ?_, ?_⟩ <;> omega

theorem tableAt_recombine {x : Int} (hx : x.toNat < 11) :
    ((tableAt sge_data_10_15 x >>> 4) <<< 4) ||| (tableAt sge_data_10_15 x &&& 0x07) =
      tableAt sge_data_10_15 x :=
  table_10_15_recombine _ hx

theorem tableAt_mid_byte_high {b : Nat} (hb : b < 256) {x y : Int} (hx : x.toNat < 11)
    (hy : y.toNat < 11) :
    ((b &&& 0x80 ||| (tableAt sge_data_10_15 x &&& 0x07) <<< 4 |||
        tableAt sge_data_10_15 y >>> 4) >>> 4) &&& 0x07 = tableAt sge_data_10_15 x &&& 0x07 :=
  mid_byte_high b hb _ hx _ hy

theorem tableAt_mid_byte_low {b : Nat} (hb : b < 256) {x y : Int} (hx : x.toNat < 11)
    (hy : y.toNat < 11) :
    ((b &&& 0x80 ||| (tableAt sge_data_10_15 x &&& 0x07) <<< 4 |||
        tableAt sge_data_10_15 y >>> 4) &&& 0x0F) = tableAt sge_data_10_15 y >>> 4 :=
  mid_byte_low b hb _ hx _ hy

theorem tableAt_last_byte_high {b : Nat} (hb : b < 256) {y : Int} (hy : y.toNat < 11) :
    ((b &&& 0x8F ||| (tableAt sge_data_10_15 y &&& 0x07) <<< 4) >>> 4) &&& 0x07 =
      tableAt sge_data_10_15 y &&& 0x07 :=
  last_byte_high b hb _ hy

/-- The buffer a successful hour, minute or score call leaves behind. -/
theorem DisplaySet_digits10_15 {type : Int} {k : Nat}
    (hk : (type = 2 ∧ k = 9) ∨ (type = 3 ∧ k = 11) ∨ (type = 4 ∧ k = 13))
    {v : Int} (hr : inRange type v) (buf : List Nat) :
    (TM1729_DisplaySet type v buf).displayData = setDigits10_15 k v buf ∧ 0 ≤ v ∧ v ≤ 99 := by
  rcases hk with ⟨rfl, rfl⟩ | ⟨rfl, rfl⟩ | ⟨rfl, rfl⟩
  · have hr2 : v ≥ 0 ∧ v ≤ 23 := hr
    rw [DisplaySet_hour, if_pos hr2]
    exact ⟨rfl, by omega, by omega⟩
  · have hr2 : v ≥ 0 ∧ v ≤ 59 := hr
    rw [DisplaySet_minute, if_pos hr2]
    exact ⟨rfl, by omega, by omega⟩
  · have hr2 : v ≥ 0 ∧ v ≤ 99 := hr
    rw [DisplaySet_score, if_pos hr2]
    exact ⟨rfl, by omega, by omega⟩


/-- The two bytes a successful temperature or humidity call leaves behind. -/
theorem DisplaySet_table_A_pair {type : Int} {hi lo : Nat}
    (hk : (type = 6 ∧ hi = 8 ∧ lo = 7) ∨ (type = 7 ∧ hi = 6 ∧ lo = 5) ∨
      (type = 8 ∧ hi = 4 ∧ lo = 3))
    {v : Int} (hr : inRange type v) {buf : List Nat} (hwf : WF buf) :
    rd (TM1729_DisplaySet type v buf).displayData hi =
      rd buf hi &&& 0x80 |||
        (if v < 0 then tableAt sge_data_1_9 0 else tableAt sge_data_1_9 (v / 10 + 1)) ∧
    rd (TM1729_DisplaySet type v buf).displayData lo =
      rd buf lo &&& 0x80 ||| tableAt sge_data_1_9 ((if v < 0 then -v else v % 10) + 1) := by
  have hdm : ¬ v < 0 → v.tdiv 10 = v / 10 ∧ v.tmod 10 = v % 10 := fun h =>
    ⟨Int.tdiv_eq_ediv (by omega) (by decide), Int.tmod_eq_emod (by omega) (by decide)⟩
  rcases hk with ⟨rfl, rfl, rfl⟩ | ⟨rfl, rfl, rfl⟩ | ⟨rfl, rfl, rfl⟩
  · have hr2 : v ≥ -9 ∧ v ≤ 99 := hr
    have e1 := rd_setTemp hwf (Or.inl ⟨rfl, rfl⟩) v 8
    have e2 := rd_setTemp hwf (Or.inl ⟨rfl, rfl⟩) v 7
    rw [if_pos rfl] at e1
    rw [if_neg (show ¬ (7 : Nat) = 8 by decide), if_pos rfl] at e2
    rw [DisplaySet_temp1, if_pos hr2, sendAndReturn_displayData, e1, e2]
    by_cases hneg : v < 0
    · simp only [if_pos hneg, and_self]
    · simp only [if_neg hneg, (hdm hneg).1, (hdm hneg).2, and_self]
  · have hr2 : v ≥ -9 ∧ v ≤ 99 := hr
    have e1 := rd_setTemp hwf (Or.inr ⟨rfl, rfl⟩) v 6
    have e2 := rd_setTemp hwf (Or.inr ⟨rfl, rfl⟩) v 5
    rw [if_pos rfl] at e1
    rw [if_neg (show ¬ (5 : Nat) = 6 by decide), if_pos rfl] at e2
    rw [DisplaySet_temp2, if_pos hr2, sendAndReturn_displayData, e1, e2]
    by_cases hneg : v < 0
    · simp only [if_pos hneg, and_self]
    · simp only [if_neg hneg, (hdm hneg).1, (hdm hneg).2, and_self]
  · have hr2 : v ≥ 0 ∧ v ≤ 99 := hr
    have hneg : ¬ v < 0 := by omega
    have e1 := rd_setHumidity hwf v 4
    have e2 := rd_setHumidity hwf v 3
    rw [if_pos rfl] at e1
    rw [if_neg (show ¬ (3 : Nat) = 4 by decide), if_pos rfl] at e2
    rw [DisplaySet_humidity, if_pos hr2, sendAndReturn_displayData, e1, e2]
    simp only [if_neg hneg, (hdm hneg).1, (hdm hneg).2, and_self]


/-! ## Signal indicators -/

theorem testBit_through_mask {m i : Nat} (h : m.testBit i = true) (x : Nat) :
    x.testBit i = (x &&& m).testBit i := by
  rw [Nat.testBit_and, h, Bool.and_true]

/-- The indicator bits after the signal body, as masked bytes. -/
theorem setSignal_masked {buf : List Nat} (hwf : WF buf) {n : Int} (hr : 0 ≤ n ∧ n ≤ 5) :
    rd (setSignal n buf) 9 &&& 0xE0 = (signalBits n).1 ∧
    rd (setSignal n buf) 13 &&& 0x80 = (signalBits n).2.1 ∧
    rd (setSignal n buf) 12 &&& 0x80 = (signalBits n).2.2 := by
  have e9 := rd_setSignal hwf hr 9
  have e13 := rd_setSignal hwf hr 13
  have e12 := rd_setSignal hwf hr 12
  rw [if_pos rfl] at e9
  rw [if_neg (show ¬ (13 : Nat) = 9 by decide), if_pos rfl] at e13
  rw [if_neg (show ¬ (12 : Nat) = 9 by decide), if_neg (show ¬ (12 : Nat) = 13 by decide),
    if_pos rfl] at e12
  rw [e9, e13, e12]
  have hd : n = 0 ∨ n = 1 ∨ n = 2 ∨ n = 3 ∨ n = 4 ∨ n = 5 := by omega
  rcases hd with rfl | rfl | rfl | rfl | rfl | rfl <;>
    exact ⟨and_or_inside (by decide) (by decide) _, and_or_inside (by decide) (by decide) _,
      and_or_inside (by decide) (by decide) _⟩

/-- At level `n` exactly the first `n` indicator bits are lit. -/
theorem indicatorBits_setSignal {buf : List Nat} (hwf : WF buf) {n : Int}
    (hr : 0 ≤ n ∧ n ≤ 5) :
    indicatorBits (setSignal n buf) =
      [decide (0 < n), decide (1 < n), decide (2 < n), decide (3 < n), decide (4 < n)] := by
  obtain ⟨h9, h13, h12⟩ := setSignal_masked hwf hr
  unfold indicatorBits
  rw [testBit_through_mask (m := 0xE0) (i := 5) (by decide),
    testBit_through_mask (m := 0xE0) (i := 6) (by decide),
    testBit_through_mask (m := 0xE0) (i := 7) (by decide),
    testBit_through_mask (m := 0x80) (i := 7) (by decide) (rd (setSignal n buf) 13),
    testBit_through_mask (m := 0x80) (i := 7) (by decide) (rd (setSignal n buf) 12),
    h9, h13, h12]
  have hd : n = 0 ∨ n = 1 ∨ n = 2 ∨ n = 3 ∨ n = 4 ∨ n = 5 := by omega
  rcases hd with rfl | rfl | rfl | rfl | rfl | rfl <;> decide

/-! ## Battery -/

/-- The buffer a successful battery call leaves behind. -/
theorem DisplaySet_battery_ok {L : Int} (hr : inRange 5 L) (buf : List Nat) :
    (TM1729_DisplaySet 5 L buf).displayData = setBattery L buf ∧ 0 ≤ L ∧ L ≤ 4 := by
  have hr2 : L ≥ 0 ∧ L ≤ 4 := hr
  rw [DisplaySet_battery, if_pos hr2]
  exact ⟨rfl, hr2.1, hr2.2⟩

set_option maxRecDepth 100000 in
theorem battery_low_nibble : ∀ b, b < 256 → ∀ t, t < 16 → t &&& 0xF2 = 0 →
    (b &&& 0xF2 ||| t) &&& 0x0F = b &&& 0x02 ||| t := by
  decide!

/-! ## What each field writes, independently of the old buffer -/

theorem WF_zeroBuf : WF zeroBuf := by decide

theorem rd_zeroBuf (j : Nat) : rd zeroBuf j = 0 := by
  unfold rd zeroBuf
  rw [List.getD_eq_getElem?_getD]
  by_cases h : j < MAX_LIGHT
  · rw [List.getElem?_eq_getElem (by simpa using h)]
    simp
  · rw [List.getElem?_eq_none (by simpa using h)]
    rfl

theorem fieldBits_signal {data : Int} (hr : 0 ≤ data ∧ data ≤ 5) (j : Nat) :
    fieldBits 0 data j =
      if j = 9 then (signalBits data).1
      else if j = 13 then (signalBits data).2.1
      else if j = 12 then (signalBits data).2.2
      else 0 := by
  have hr2 : data ≥ 0 ∧ data ≤ 5 := hr
  unfold fieldBits
  rw [DisplaySet_signal, if_pos hr2, sendAndReturn_displayData, rd_setSignal WF_zeroBuf hr]
  simp only [rd_zeroBuf, Nat.zero_and, Nat.zero_or]

theorem fieldBits_bell_on (j : Nat) :
    fieldBits 1 1 j = if j = 10 then 0x80 else 0 := by
  unfold fieldBits
  rw [DisplaySet_bell, if_pos rfl, sendAndReturn_displayData, rd_setBell_on WF_zeroBuf]
  simp only [rd_zeroBuf, Nat.zero_or]

theorem fieldBits_bell_off (j : Nat) : fieldBits 1 0 j = 0 := by
  unfold fieldBits
  rw [DisplaySet_bell, if_neg (by decide), if_pos rfl, sendAndReturn_displayData,
    rd_setBell_off WF_zeroBuf]
  simp only [rd_zeroBuf, Nat.zero_and, ite_self]

theorem fieldBits_digits10_15 {type : Int} {k : Nat}
    (hk : (type = 2 ∧ k = 9) ∨ (type = 3 ∧ k = 11) ∨ (type = 4 ∧ k = 13))
    {v : Int} (hr : inRange type v) (j : Nat) :
    fieldBits type v j =
      if j = k then tableAt sge_data_10_15 (v / 10 + 1) >>> 4
      else if j = k + 1 then
        (tableAt sge_data_10_15 (v / 10 + 1) &&& 0x07) <<< 4 |||
          tableAt sge_data_10_15 (v % 10 + 1) >>> 4
      else if j = k + 2 then (tableAt sge_data_10_15 (v % 10 + 1) &&& 0x07) <<< 4
      else 0 := by
  obtain ⟨hnew, h0, h99⟩ := DisplaySet_digits10_15 hk hr zeroBuf
  obtain ⟨hdiv, hmod, _, _⟩ := digits_of_nonneg h0 h99
  have hk3 : k = 9 ∨ k = 11 ∨ k = 13 := by omega
  unfold fieldBits
  rw [hnew, rd_setDigits10_15 WF_zeroBuf hk3, hdiv, hmod]
  simp only [rd_zeroBuf, Nat.zero_and, Nat.zero_or]

theorem fieldBits_battery {data : Int} (hr : 0 ≤ data ∧ data ≤ 4) (j : Nat) :
    fieldBits 5 data j =
      if j = 4 then (if data = 0 then 0 else 0x80)
      else if j = 15 then batteryBits data
      else 0 := by
  have hr2 : data ≥ 0 ∧ data ≤ 4 := hr
  unfold fieldBits
  rw [DisplaySet_battery, if_pos hr2, sendAndReturn_displayData, rd_setBattery WF_zeroBuf hr]
  simp only [rd_zeroBuf, Nat.zero_and, Nat.zero_or]

/-- What a temperature or humidity call writes: the tens pattern (the dash for
a negative value), the units pattern, and nothing elsewhere. -/
theorem fieldBits_table_A {type : Int} {hi lo : Nat}
    (hk : (type = 6 ∧ hi = 8 ∧ lo = 7) ∨ (type = 7 ∧ hi = 6 ∧ lo = 5) ∨
      (type = 8 ∧ hi = 4 ∧ lo = 3))
    {v : Int} (hr : inRange type v) :
    fieldBits type v hi =
      (if v < 0 then tableAt sge_data_1_9 0 else tableAt sge_data_1_9 (v / 10 + 1)) ∧
    fieldBits type v lo = tableAt sge_data_1_9 ((if v < 0 then -v else v % 10) + 1) ∧
    ∀ j, j ≠ hi → j ≠ lo → fieldBits type v j = 0 := by
  obtain ⟨e1, e2⟩ := DisplaySet_table_A_pair hk hr WF_zeroBuf
  refine ⟨?_, ?_, ?_⟩
  · unfold fieldBits
    rw [e1, rd_zeroBuf, Nat.zero_and, Nat.zero_or]
  · unfold fieldBits
    rw [e2, rd_zeroBuf, Nat.zero_and, Nat.zero_or]
  · intro j h1 h2
    unfold fieldBits
    rcases hk with ⟨rfl, rfl, rfl⟩ | ⟨rfl, rfl, rfl⟩ | ⟨rfl, rfl, rfl⟩
    · have hr2 : v ≥ -9 ∧ v ≤ 99 := hr
      rw [DisplaySet_temp1, if_pos hr2, sendAndReturn_displayData,
        rd_setTemp WF_zeroBuf (Or.inl ⟨rfl, rfl⟩), if_neg h1, if_neg h2, rd_zeroBuf]
    · have hr2 : v ≥ -9 ∧ v ≤ 99 := hr
      rw [DisplaySet_temp2, if_pos hr2, sendAndReturn_displayData,
        rd_setTemp WF_zeroBuf (Or.inr ⟨rfl, rfl⟩), if_neg h1, if_neg h2, rd_zeroBuf]
    · have hr2 : v ≥ 0 ∧ v ≤ 99 := hr
      rw [DisplaySet_humidity, if_pos hr2, sendAndReturn_displayData,
        rd_setHumidity WF_zeroBuf, if_neg h1, if_neg h2, rd_zeroBuf]

theorem fieldBits_co2 {v : Int} (hr : inRange 9 v) (j : Nat) :
    fieldBits 9 v j =
      if j = 2 then tableAt sge_data_1_9 (v / 100 + 1)
      else if j = 1 then tableAt sge_data_1_9 ((v / 10) % 10 + 1)
      else if j = 0 then tableAt sge_data_1_9 (v % 10 + 1)
      else 0 := by
  have hr2 : v ≥ 0 ∧ v ≤ 999 := hr
  have h0 : 0 ≤ v := hr2.1
  have d100 : v.tdiv 100 = v / 100 := Int.tdiv_eq_ediv h0 (by decide)
  have d10 : v.tdiv 10 = v / 10 := Int.tdiv_eq_ediv h0 (by decide)
  have m10 : v.tmod 10 = v % 10 := Int.tmod_eq_emod h0 (by decide)
  have dm : (v / 10).tmod 10 = (v / 10) % 10 := Int.tmod_eq_emod (by omega) (by decide)
  unfold fieldBits
  rw [DisplaySet_co2, if_pos hr2, sendAndReturn_displayData, rd_setCO2 WF_zeroBuf,
    d100, d10, dm, m10]
  simp only [rd_zeroBuf, Nat.zero_and, Nat.zero_or]

/-! ## Normal form of a successful call: keep some bits, merge the field's bits -/

theorem keepMask_of_mask_zero {type : Int} {j : Nat} (h : fieldMask type j = 0) :
    keepMask type j = 0xFF := by
  unfold keepMask
  split
  · rfl
  · rw [h]; rfl

theorem nf_untouched {type : Int} {j : Nat} (h : fieldMask type j = 0) {b : Nat}
    (hb : b < 256) : b = b &&& keepMask type j ||| 0 := by
  rw [keepMask_of_mask_zero h, Nat.or_zero]
  exact (and_byte_full hb).symm

theorem nf_signal {buf : List Nat} (hwf : WF buf) {data : Int} (hr : inRange 0 data)
    (j : Nat) :
    rd (TM1729_DisplaySet 0 data buf).displayData j =
      rd buf j &&& keepMask 0 j ||| fieldBits 0 data j := by
  have hr2 : data ≥ 0 ∧ data ≤ 5 := hr
  rw [DisplaySet_signal, if_pos hr2, sendAndReturn_displayData, rd_setSignal hwf hr,
    fieldBits_signal hr]
  by_cases h9 : j = 9
  · subst h9; rfl
  · by_cases h13 : j = 13
    · subst h13; rfl
    · by_cases h12 : j = 12
      · subst h12; rfl
      · rw [if_neg h9, if_neg h13, if_neg h12, if_neg h9, if_neg h13, if_neg h12]
        refine nf_untouched ?_ (rd_lt hwf j)
        show (if j = 9 then 0xE0 else if j = 12 then 0x80 else if j = 13 then 0x80 else 0) = 0
        rw [if_neg h9, if_neg h12, if_neg h13]

set_option maxRecDepth 100000 in
theorem or_top_bit : ∀ b, b < 256 → b ||| 0x80 = b &&& 0x7F ||| 0x80 := by
  decide

theorem nf_bell {buf : List Nat} (hwf : WF buf) {data : Int} (hr : inRange 1 data)
    (j : Nat) :
    rd (TM1729_DisplaySet 1 data buf).displayData j =
      rd buf j &&& keepMask 1 j ||| fieldBits 1 data j := by
  have hm : fieldMask 1 j = if j = 10 then 0x80 else 0 := rfl
  rw [DisplaySet_bell]
  rcases (inRange_bell data).1 hr with rfl | rfl
  · rw [if_pos rfl, sendAndReturn_displayData, rd_setBell_on hwf, fieldBits_bell_on]
    by_cases h : j = 10
    · subst h
      exact or_top_bit _ (rd_lt hwf 10)
    · rw [if_neg h, if_neg h]
      exact nf_untouched (by rw [hm, if_neg h]) (rd_lt hwf j)
  · rw [if_neg (by decide), if_pos rfl, sendAndReturn_displayData, rd_setBell_off hwf,
      fieldBits_bell_off]
    by_cases h : j = 10
    · subst h
      rw [if_pos rfl]
      exact (Nat.or_zero (rd buf 10 &&& keepMask 1 10)).symm
    · rw [if_neg h]
      exact nf_untouched (by rw [hm, if_neg h]) (rd_lt hwf j)

theorem nf_digits10_15 {buf : List Nat} (hwf : WF buf) {type : Int} {k : Nat}
    (hk : (type = 2 ∧ k = 9) ∨ (type = 3 ∧ k = 11) ∨ (type = 4 ∧ k = 13))
    {v : Int} (hr : inRange type v) (j : Nat) :
    rd (TM1729_DisplaySet type v buf).displayData j =
      rd buf j &&& keepMask type j ||| fieldBits type v j := by
  obtain ⟨hnew, h0, h99⟩ := DisplaySet_digits10_15 hk hr buf
  obtain ⟨hdiv, hmod, _, _⟩ := digits_of_nonneg h0 h99
  have hk3 : k = 9 ∨ k = 11 ∨ k = 13 := by omega
  have hm : fieldMask type j =
      if j = k then 0x0F else if j = k + 1 then 0x7F else if j = k + 2 then 0x70 else 0 := by
    rcases hk with ⟨rfl, rfl⟩ | ⟨rfl, rfl⟩ | ⟨rfl, rfl⟩ <;> rfl
  have hkeep : keepMask type j = outside (fieldMask type j) := by
    rcases hk with ⟨rfl, rfl⟩ | ⟨rfl, rfl⟩ | ⟨rfl, rfl⟩ <;> rfl
  rw [hnew, rd_setDigits10_15 hwf hk3, hdiv, hmod, fieldBits_digits10_15 hk hr]
  by_cases h1 : j = k
  · rw [if_pos h1, if_pos h1, hkeep, hm, if_pos h1, h1]; rfl
  · by_cases h2 : j = k + 1
    · rw [if_neg h1, if_pos h2, if_neg h1, if_pos h2, hkeep, hm, if_neg h1, if_pos h2, h2,
        Nat.or_assoc]
      rfl
    · by_cases h3 : j = k + 2
      · rw [if_neg h1, if_neg h2, if_pos h3, if_neg h1, if_neg h2, if_pos h3, hkeep, hm,
          if_neg h1, if_neg h2, if_pos h3, h3]
        rfl
      · rw [if_neg h1, if_neg h2, if_neg h3, if_neg h1, if_neg h2, if_neg h3]
        exact nf_untouched (by rw [hm, if_neg h1, if_neg h2, if_neg h3]) (rd_lt hwf j)

theorem nf_battery {buf : List Nat} (hwf : WF buf) {data : Int} (hr : inRange 5 data)
    (j : Nat) :
    rd (TM1729_DisplaySet 5 data buf).displayData j =
      rd buf j &&& keepMask 5 j ||| fieldBits 5 data j := by
  have hr2 : data ≥ 0 ∧ data ≤ 4 := hr
  have hm : fieldMask 5 j = if j = 4 then 0x80 else if j = 15 then 0x0D else 0 := rfl
  rw [DisplaySet_battery, if_pos hr2, sendAndReturn_displayData, rd_setBattery hwf hr,
    fieldBits_battery hr]
  by_cases h4 : j = 4
  · subst h4
    rw [if_pos rfl, if_pos rfl]
    by_cases h0 : data = 0
    · rw [if_pos h0, if_pos h0]
      exact (Nat.or_zero (rd buf 4 &&& keepMask 5 4)).symm
    · rw [if_neg h0, if_neg h0]
      exact or_top_bit _ (rd_lt hwf 4)
  · by_cases h15 : j = 15
    · subst h15; rfl
    · rw [if_neg h4, if_neg h15, if_neg h4, if_neg h15]
      exact nf_untouched (by rw [hm, if_neg h4, if_neg h15]) (rd_lt hwf j)

theorem DisplaySet_table_A_other {type : Int} {hi lo : Nat}
    (hk : (type = 6 ∧ hi = 8 ∧ lo = 7) ∨ (type = 7 ∧ hi = 6 ∧ lo = 5) ∨
      (type = 8 ∧ hi = 4 ∧ lo = 3))
    {v : Int} (hr : inRange type v) {buf : List Nat} (hwf : WF buf) {j : Nat}
    (h1 : j ≠ hi) (h2 : j ≠ lo) :
    rd (TM1729_DisplaySet type v buf).displayData j = rd buf j := by
  rcases hk with ⟨rfl, rfl, rfl⟩ | ⟨rfl, rfl, rfl⟩ | ⟨rfl, rfl, rfl⟩
  · have hr2 : v ≥ -9 ∧ v ≤ 99 := hr
    rw [DisplaySet_temp1, if_pos hr2, sendAndReturn_displayData,
      rd_setTemp hwf (Or.inl ⟨rfl, rfl⟩), if_neg h1, if_neg h2]
  · have hr2 : v ≥ -9 ∧ v ≤ 99 := hr
    rw [DisplaySet_temp2, if_pos hr2, sendAndReturn_displayData,
      rd_setTemp hwf (Or.inr ⟨rfl, rfl⟩), if_neg h1, if_neg h2]
  · have hr2 : v ≥ 0 ∧ v ≤ 99 := hr
    rw [DisplaySet_humidity, if_pos hr2, sendAndReturn_displayData,
      rd_setHumidity hwf, if_neg h1, if_neg h2]

theorem nf_table_A {buf : List Nat} (hwf : WF buf) {type : Int} {hi lo : Nat}
    (hk : (type = 6 ∧ hi = 8 ∧ lo = 7) ∨ (type = 7 ∧ hi = 6 ∧ lo = 5) ∨
      (type = 8 ∧ hi = 4 ∧ lo = 3))
    {v : Int} (hr : inRange type v) (j : Nat) :
    rd (TM1729_DisplaySet type v buf).displayData j =
      rd buf j &&& keepMask type j ||| fieldBits type v j := by
  obtain ⟨e1, e2⟩ := DisplaySet_table_A_pair hk hr hwf
  obtain ⟨f1, f2, f3⟩ := fieldBits_table_A hk hr
  have hm : fieldMask type j = if j = lo then 0x7F else if j = hi then 0x7F else 0 := by
    rcases hk with ⟨rfl, rfl, rfl⟩ | ⟨rfl, rfl, rfl⟩ | ⟨rfl, rfl, rfl⟩ <;> rfl
  have hkeep : keepMask type j = outside (fieldMask type j) := by
    rcases hk with ⟨rfl, rfl, rfl⟩ | ⟨rfl, rfl, rfl⟩ | ⟨rfl, rfl, rfl⟩ <;> rfl
  have hne : hi ≠ lo := by omega
  by_cases h1 : j = hi
  · rw [hkeep, hm, h1, if_neg hne, if_pos rfl, e1, f1]; rfl
  · by_cases h2 : j = lo
    · rw [hkeep, hm, h2, if_pos rfl, e2, f2]; rfl
    · rw [DisplaySet_table_A_other hk hr hwf h1 h2, f3 j h1 h2]
      exact nf_untouched (by rw [hm, if_neg h2, if_neg h1]) (rd_lt hwf j)

theorem nf_co2 {buf : List Nat} (hwf : WF buf) {v : Int} (hr : inRange 9 v) (j : Nat) :
    rd (TM1729_DisplaySet 9 v buf).displayData j =
      rd buf j &&& keepMask 9 j ||| fieldBits 9 v j := by
  have hr2 : v ≥ 0 ∧ v ≤ 999 := hr
  have h0 : 0 ≤ v := hr2.1
  have d100 : v.tdiv 100 = v / 100 := Int.tdiv_eq_ediv h0 (by decide)
  have d10 : v.tdiv 10 = v / 10 := Int.tdiv_eq_ediv h0 (by decide)
  have m10 : v.tmod 10 = v % 10 := Int.tmod_eq_emod h0 (by decide)
  have dm : (v / 10).tmod 10 = (v / 10) % 10 := Int.tmod_eq_emod (by omega) (by decide)
  have hm : fieldMask 9 j =
      if j = 0 then 0x7F else if j = 1 then 0x7F else if j = 2 then 0x7F else 0 := rfl
  have hfull : ∀ i, rd buf i &&& 0xFF = rd buf i := fun i => and_byte_full (rd_lt hwf i)
  rw [DisplaySet_co2, if_pos hr2, sendAndReturn_displayData, rd_setCO2 hwf, d100, d10, dm, m10,
    fieldBits_co2 hr]
  by_cases h2 : j = 2
  · subst h2
    rw [if_pos rfl, if_pos rfl]
    show _ = rd buf 2 &&& 0xFF ||| _
    rw [hfull]
  · by_cases h1 : j = 1
    · subst h1
      rw [if_neg h2, if_pos rfl, if_neg h2, if_pos rfl]
      show _ = rd buf 1 &&& 0xFF ||| _
      rw [hfull]
    · by_cases h0 : j = 0
      · subst h0; rfl
      · rw [if_neg h2, if_neg h1, if_neg h0, if_neg h2, if_neg h1, if_neg h0]
        exact nf_untouched (by rw [hm, if_neg h0, if_neg h1, if_neg h2]) (rd_lt hwf j)

/-- A successful call leaves in every byte the kept bits of the old byte merged
with the bits of the field value. -/
theorem DisplaySet_normal_form {buf : List Nat} (hwf : WF buf) {type data : Int}
    (hr : inRange type data) (j : Nat) :
    rd (TM1729_DisplaySet type data buf).displayData j =
      rd buf j &&& keepMask type j ||| fieldBits type data j := by
  rcases knownType_cases (inRange_known hr) with h | h | h | h | h | h | h | h | h | h <;>
    subst h
  · exact nf_signal hwf hr j
  · exact nf_bell hwf hr j
  · exact nf_digits10_15 hwf (Or.inl ⟨rfl, rfl⟩) hr j
  · exact nf_digits10_15 hwf (Or.inr (Or.inl ⟨rfl, rfl⟩)) hr j
  · exact nf_digits10_15 hwf (Or.inr (Or.inr ⟨rfl, rfl⟩)) hr j
  · exact nf_battery hwf hr j
  · exact nf_table_A hwf (Or.inl ⟨rfl, rfl, rfl⟩) hr j
  · exact nf_table_A hwf (Or.inr (Or.inl ⟨rfl, rfl, rfl⟩)) hr j
  · exact nf_table_A hwf (Or.inr (Or.inr ⟨rfl, rfl, rfl⟩)) hr j
  · exact nf_co2 hwf hr j

/-! ## Facts about the masks and the bits written -/

theorem keepMask_of_ne_co2 {type : Int} (h : type ≠ 9) (j : Nat) :
    keepMask type j = outside (fieldMask type j) := by
  unfold keepMask
  rw [if_neg (fun hc => h hc.1)]

theorem fieldBits_lt (type data : Int) (j : Nat) : fieldBits type data j < 256 :=
  rd_lt (WF_DisplaySet WF_zeroBuf type data) j

theorem fieldBits_outside {type data : Int} (hr : inRange type data) (j : Nat) :
    fieldBits type data j &&& outside (fieldMask type j) = 0 := by
  have h := DisplaySet_outside_mask WF_zeroBuf hr j
  rw [rd_zeroBuf, Nat.zero_and] at h
  exact h

theorem type_as_nat {type : Int} (hk : knownType type) :
    type.toNat < 10 ∧ (type.toNat : Int) = type := by
  unfold knownType at hk
  omega

set_option maxRecDepth 1000000 in
theorem fieldMask_table : ∀ x, x < 10 → ∀ j, j < 16 →
    fieldMask (x : Nat) j < 256 ∧
    ∀ y, y < 10 → x ≠ y →
      fieldMask (x : Nat) j &&& keepMask (y : Nat) j = fieldMask (x : Nat) j ∧
      fieldMask (x : Nat) j &&& outside (fieldMask (y : Nat) j) = fieldMask (x : Nat) j := by
  decide!

theorem fieldMask_lt (type : Int) (j : Nat) : fieldMask type j < 256 := by
  by_cases hj : j < 16
  · by_cases hk : knownType type
    · obtain ⟨h10, hc⟩ := type_as_nat hk
      rw [← hc]
      exact (fieldMask_table _ h10 j hj).1
    · rw [fieldMask_unknown hk]; decide
  · rw [fieldMask_high type (Nat.le_of_not_lt hj)]; decide

/-- The mask of one field lies in what a call for another field keeps. -/
theorem fieldMask_kept {X Y : Int} (hX : knownType X) (hY : knownType Y) (hne : X ≠ Y)
    (j : Nat) :
    fieldMask X j &&& keepMask Y j = fieldMask X j ∧
    fieldMask X j &&& outside (fieldMask Y j) = fieldMask X j := by
  by_cases hj : j < 16
  · obtain ⟨hx, hcx⟩ := type_as_nat hX
    obtain ⟨hy, hcy⟩ := type_as_nat hY
    have hne2 : X.toNat ≠ Y.toNat := by
      intro h; apply hne; rw [← hcx, ← hcy, h]
    have := (fieldMask_table _ hx j hj).2 _ hy hne2
    rw [hcx, hcy] at this
    exact this
  · rw [fieldMask_high X (Nat.le_of_not_lt hj), Nat.zero_and, Nat.zero_and]
    exact ⟨rfl, rfl⟩

theorem and_or_distrib_bits (v a b : Nat) : v &&& (a ||| b) = v &&& a ||| v &&& b := by
  apply Nat.eq_of_testBit_eq
  intro i
  simp only [Nat.testBit_and, Nat.testBit_or]
  cases v.testBit i <;> cases a.testBit i <;> cases b.testBit i <;> rfl

set_option maxRecDepth 100000 in
theorem mask_or_outside : ∀ m, m < 256 → m ||| outside m = 0xFF := by
  decide

theorem inside_of_outside_zero : ∀ v, v < 256 → ∀ m, m < 256 →
    v &&& outside m = 0 → v &&& m = v := by
  intro v hv m hm h
  have h1 : v &&& 0xFF = v := and_byte_full hv
  rw [← mask_or_outside m hm, and_or_distrib_bits, h, Nat.or_zero] at h1
  exact h1

theorem fieldBits_inside {type data : Int} (hr : inRange type data) (j : Nat) :
    fieldBits type data j &&& fieldMask type j = fieldBits type data j :=
  inside_of_outside_zero _ (fieldBits_lt type data j) _ (fieldMask_lt type j)
    (fieldBits_outside hr j)

set_option maxRecDepth 1000000 in
theorem outside_and_self_zero : ∀ m, m < 256 → outside m &&& m = 0 := by
  decide

/-- Masking a freshly written byte with the field's mask gives the field's bits. -/
theorem DisplaySet_read_field {buf : List Nat} (hwf : WF buf) {type data : Int}
    (hr : inRange type data) (hne : type ≠ 9) (j : Nat) :
    rd (TM1729_DisplaySet type data buf).displayData j &&& fieldMask type j =
      fieldBits type data j := by
  rw [DisplaySet_normal_form hwf hr, keepMask_of_ne_co2 hne]
  exact and_or_inside (outside_and_self_zero _ (fieldMask_lt type j)) (fieldBits_inside hr j) _

/-- Writing a field twice: the second value replaces the first (fields other
than CO2). -/
theorem DisplaySet_twice {buf : List Nat} (hwf : WF buf) {type : Int} (hne : type ≠ 9)
    {a b : Int} (ha : inRange type a) (hb : inRange type b) :
    (TM1729_DisplaySet type b (TM1729_DisplaySet type a buf).displayData).displayData =
      (TM1729_DisplaySet type b buf).displayData := by
  have hwa := WF_DisplaySet hwf type a
  apply buf_ext
  · rw [(WF_DisplaySet hwa type b).1, (WF_DisplaySet hwf type b).1]
  · intro j
    rw [DisplaySet_normal_form hwa hb, DisplaySet_normal_form hwf ha,
      DisplaySet_normal_form hwf hb, keepMask_of_ne_co2 hne]
    rw [and_or_outside (Nat.and_self _) (fieldBits_outside ha j)]


/-! ## Distinct fields do not disturb each other -/

theorem commute_merge {x kX kY vX vY : Nat} (h1 : vX &&& kY = vX) (h2 : vY &&& kX = vY) :
    ((x &&& kX ||| vX) &&& kY) ||| vY = ((x &&& kY ||| vY) &&& kX) ||| vX := by
  apply Nat.eq_of_testBit_eq
  intro i
  have h1i := congrArg (fun n => n.testBit i) h1
  have h2i := congrArg (fun n => n.testBit i) h2
  simp only [Nat.testBit_and, Nat.testBit_or] at h1i h2i ⊢
  revert h1i h2i
  cases x.testBit i <;> cases kX.testBit i <;> cases kY.testBit i <;>
    cases vX.testBit i <;> cases vY.testBit i <;> simp

theorem merge_mask_congr {b c m : Nat} (h : b &&& m = c &&& m) (k v : Nat) :
    (b &&& k ||| v) &&& m = (c &&& k ||| v) &&& m := by
  apply Nat.eq_of_testBit_eq
  intro i
  have hi := congrArg (fun n => n.testBit i) h
  simp only [Nat.testBit_and, Nat.testBit_or] at hi ⊢
  revert hi
  cases b.testBit i <;> cases c.testBit i <;> cases m.testBit i <;>
    cases k.testBit i <;> cases v.testBit i <;> simp

/-- The bits of one field survive a call for another field. -/
theorem fieldBits_kept {X Y : Int} (hne : X ≠ Y) {a b : Int} (ha : inRange X a)
    (hb : inRange Y b) (j : Nat) :
    fieldBits X a j &&& keepMask Y j = fieldBits X a j := by
  have hm := (fieldMask_kept (inRange_known ha) (inRange_known hb) hne j).1
  rw [← fieldBits_inside ha j, Nat.and_assoc, hm]

/-- A call for field `X` leaves the bits of another field's mask as they are. -/
theorem DisplaySet_other_mask {buf : List Nat} (hwf : WF buf) {X Y : Int} (hne : X ≠ Y)
    {a : Int} (ha : inRange X a) (hY : knownType Y) (j : Nat) :
    rd (TM1729_DisplaySet X a buf).displayData j &&& fieldMask Y j =
      rd buf j &&& fieldMask Y j := by
  have hm := (fieldMask_kept hY (inRange_known ha) (Ne.symm hne) j).2
  have hf := DisplaySet_outside_mask hwf ha j
  rw [← hm, Nat.and_comm (fieldMask Y j), ← Nat.and_assoc, ← Nat.and_assoc, hf]


/-! ## Different values give different patterns -/

theorem table_1_9_injective : ∀ i, i < 11 → ∀ j, j < 11 →
    sge_data_1_9.getD i 0 = sge_data_1_9.getD j 0 → i = j := by
  decide

set_option maxRecDepth 1000000 in
set_option synthInstance.maxSize 4096 in
set_option synthInstance.maxHeartbeats 400000 in
theorem table_10_15_split_injective : ∀ i, i < 11 → ∀ j, j < 11 → ∀ i2, i2 < 11 → ∀ j2, j2 < 11 →
    (sge_data_10_15.getD i 0 >>> 4 = sge_data_10_15.getD i2 0 >>> 4 ∧
     (sge_data_10_15.getD i 0 &&& 0x07) <<< 4 ||| sge_data_10_15.getD j 0 >>> 4 =
      (sge_data_10_15.getD i2 0 &&& 0x07) <<< 4 ||| sge_data_10_15.getD j2 0 >>> 4 ∧
     (sge_data_10_15.getD j 0 &&& 0x07) <<< 4 = (sge_data_10_15.getD j2 0 &&& 0x07) <<< 4) →
    i = i2 ∧ j = j2 := by
  decide!

theorem tableAt_1_9_injective {x y : Int} (hx0 : 0 ≤ x) (hx : x < 11) (hy0 : 0 ≤ y)
    (hy : y < 11) (h : tableAt sge_data_1_9 x = tableAt sge_data_1_9 y) : x = y := by
  have := table_1_9_injective x.toNat (by omega) y.toNat (by omega) h
  omega

theorem fieldBits_signal_injective {a b : Int} (ha : inRange 0 a) (hb : inRange 0 b)
    (h : ∀ j, fieldBits 0 a j = fieldBits 0 b j) : a = b := by
  have ha2 : 0 ≤ a ∧ a ≤ 5 := ha
  have hb2 : 0 ≤ b ∧ b ≤ 5 := hb
  have h9 := h 9
  have h13 := h 13
  have h12 := h 12
  rw [fieldBits_signal ha2, fieldBits_signal hb2] at h9 h13 h12
  simp at h9 h13 h12
  have hda : a = 0 ∨ a = 1 ∨ a = 2 ∨ a = 3 ∨ a = 4 ∨ a = 5 := by omega
  have hdb : b = 0 ∨ b = 1 ∨ b = 2 ∨ b = 3 ∨ b = 4 ∨ b = 5 := by omega
  rcases hda with rfl | rfl | rfl | rfl | rfl | rfl <;>
    rcases hdb with rfl | rfl | rfl | rfl | rfl | rfl <;>
    first | rfl | exact absurd h9 (by decide) | exact absurd h13 (by decide)
          | exact absurd h12 (by decide)

theorem fieldBits_bell_injective {a b : Int} (ha : inRange 1 a) (hb : inRange 1 b)
    (h : ∀ j, fieldBits 1 a j = fieldBits 1 b j) : a = b := by
  have h10 := h 10
  rcases (inRange_bell a).1 ha with rfl | rfl <;> rcases (inRange_bell b).1 hb with rfl | rfl
  · rfl
  · rw [fieldBits_bell_on, fieldBits_bell_off] at h10
    exact absurd h10 (by decide)
  · rw [fieldBits_bell_on, fieldBits_bell_off] at h10
    exact absurd h10 (by decide)
  · rfl

theorem fieldBits_digits10_15_injective {type : Int} {k : Nat}
    (hk : (type = 2 ∧ k = 9) ∨ (type = 3 ∧ k = 11) ∨ (type = 4 ∧ k = 13))
    {a b : Int} (ha : inRange type a) (hb : inRange type b)
    (h : ∀ j, fieldBits type a j = fieldBits type b j) : a = b := by
  obtain ⟨_, a0, a99⟩ := DisplaySet_digits10_15 hk ha zeroBuf
  obtain ⟨_, b0, b99⟩ := DisplaySet_digits10_15 hk hb zeroBuf
  have h1 := h k
  have h2 := h (k + 1)
  have h3 := h (k + 2)
  rw [fieldBits_digits10_15 hk ha, fieldBits_digits10_15 hk hb] at h1 h2 h3
  rw [if_pos rfl, if_pos rfl] at h1
  rw [if_neg (by omega), if_pos rfl, if_neg (by omega), if_pos rfl] at h2
  rw [if_neg (by omega), if_neg (by omega), if_pos rfl, if_neg (by omega), if_neg (by omega),
    if_pos rfl] at h3
  have := table_10_15_split_injective (a / 10 + 1).toNat (by omega) (a % 10 + 1).toNat
    (by omega) (b / 10 + 1).toNat (by omega) (b % 10 + 1).toNat (by omega) ⟨h1, h2, h3⟩
  omega

theorem fieldBits_battery_injective {a b : Int} (ha : inRange 5 a) (hb : inRange 5 b)
    (h : ∀ j, fieldBits 5 a j = fieldBits 5 b j) : a = b := by
  have ha2 : 0 ≤ a ∧ a ≤ 4 := ha
  have hb2 : 0 ≤ b ∧ b ≤ 4 := hb
  have h4 := h 4
  have h15 := h 15
  rw [fieldBits_battery ha2, fieldBits_battery hb2] at h4 h15
  rw [if_pos rfl, if_pos rfl] at h4
  rw [if_neg (by decide), if_pos rfl, if_neg (by decide), if_pos rfl] at h15
  have hda : a = 0 ∨ a = 1 ∨ a = 2 ∨ a = 3 ∨ a = 4 := by omega
  have hdb : b = 0 ∨ b = 1 ∨ b = 2 ∨ b = 3 ∨ b = 4 := by omega
  rcases hda with rfl | rfl | rfl | rfl | rfl <;>
    rcases hdb with rfl | rfl | rfl | rfl | rfl <;>
    first | rfl | exact absurd h4 (by decide) | exact absurd h15 (by decide)

theorem fieldBits_table_A_injective {type : Int} {hi lo : Nat}
    (hk : (type = 6 ∧ hi = 8 ∧ lo = 7) ∨ (type = 7 ∧ hi = 6 ∧ lo = 5) ∨
      (type = 8 ∧ hi = 4 ∧ lo = 3))
    {a b : Int} (ha : inRange type a) (hb : inRange type b)
    (h : ∀ j, fieldBits type a j = fieldBits type b j) : a = b := by
  have ra : -9 ≤ a ∧ a ≤ 99 := by
    rcases hk with ⟨rfl, _⟩ | ⟨rfl, _⟩ | ⟨rfl, _⟩
    · exact ha
    · exact ha
    · have : 0 ≤ a ∧ a ≤ 99 := ha
      omega
  have rb : -9 ≤ b ∧ b ≤ 99 := by
    rcases hk with ⟨rfl, _⟩ | ⟨rfl, _⟩ | ⟨rfl, _⟩
    · exact hb
    · exact hb
    · have : 0 ≤ b ∧ b ≤ 99 := hb
      omega
  obtain ⟨a1, a2, _⟩ := fieldBits_table_A hk ha
  obtain ⟨b1, b2, _⟩ := fieldBits_table_A hk hb
  have h1 := h hi
  have h2 := h lo
  rw [a1, b1] at h1
  rw [a2, b2] at h2
  have e2 := tableAt_1_9_injective (by split <;> omega) (by split <;> omega)
    (by split <;> omega) (by split <;> omega) h2
  by_cases na : a < 0 <;> by_cases nb : b < 0
  · rw [if_pos na, if_pos nb] at e2; omega
  · rw [if_pos na, if_neg nb] at h1
    have := tableAt_1_9_injective (le_refl 0) (by decide) (by omega) (by omega) h1
    omega
  · rw [if_neg na, if_pos nb] at h1
    have := tableAt_1_9_injective (by omega) (by omega) (le_refl 0) (by decide) h1
    omega
  · rw [if_neg na, if_neg nb] at h1 e2
    have := tableAt_1_9_injective (by omega) (by omega) (by omega) (by omega) h1
    omega

theorem fieldBits_co2_injective {a b : Int} (ha : inRange 9 a) (hb : inRange 9 b)
    (h : ∀ j, fieldBits 9 a j = fieldBits 9 b j) : a = b := by
  have ra : 0 ≤ a ∧ a ≤ 999 := ha
  have rb : 0 ≤ b ∧ b ≤ 999 := hb
  have h2 := h 2
  have h1 := h 1
  have h0 := h 0
  rw [fieldBits_co2 ha, fieldBits_co2 hb] at h2 h1 h0
  rw [if_pos rfl, if_pos rfl] at h2
  rw [if_neg (by decide), if_pos rfl, if_neg (by decide), if_pos rfl] at h1
  rw [if_neg (by decide), if_neg (by decide), if_pos rfl, if_neg (by decide),
    if_neg (by decide), if_pos rfl] at h0
  have e2 := tableAt_1_9_injective (by omega) (by omega) (by omega) (by omega) h2
  have e1 := tableAt_1_9_injective (by omega) (by omega) (by omega) (by omega) h1
  have e0 := tableAt_1_9_injective (by omega) (by omega) (by omega) (by omega) h0
  omega

/-- Two different in-range values of one field write different bits. -/
theorem fieldBits_injective {type : Int} {a b : Int} (ha : inRange type a)
    (hb : inRange type b) (h : ∀ j, fieldBits type a j = fieldBits type b j) : a = b := by
  rcases knownType_cases (inRange_known ha) with t | t | t | t | t | t | t | t | t | t <;>
    subst t
  · exact fieldBits_signal_injective ha hb h
  · exact fieldBits_bell_injective ha hb h
  · exact fieldBits_digits10_15_injective (Or.inl ⟨rfl, rfl⟩) ha hb h
  · exact fieldBits_digits10_15_injective (Or.inr (Or.inl ⟨rfl, rfl⟩)) ha hb h
  · exact fieldBits_digits10_15_injective (Or.inr (Or.inr ⟨rfl, rfl⟩)) ha hb h
  · exact fieldBits_battery_injective ha hb h
  · exact fieldBits_table_A_injective (Or.inl ⟨rfl, rfl, rfl⟩) ha hb h
  · exact fieldBits_table_A_injective (Or.inr (Or.inl ⟨rfl, rfl, rfl⟩)) ha hb h
  · exact fieldBits_table_A_injective (Or.inr (Or.inr ⟨rfl, rfl, rfl⟩)) ha hb h
  · exact fieldBits_co2_injective ha hb h

theorem or_inside {y v m : Nat} (h1 : y &&& m = 0) (h2 : v &&& m = v) :
    (y ||| v) &&& m = v := by
  apply Nat.eq_of_testBit_eq
  intro i
  have h1i := congrArg (fun n => n.testBit i) h1
  have h2i := congrArg (fun n => n.testBit i) h2
  simp only [Nat.testBit_and, Nat.testBit_or, Nat.zero_testBit] at h1i h2i ⊢
  revert h1i h2i
  cases y.testBit i <;> cases v.testBit i <;> cases m.testBit i <;> simp

/-- On a buffer whose bytes 1 and 2 have their low seven bits clear, masking a
freshly written CO2 byte with the field's mask gives the field's bits. -/
theorem DisplaySet_read_co2 {buf : List Nat} (hwf : WF buf) {v : Int} (hr : inRange 9 v)
    (h1 : rd buf 1 &&& 0x7F = 0) (h2 : rd buf 2 &&& 0x7F = 0) (j : Nat) :
    rd (TM1729_DisplaySet 9 v buf).displayData j &&& fieldMask 9 j = fieldBits 9 v j := by
  rw [DisplaySet_normal_form hwf hr]
  by_cases hj : j = 1 ∨ j = 2
  · have hk : keepMask 9 j = 0xFF := by
      unfold keepMask; rw [if_pos ⟨rfl, hj⟩]
    have hm : fieldMask 9 j = 0x7F := by
      rcases hj with rfl | rfl <;> rfl
    have hx : rd buf j &&& 0x7F = 0 := by
      rcases hj with rfl | rfl
      · exact h1
      · exact h2
    rw [hk]
    refine or_inside ?_ (fieldBits_inside hr j)
    rw [hm, Nat.and_assoc]
    exact hx
  · have hk : keepMask 9 j = outside (fieldMask 9 j) := by
      unfold keepMask; rw [if_neg (fun hc => hj hc.2)]
    rw [hk]
    exact and_or_inside (outside_and_self_zero _ (fieldMask_lt 9 j)) (fieldBits_inside hr j) _


/-! ## Bytes 1 and 2 only grow -/

theorem and_or_absorb (x v : Nat) : x &&& (x ||| v) = x := by
  apply Nat.eq_of_testBit_eq
  intro i
  simp only [Nat.testBit_and, Nat.testBit_or]
  cases x.testBit i <;> cases v.testBit i <;> rfl

theorem subset_trans_bits {x y z : Nat} (h1 : x &&& y = x) (h2 : y &&& z = y) :
    x &&& z = x := by
  rw [← h1, Nat.and_assoc, h2]

theorem keepMask_bytes_1_2 {type : Int} (hk : knownType type) {j : Nat} (hj : j = 1 ∨ j = 2) :
    keepMask type j = 0xFF := by
  rcases knownType_cases hk with t | t | t | t | t | t | t | t | t | t <;> subst t <;>
    rcases hj with rfl | rfl <;> rfl

/-- One call, of any type and value, clears no bit of byte 1 or byte 2. -/
theorem DisplaySet_bytes_1_2_grow {buf : List Nat} (hwf : WF buf) (type data : Int) {j : Nat}
    (hj : j = 1 ∨ j = 2) :
    rd buf j &&& rd (TM1729_DisplaySet type data buf).displayData j = rd buf j := by
  by_cases hr : inRange type data
  · rw [DisplaySet_normal_form hwf hr, keepMask_bytes_1_2 (inRange_known hr) hj]
    show _ &&& (rd buf j &&& outside 0 ||| _) = _
    rw [and_byte_full (rd_lt hwf j)]
    exact and_or_absorb _ _
  · have hne : (TM1729_DisplaySet type data buf).ret ≠ 0 := by
      rw [DisplaySet_ret, if_neg hr]
      split <;> decide
    rw [(DisplaySet_error type data buf hne).1]
    exact Nat.and_self _

theorem runCalls_append (c1 c2 : List (Int × Int)) (buf : List Nat) :
    runCalls (c1 ++ c2) buf = runCalls c2 (runCalls c1 buf) := by
  unfold runCalls
  rw [List.foldl_append]

theorem WF_runCalls {buf : List Nat} (hwf : WF buf) (calls : List (Int × Int)) :
    WF (runCalls calls buf) := by
  induction calls generalizing buf with
  | nil => exact hwf
  | cons c cs ih => exact ih (WF_DisplaySet hwf c.1 c.2)

theorem runCalls_bytes_1_2_grow {buf : List Nat} (hwf : WF buf) (calls : List (Int × Int))
    {j : Nat} (hj : j = 1 ∨ j = 2) :
    rd buf j &&& rd (runCalls calls buf) j = rd buf j := by
  induction calls generalizing buf with
  | nil => exact Nat.and_self _
  | cons c cs ih =>
    exact subset_trans_bits (DisplaySet_bytes_1_2_grow hwf c.1 c.2 hj)
      (ih (WF_DisplaySet hwf c.1 c.2))

theorem or_or_eq_iff (x a b : Nat) : x ||| a ||| b = x ||| b ↔ a &&& (x ||| b) = a := by
  constructor
  · intro h
    apply Nat.eq_of_testBit_eq
    intro i
    have hi := congrArg (fun n => n.testBit i) h
    simp only [Nat.testBit_and, Nat.testBit_or] at hi ⊢
    revert hi
    cases x.testBit i <;> cases a.testBit i <;> cases b.testBit i <;> simp
  · intro h
    apply Nat.eq_of_testBit_eq
    intro i
    have hi := congrArg (fun n => n.testBit i) h
    simp only [Nat.testBit_and, Nat.testBit_or] at hi ⊢
    revert hi
    cases x.testBit i <;> cases a.testBit i <;> cases b.testBit i <;> simp


/-! ## The utility functions -/

theorem DisplayAll_loop_length : ∀ n i (fd : List Nat),
    (TM1729_DisplayAll_loop fd i n).length = fd.length := by
  intro n
  induction n with
  | zero => intro i fd; rfl
  | succ n ih =>
    intro i fd
    rw [TM1729_DisplayAll_loop, ih, List.length_set]

theorem DisplayAll_loop_get : ∀ n i (fd : List Nat) (j : Nat),
    (TM1729_DisplayAll_loop fd i n)[j]? =
      if i ≤ j ∧ j < i + n ∧ j < fd.length then some 0xFF else fd[j]? := by
  intro n
  induction n with
  | zero =>
    intro i fd j
    rw [TM1729_DisplayAll_loop, if_neg (by omega)]
  | succ n ih =>
    intro i fd j
    rw [TM1729_DisplayAll_loop, ih, List.length_set, List.getElem?_set]
    by_cases h1 : i + 1 ≤ j ∧ j < i + 1 + n ∧ j < fd.length
    · rw [if_pos h1, if_pos (by omega)]
    · rw [if_neg h1]
      by_cases h2 : i = j
      · subst h2
        by_cases h3 : i < fd.length
        · rw [if_pos rfl, if_pos h3, if_pos (by omega)]
        · rw [if_pos rfl, if_neg h3, if_neg (by omega),
            List.getElem?_eq_none (Nat.le_of_not_lt h3)]
      · rw [if_neg h2, if_neg (by omega)]

/-- The fill loop leaves 26 bytes 0xFF, whatever the local array held. -/
theorem DisplayAll_loop_eq {fillData : List Nat} (hlen : fillData.length = MAX_LIGHT) :
    TM1729_DisplayAll_loop fillData 0 MAX_LIGHT = List.replicate MAX_LIGHT 0xFF := by
  apply List.ext_getElem?
  intro j
  rw [DisplayAll_loop_get]
  by_cases hj : j < MAX_LIGHT
  · rw [if_pos (by omega), List.getElem?_eq_getElem (by simpa using hj)]
    simp
  · rw [if_neg (by omega), List.getElem?_eq_none (by omega),
      List.getElem?_eq_none (by simpa using hj)]


theorem transaction_bytes_lt {bytes : List Nat} (h : ∀ b ∈ bytes, b < 256) :
    ∀ b, BusOp.byte b ∈ transaction bytes → b < 256 :=
  fun b hb => h b (byte_mem_transaction hb)


/-! ## Chip initialisation -/

/-- The protocol-layer calls of `TM1729_Init`, after the pin setup and the
10 ms delay. -/
theorem Init_eq :
    TM1729_Init = MyI2C_Init ++ Delay_ms 10 ++
      lineTrace [BusOp.stop, BusOp.start, BusOp.byte 0x7C, BusOp.byte 0xEA, BusOp.byte 0xA2,
        BusOp.byte 0xF0, BusOp.byte 0xFC, BusOp.byte 0xC8, BusOp.stop] := by
  simp only [TM1729_Init, lineTrace, BusOp.lines, List.append_assoc, List.append_nil]

theorem Init_unique {ops : List BusOp} (hops : ∀ b, BusOp.byte b ∈ ops → b < 256)
    (h : TM1729_Init = MyI2C_Init ++ Delay_ms 10 ++ lineTrace ops) :
    ops = [BusOp.stop, BusOp.start, BusOp.byte 0x7C, BusOp.byte 0xEA, BusOp.byte 0xA2,
      BusOp.byte 0xF0, BusOp.byte 0xFC, BusOp.byte 0xC8, BusOp.stop] := by
  rw [Init_eq] at h
  refine lineTrace_inj _ _ hops ?_ (List.append_cancel_left h).symm
  intro b hb
  simp only [List.mem_cons, BusOp.byte.injEq, reduceCtorEq, false_or, List.mem_singleton,
    or_false, List.not_mem_nil] at hb
  omega


/-! ## Data-line edges while the clock is high -/

theorem bytes_edges : ∀ (bytes : List Nat), (∀ b ∈ bytes, b < 256) → ∀ s,
    dataEdgesClockHigh s (lineTrace (bytes.map BusOp.byte)) = [] ∧
    (bytes ≠ [] → Lines.run s (lineTrace (bytes.map BusOp.byte)) = ⟨false, false⟩) := by
  intro bytes
  induction bytes with
  | nil => intro _ s; exact ⟨rfl, fun h => absurd rfl h⟩
  | cons b bs ih =>
    intro hb s
    have hb0 : b < 256 := hb b (List.mem_cons_self _ _)
    have hbs : ∀ x ∈ bs, x < 256 := fun x hx => hb x (List.mem_cons_of_mem _ hx)
    have hrun := SendByte_run hb0 s
    simp only [List.map_cons, lineTrace, BusOp.lines]
    rw [dataEdgesClockHigh_append, SendByte_edges hb0, Lines_run_append, hrun,
      (ih hbs _).1]
    refine ⟨rfl, fun _ => ?_⟩
    by_cases hnil : bs = []
    · subst hnil; rfl
    · exact (ih hbs _).2 hnil

/-- One transaction played from both lines low: a falling data edge in the
start, none in the bytes, a rising and then a falling data edge in the stop. -/
theorem transaction_edges {bytes : List Nat} (hb : ∀ b ∈ bytes, b < 256) (hne : bytes ≠ []) :
    dataEdgesClockHigh ⟨false, false⟩ (lineTrace (transaction bytes)) = [false, true, false] := by
  unfold transaction
  have hstart : Lines.run ⟨false, false⟩ MyI2C_Start = ⟨false, false⟩ := by decide
  have hse : dataEdgesClockHigh ⟨false, false⟩ MyI2C_Start = [false] := by decide
  have hstop : dataEdgesClockHigh ⟨false, false⟩ MyI2C_Stop = [true, false] := by decide
  have hl : lineTrace (BusOp.start :: (bytes.map BusOp.byte ++ [BusOp.stop])) =
      MyI2C_Start ++ (lineTrace (bytes.map BusOp.byte) ++ MyI2C_Stop) := by
    simp [lineTrace, lineTrace_append, BusOp.lines]
  rw [hl, dataEdgesClockHigh_append, hse, hstart, dataEdgesClockHigh_append,
    (bytes_edges bytes hb _).1, (bytes_edges bytes hb _).2 hne, hstop]
  rfl

theorem Stop_run (s : Lines) : Lines.run s MyI2C_Stop = ⟨false, false⟩ := by
  rcases s with ⟨c, d⟩
  cases c <;> cases d <;> rfl

theorem WriteData_run {pData : List Nat} {len : Nat} (hlen : pData.length = len)
    (h255 : len ≤ 255) (s : Lines) :
    Lines.run s (TM1729_WriteData pData len) = ⟨false, false⟩ := by
  rw [WriteData_eq hlen h255]
  unfold transaction
  have hl : lineTrace (BusOp.start :: ((TM1729_SLAVE_ADDRESS :: TM1729_ADSET :: pData).map
      BusOp.byte ++ [BusOp.stop])) =
      (MyI2C_Start ++ lineTrace ((TM1729_SLAVE_ADDRESS :: TM1729_ADSET :: pData).map
        BusOp.byte)) ++ MyI2C_Stop := by
    simp [lineTrace, lineTrace_append, BusOp.lines]
  rw [hl, Lines_run_append, Stop_run]


/-! ## No access is out of bounds -/

theorem checkedAndAssign_ok {i : Nat} (h : i < 26) (m : Nat) (buf : List Nat) :
    checkedAndAssign i m buf = some (andAssign i m buf) := by
  unfold checkedAndAssign; rw [if_pos h]

theorem checkedOrAssign_ok {i : Nat} (h : i < 26) (v : Nat) (buf : List Nat) :
    checkedOrAssign i v buf = some (orAssign i v buf) := by
  unfold checkedOrAssign; rw [if_pos h]

theorem checkedTableAt_1_9_ok {i : Int} (h0 : 0 ≤ i) (h : i ≤ 10) :
    checkedTableAt sge_data_1_9 i = some (tableAt sge_data_1_9 i) := by
  unfold checkedTableAt
  rw [if_pos ⟨h0, by show i < 11; omega⟩]

theorem checkedTableAt_10_15_ok {i : Int} (h0 : 0 ≤ i) (h : i ≤ 10) :
    checkedTableAt sge_data_10_15 i = some (tableAt sge_data_10_15 i) := by
  unfold checkedTableAt
  rw [if_pos ⟨h0, by show i < 11; omega⟩]

theorem checkedSetSignal_ok {data : Int} (hr : data ≥ 0 ∧ data ≤ 5) (buf : List Nat) :
    checkedSetSignal data buf = some (setSignal data buf) := by
  have hd : data = 0 ∨ data = 1 ∨ data = 2 ∨ data = 3 ∨ data = 4 ∨ data = 5 := by omega
  rcases hd with rfl | rfl | rfl | rfl | rfl | rfl <;>
    simp [checkedSetSignal, checkedClearSignal, setSignal, checkedAndAssign_ok, checkedOrAssign_ok]

theorem checkedSetBattery_ok {data : Int} (hr : data ≥ 0 ∧ data ≤ 4) (buf : List Nat) :
    checkedSetBattery data buf = some (setBattery data buf) := by
  have hd : data = 0 ∨ data = 1 ∨ data = 2 ∨ data = 3 ∨ data = 4 := by omega
  rcases hd with rfl | rfl | rfl | rfl | rfl <;>
    simp [checkedSetBattery, setBattery, checkedAndAssign_ok, checkedOrAssign_ok]

theorem checkedSetDigits10_15_ok {k : Nat} (hk : k = 9 ∨ k = 11 ∨ k = 13) {data : Int}
    (hr : data ≥ 0 ∧ data ≤ 99) (buf : List Nat) :
    checkedSetDigits10_15 k data buf = some (setDigits10_15 k data buf) := by
  obtain ⟨hdiv, hmod, _, _⟩ := digits_of_nonneg hr.1 hr.2
  have t1 := checkedTableAt_10_15_ok (i := data.tdiv 10 + 1) (by omega) (by omega)
  have t2 := checkedTableAt_10_15_ok (i := data.tmod 10 + 1) (by omega) (by omega)
  unfold checkedSetDigits10_15 setDigits10_15
  simp only [checkedAndAssign_ok (show k < 26 by omega),
    checkedAndAssign_ok (show k + 1 < 26 by omega),
    checkedAndAssign_ok (show k + 2 < 26 by omega),
    checkedOrAssign_ok (show k < 26 by omega), checkedOrAssign_ok (show k + 1 < 26 by omega),
    checkedOrAssign_ok (show k + 2 < 26 by omega), t1, t2, Option.bind_eq_bind,
    Option.some_bind]

theorem checkedSetTemp_ok {hi lo : Nat} (hk : (hi = 8 ∧ lo = 7) ∨ (hi = 6 ∧ lo = 5))
    {data : Int} (hr : data ≥ -9 ∧ data ≤ 99) (buf : List Nat) :
    checkedSetTemp hi lo data buf = some (setTemp hi lo data buf) := by
  have hhi : hi < 26 := by omega
  have hlo : lo < 26 := by omega
  have t0 := checkedTableAt_1_9_ok (i := 0) (le_refl 0) (by decide)
  unfold checkedSetTemp setTemp
  by_cases hneg : data < 0
  · have tu := checkedTableAt_1_9_ok (i := -data + 1) (by omega) (by omega)
    simp only [if_pos hneg, checkedAndAssign_ok hhi, checkedAndAssign_ok hlo,
      checkedOrAssign_ok hhi, checkedOrAssign_ok hlo, t0, tu, Option.bind_eq_bind,
      Option.some_bind]
  · have h0 : 0 ≤ data := by omega
    have hdiv : data.tdiv 10 = data / 10 := Int.tdiv_eq_ediv h0 (by decide)
    have hmod : data.tmod 10 = data % 10 := Int.tmod_eq_emod h0 (by decide)
    have th := checkedTableAt_1_9_ok (i := data.tdiv 10 + 1) (by omega) (by omega)
    have tu := checkedTableAt_1_9_ok (i := data.tmod 10 + 1) (by omega) (by omega)
    simp only [if_neg hneg, checkedAndAssign_ok hhi, checkedAndAssign_ok hlo,
      checkedOrAssign_ok hhi, checkedOrAssign_ok hlo, th, tu, Option.bind_eq_bind,
      Option.some_bind]

theorem checkedSetHumidity_ok {data : Int} (hr : data ≥ 0 ∧ data ≤ 99) (buf : List Nat) :
    checkedSetHumidity data buf = some (setHumidity data buf) := by
  obtain ⟨hdiv, hmod, _, _⟩ := digits_of_nonneg hr.1 hr.2
  have th := checkedTableAt_1_9_ok (i := data.tdiv 10 + 1) (by omega) (by omega)
  have tu := checkedTableAt_1_9_ok (i := data.tmod 10 + 1) (by omega) (by omega)
  unfold checkedSetHumidity setHumidity
  simp only [checkedAndAssign_ok (show 4 < 26 by decide),
    checkedAndAssign_ok (show 3 < 26 by decide), checkedOrAssign_ok (show 4 < 26 by decide),
    checkedOrAssign_ok (show 3 < 26 by decide), th, tu, Option.bind_eq_bind, Option.some_bind]

theorem checkedSetCO2_ok {data : Int} (hr : data ≥ 0 ∧ data ≤ 999) (buf : List Nat) :
    checkedSetCO2 data buf = some (setCO2 data buf) := by
  have h0 : 0 ≤ data := hr.1
  have d100 : data.tdiv 100 = data / 100 := Int.tdiv_eq_ediv h0 (by decide)
  have d10 : data.tdiv 10 = data / 10 := Int.tdiv_eq_ediv h0 (by decide)
  have m10 : data.tmod 10 = data % 10 := Int.tmod_eq_emod h0 (by decide)
  have dm : (data / 10).tmod 10 = (data / 10) % 10 := Int.tmod_eq_emod (by omega) (by decide)
  have th := checkedTableAt_1_9_ok (i := data.tdiv 100 + 1) (by omega) (by omega)
  have tm := checkedTableAt_1_9_ok (i := (data.tdiv 10).tmod 10 + 1) (by rw [d10, dm]; omega)
    (by rw [d10, dm]; omega)
  have tl := checkedTableAt_1_9_ok (i := data.tmod 10 + 1) (by omega) (by omega)
  unfold checkedSetCO2 setCO2
  simp only [checkedAndAssign_ok (show 0 < 26 by decide),
    checkedOrAssign_ok (show 2 < 26 by decide), checkedOrAssign_ok (show 1 < 26 by decide),
    checkedOrAssign_ok (show 0 < 26 by decide), th, tm, tl, Option.bind_eq_bind,
    Option.some_bind]

theorem checkedRead_ok {size i : Nat} (h : i < size) (pData : List Nat) :
    checkedRead size pData i = some (pData.getD i 0) := if_pos h

theorem checkedRead_none {size i : Nat} (h : size ≤ i) (pData : List Nat) :
    checkedRead size pData i = none := if_neg (Nat.not_lt.mpr h)

/-- The checked loop meets no index out of bounds when its last index `i + n - 1`
is below the size of the array. -/
theorem WriteData_loop_checked_ok (size : Nat) (pData : List Nat) :
    ∀ n i, i + n ≤ size →
      TM1729_WriteData_loop_checked size pData i n = some (TM1729_WriteData_loop pData i n) := by
  intro n
  induction n with
  | zero => intro i _; rfl
  | succ n ih =>
    intro i h
    rw [TM1729_WriteData_loop_checked, checkedRead_ok (by omega), ih (i + 1) (by omega)]
    rfl

/-- The checked loop stops as soon as one of its indices reaches the size of the
array. -/
theorem WriteData_loop_checked_none (size : Nat) (pData : List Nat) :
    ∀ n i, size < i + n → 0 < n →
      TM1729_WriteData_loop_checked size pData i n = none := by
  intro n
  induction n with
  | zero => intro i _ h; exact absurd h (Nat.lt_irrefl 0)
  | succ n ih =>
    intro i h _
    rw [TM1729_WriteData_loop_checked]
    by_cases hi : i < size
    · have hn : 0 < n := by omega
      rw [checkedRead_ok hi, ih (i + 1) (by omega) hn]
      rfl
    · rw [checkedRead_none (Nat.le_of_not_lt hi)]
      rfl

theorem WriteData_checked_ok {size len : Nat} (h : len % 256 ≤ size) (pData : List Nat) :
    TM1729_WriteData_checked size pData len = some (TM1729_WriteData pData len) := by
  unfold TM1729_WriteData_checked
  rw [WriteData_loop_checked_ok size pData (len % 256) 0 (by omega)]
  rfl

theorem WriteData_checked_none {size len : Nat} (h : size < len % 256) (pData : List Nat) :
    TM1729_WriteData_checked size pData len = none := by
  unfold TM1729_WriteData_checked
  rw [WriteData_loop_checked_none size pData (len % 256) 0 (by omega) (by omega)]
  rfl

theorem checkedSendAndReturn_ok (buf : List Nat) :
    checkedSendAndReturn buf = some (sendAndReturn buf) := by
  unfold checkedSendAndReturn
  rw [WriteData_checked_ok (by decide)]
  rfl

theorem checkedSend_some (a : List Nat) :
    checkedSend (some a) = some (sendAndReturn a) :=
  checkedSendAndReturn_ok a

theorem checked_guarded {c : Prop} [Decidable c] {body : Option (List Nat)} {a buf : List Nat}
    (h : c → body = some a) (r : Int) :
    (if c then checkedSend body else some (returnOnly r buf)) =
      some (if c then sendAndReturn a else returnOnly r buf) := by
  by_cases hc : c
  · rw [if_pos hc, if_pos hc, h hc, checkedSend_some]
  · rw [if_neg hc, if_neg hc]

theorem DisplaySet_checked_unknown {type : Int} (h : ¬ knownType type) (data : Int)
    (buf : List Nat) : TM1729_DisplaySet_checked type data buf = some (returnOnly (-2) buf) := by
  unfold knownType at h
  unfold TM1729_DisplaySet_checked
  rw [if_neg (show ¬ type = 0 by omega), if_neg (show ¬ type = 1 by omega),
    if_neg (show ¬ type = 2 by omega), if_neg (show ¬ type = 3 by omega),
    if_neg (show ¬ type = 4 by omega), if_neg (show ¬ type = 5 by omega),
    if_neg (show ¬ type = 6 by omega), if_neg (show ¬ type = 7 by omega),
    if_neg (show ¬ type = 8 by omega), if_neg (show ¬ type = 9 by omega)]

/-- The checked run never stops at an index out of bounds: it always ends, with
the outcome of `TM1729_DisplaySet`. -/
theorem DisplaySet_checked_eq (type data : Int) (buf : List Nat) :
    TM1729_DisplaySet_checked type data buf = some (TM1729_DisplaySet type data buf) := by
  by_cases hk : knownType type
  · rcases knownType_cases hk with h | h | h | h | h | h | h | h | h | h <;> subst h
    · exact checked_guarded (fun hr => checkedSetSignal_ok hr buf) _
    · show (if data = 1 then checkedSend (checkedOrAssign 10 0x80 buf)
        else if data = 0 then checkedSend (checkedAndAssign 10 0x7F buf)
        else some (returnOnly (-1) buf)) = _
      rw [DisplaySet_bell]
      by_cases h1 : data = 1
      · rw [if_pos h1, if_pos h1, checkedOrAssign_ok (by decide), checkedSend_some]
      · rw [if_neg h1, if_neg h1]
        exact checked_guarded (fun _ => checkedAndAssign_ok (by decide) _ _) _
    · exact checked_guarded
        (fun hr => checkedSetDigits10_15_ok (Or.inl rfl) ⟨hr.1, by omega⟩ buf) _
    · exact checked_guarded
        (fun hr => checkedSetDigits10_15_ok (Or.inr (Or.inl rfl)) ⟨hr.1, by omega⟩ buf) _
    · exact checked_guarded
        (fun hr => checkedSetDigits10_15_ok (Or.inr (Or.inr rfl)) hr buf) _
    · exact checked_guarded (fun hr => checkedSetBattery_ok hr buf) _
    · exact checked_guarded (fun hr => checkedSetTemp_ok (Or.inl ⟨rfl, rfl⟩) hr buf) _
    · exact checked_guarded (fun hr => checkedSetTemp_ok (Or.inr ⟨rfl, rfl⟩) hr buf) _
    · exact checked_guarded (fun hr => checkedSetHumidity_ok hr buf) _
    · exact checked_guarded (fun hr => checkedSetCO2_ok hr buf) _
  · rw [DisplaySet_checked_unknown hk, DisplaySet_unknown hk]


/-! ## Verified properties -/

/-- C1: whenever `TM1729_DisplaySet` returns a non-zero status, the display
buffer is exactly what it was before the call and not a single line-level
event (clock write, data write or delay), hence no bus transfer, has been
produced. -/
theorem C1_error_has_no_effect (type data : Int) (buf : List Nat)
    (h : (TM1729_DisplaySet type data buf).ret ≠ 0) :
    (TM1729_DisplaySet type data buf).displayData = buf ∧
    (TM1729_DisplaySet type data buf).trace = [] ∧
    ((TM1729_DisplaySet type data buf).ret = -1 ∨
      (TM1729_DisplaySet type data buf).ret = -2) := by
  refine ⟨(DisplaySet_error type data buf h).1, (DisplaySet_error type data buf h).2, ?_⟩
  rw [DisplaySet_ret] at h ⊢
  split_ifs at h ⊢
  · exact absurd rfl h
  · exact Or.inl rfl
  · exact Or.inr rfl

theorem C1_error_has_no_effect_witness :
    (TM1729_DisplaySet 0 6 displayData).ret ≠ 0 ∧
    (TM1729_DisplaySet 0 6 displayData).displayData = displayData ∧
    (TM1729_DisplaySet 0 6 displayData).trace = [] ∧
    ((TM1729_DisplaySet 0 6 displayData).ret = -1 ∨
      (TM1729_DisplaySet 0 6 displayData).ret = -2) :=
  ⟨by decide, C1_error_has_no_effect 0 6 displayData (by decide)⟩

/-- C2: `TM1729_DisplaySet` returns 0 exactly when the type is a known field
and the value lies in that field's documented range, -1 exactly when the type
is known and the value is outside the range, and -2 exactly when the type is
not one of the ten fields; in particular both ends of every range succeed and
one unit beyond either end returns -1. -/
theorem C2_status_characterisation (type data : Int) (buf : List Nat) :
    ((TM1729_DisplaySet type data buf).ret = 0 ↔ inRange type data) ∧
    ((TM1729_DisplaySet type data buf).ret = -1 ↔ knownType type ∧ ¬ inRange type data) ∧
    ((TM1729_DisplaySet type data buf).ret = -2 ↔ ¬ knownType type) ∧
    (∀ lo hi, fieldRange type = some (lo, hi) →
      (TM1729_DisplaySet type lo buf).ret = 0 ∧
      (TM1729_DisplaySet type hi buf).ret = 0 ∧
      (TM1729_DisplaySet type (lo - 1) buf).ret = -1 ∧
      (TM1729_DisplaySet type (hi + 1) buf).ret = -1) := by
  refine ⟨?_, ?_, ?_, ?_⟩
  · rw [DisplaySet_ret]
    by_cases h1 : inRange type data
    · simp [h1]
    · by_cases h2 : knownType type <;> simp [h1, h2]
  · rw [DisplaySet_ret]
    by_cases h1 : inRange type data
    · simp [h1]
    · by_cases h2 : knownType type <;> simp [h1, h2]
  · rw [DisplaySet_ret]
    by_cases h1 : inRange type data
    · simp [h1, inRange_known h1]
    · by_cases h2 : knownType type <;> simp [h1, h2]
  · intro lo hi hf
    have hk : knownType type := by
      by_contra hk
      rw [fieldRange_unknown hk] at hf
      exact Option.noConfusion hf
    have hle : lo ≤ hi := by
      rcases knownType_cases hk with h | h | h | h | h | h | h | h | h | h <;> subst h <;>
        simp only [fieldRange] at hf <;> simp at hf <;> omega
    have hin : ∀ d, inRange type d ↔ lo ≤ d ∧ d ≤ hi := by
      intro d; unfold inRange; rw [hf]
    have h1 : inRange type lo := (hin lo).2 ⟨le_refl _, hle⟩
    have h2 : inRange type hi := (hin hi).2 ⟨hle, le_refl _⟩
    have h3 : ¬ inRange type (lo - 1) := fun h => by have := (hin (lo - 1)).1 h; omega
    have h4 : ¬ inRange type (hi + 1) := fun h => by have := (hin (hi + 1)).1 h; omega
    simp [DisplaySet_ret, h1, h2, h3, h4, hk]

/-- C3: for a well-formed buffer and an in-range value of a known field, the
call keeps the buffer at 26 bytes and changes no bit outside that field's mask;
in particular bytes 16..25 are untouched and so is every bit that belongs to no
field's mask. -/
theorem C3_frame_outside_field_mask (buf : List Nat) (hwf : WF buf) (type data : Int)
    (hr : inRange type data) (i : Nat) :
    (TM1729_DisplaySet type data buf).displayData.length = 26 ∧
    rd (TM1729_DisplaySet type data buf).displayData i &&& outside (fieldMask type i) =
      rd buf i &&& outside (fieldMask type i) ∧
    (16 ≤ i → rd (TM1729_DisplaySet type data buf).displayData i = rd buf i) ∧
    rd (TM1729_DisplaySet type data buf).displayData i &&& outside (ownedMask i) =
      rd buf i &&& outside (ownedMask i) := by
  have hnew := WF_DisplaySet hwf type data
  have hm := DisplaySet_outside_mask hwf hr i
  refine ⟨hnew.1, hm, ?_, ?_⟩
  · intro hi
    rw [fieldMask_high type hi, and_byte_full (rd_lt hnew i), and_byte_full (rd_lt hwf i)] at hm
    exact hm
  · rw [← outside_owned type i, ← Nat.and_assoc, ← Nat.and_assoc, hm]

theorem C3_frame_outside_field_mask_witness :
    WF displayData ∧ inRange 3 59 ∧
    (TM1729_DisplaySet 3 59 displayData).displayData.length = 26 ∧
    rd (TM1729_DisplaySet 3 59 displayData).displayData 13 &&& outside (fieldMask 3 13) =
      rd displayData 13 &&& outside (fieldMask 3 13) ∧
    (16 ≤ 13 → rd (TM1729_DisplaySet 3 59 displayData).displayData 13 = rd displayData 13) ∧
    rd (TM1729_DisplaySet 3 59 displayData).displayData 13 &&& outside (ownedMask 13) =
      rd displayData 13 &&& outside (ownedMask 13) :=
  ⟨by decide, by decide,
    C3_frame_outside_field_mask displayData (by decide) 3 59 (by decide) 13⟩

/-- C6: played from any line state, `MyI2C_SendByte(b)` produces exactly nine
rising clock edges; at the k-th of the first eight the data line carries bit
`8 - k` of `b`, so the eight samples read most-significant-first give back `b`;
at the ninth the data line is low; and the clock is low at the end. -/
theorem C6_sendByte_msb_first (b : Nat) (hb : b < 256) (s : Lines) :
    (risingSamples s (MyI2C_SendByte b)).length = 9 ∧
    (∀ k, 1 ≤ k → k ≤ 8 →
      (risingSamples s (MyI2C_SendByte b))[k - 1]? = some (b.testBit (8 - k))) ∧
    bitsToNat ((risingSamples s (MyI2C_SendByte b)).take 8) = b ∧
    (risingSamples s (MyI2C_SendByte b))[8]? = some false ∧
    (Lines.run s (MyI2C_SendByte b)).scl = false := by
  rw [SendByte_samples hb s, SendByte_run hb s]
  refine ⟨rfl, ?_, ?_, rfl, rfl⟩
  · intro k h1 h8
    interval_cases k <;> rfl
  · exact bitsToNat_msbFirst b hb

theorem C6_sendByte_msb_first_witness :
    (0xA5 : Nat) < 256 ∧
    (risingSamples ⟨true, true⟩ (MyI2C_SendByte 0xA5)).length = 9 ∧
    (∀ k, 1 ≤ k → k ≤ 8 →
      (risingSamples ⟨true, true⟩ (MyI2C_SendByte 0xA5))[k - 1]? =
        some (Nat.testBit 0xA5 (8 - k))) ∧
    bitsToNat ((risingSamples ⟨true, true⟩ (MyI2C_SendByte 0xA5)).take 8) = 0xA5 ∧
    (risingSamples ⟨true, true⟩ (MyI2C_SendByte 0xA5))[8]? = some false ∧
    (Lines.run ⟨true, true⟩ (MyI2C_SendByte 0xA5)).scl = false :=
  ⟨by decide, C6_sendByte_msb_first 0xA5 (by decide) ⟨true, true⟩⟩

/-- C4: a successful `TM1729_DisplaySet` on a well-formed buffer emits exactly
the line events of one bus transaction (one start, 28 bytes, one stop), whose
bytes are 0x7C, 0x00 and then the bytes 0..25 of the buffer as the call leaves
it; no other sequence of protocol-layer calls yields that trace. -/
theorem C4_success_sends_whole_buffer (buf : List Nat) (hwf : WF buf) (type data : Int)
    (hr : inRange type data) :
    (TM1729_DisplaySet type data buf).ret = 0 ∧
    (TM1729_DisplaySet type data buf).trace =
      lineTrace (transaction (0x7C :: 0x00 ::
        (List.range 26).map (rd (TM1729_DisplaySet type data buf).displayData))) ∧
    (∀ ops : List BusOp, (∀ b, BusOp.byte b ∈ ops → b < 256) →
      lineTrace ops = (TM1729_DisplaySet type data buf).trace →
      ops = BusOp.start :: BusOp.byte 0x7C :: BusOp.byte 0x00 ::
        (((List.range 26).map (rd (TM1729_DisplaySet type data buf).displayData)).map
          BusOp.byte ++ [BusOp.stop])) := by
  have hok := ret_of_inRange hr buf
  have hnew := WF_DisplaySet hwf type data
  have htr : (TM1729_DisplaySet type data buf).trace =
      lineTrace (transaction (0x7C :: 0x00 ::
        (List.range 26).map (rd (TM1729_DisplaySet type data buf).displayData))) := by
    rw [DisplaySet_trace_of_ok hok, map_rd_range hnew]
    exact WriteData_eq hnew.1 (by decide)
  refine ⟨hok, htr, ?_⟩
  intro ops hops h
  rw [htr] at h
  show ops = transaction (0x7C :: 0x00 ::
    (List.range 26).map (rd (TM1729_DisplaySet type data buf).displayData))
  refine lineTrace_inj ops _ hops ?_ h
  intro b hb
  rw [map_rd_range hnew] at hb
  rcases List.mem_cons.1 (byte_mem_transaction hb) with rfl | hb
  · decide
  · rcases List.mem_cons.1 hb with rfl | hb
    · decide
    · exact hnew.2 _ hb

theorem C4_success_sends_whole_buffer_witness :
    WF displayData ∧ inRange 9 123 ∧
    (TM1729_DisplaySet 9 123 displayData).ret = 0 ∧
    (TM1729_DisplaySet 9 123 displayData).trace =
      lineTrace (transaction (0x7C :: 0x00 ::
        (List.range 26).map (rd (TM1729_DisplaySet 9 123 displayData).displayData))) ∧
    (∀ ops : List BusOp, (∀ b, BusOp.byte b ∈ ops → b < 256) →
      lineTrace ops = (TM1729_DisplaySet 9 123 displayData).trace →
      ops = BusOp.start :: BusOp.byte 0x7C :: BusOp.byte 0x00 ::
        (((List.range 26).map (rd (TM1729_DisplaySet 9 123 displayData).displayData)).map
          BusOp.byte ++ [BusOp.stop])) :=
  ⟨by decide, by decide, C4_success_sends_whole_buffer displayData (by decide) 9 123 (by decide)⟩

/-- C5: on a payload of `len` bytes (`len` at most 255), `TM1729_WriteData`
emits exactly the line events of: one start, the `len + 2` bytes 0x7C, 0x00,
`payload[0]`, ..., `payload[len-1]` in order, one stop; no other sequence of
protocol-layer calls yields that trace. `TM1729_Clear` emits start, 0x7C, 0x00,
26 zero bytes, stop. -/
theorem C5_writeData_is_one_transaction (pData : List Nat) (len : Nat)
    (hlen : pData.length = len) (h255 : len ≤ 255) (hbytes : ∀ b ∈ pData, b < 256) :
    TM1729_WriteData pData len =
      lineTrace (BusOp.start :: BusOp.byte 0x7C :: BusOp.byte 0x00 ::
        (pData.map BusOp.byte ++ [BusOp.stop])) ∧
    (BusOp.byte 0x7C :: BusOp.byte 0x00 :: pData.map BusOp.byte).length = len + 2 ∧
    (∀ ops : List BusOp, (∀ b, BusOp.byte b ∈ ops → b < 256) →
      lineTrace ops = TM1729_WriteData pData len →
      ops = BusOp.start :: BusOp.byte 0x7C :: BusOp.byte 0x00 ::
        (pData.map BusOp.byte ++ [BusOp.stop])) ∧
    TM1729_Clear =
      lineTrace (BusOp.start :: BusOp.byte 0x7C :: BusOp.byte 0x00 ::
        ((List.replicate 26 0).map BusOp.byte ++ [BusOp.stop])) := by
  have htr := WriteData_eq hlen h255
  refine ⟨htr, by simp [hlen], ?_, WriteData_eq (by simp) (by decide)⟩
  intro ops hops h
  rw [htr] at h
  show ops = transaction (0x7C :: 0x00 :: pData)
  refine lineTrace_inj ops _ hops ?_ h
  intro b hb
  rcases List.mem_cons.1 (byte_mem_transaction hb) with rfl | hb
  · decide
  · rcases List.mem_cons.1 hb with rfl | hb
    · decide
    · exact hbytes _ hb

theorem C5_writeData_is_one_transaction_witness :
    [0x12, 0xFF, 0x00].length = 3 ∧ 3 ≤ 255 ∧ (∀ b ∈ [0x12, 0xFF, 0x00], b < 256) ∧
    TM1729_WriteData [0x12, 0xFF, 0x00] 3 =
      lineTrace (BusOp.start :: BusOp.byte 0x7C :: BusOp.byte 0x00 ::
        ([0x12, 0xFF, 0x00].map BusOp.byte ++ [BusOp.stop])) ∧
    (BusOp.byte 0x7C :: BusOp.byte 0x00 :: [0x12, 0xFF, 0x00].map BusOp.byte).length = 3 + 2 ∧
    (∀ ops : List BusOp, (∀ b, BusOp.byte b ∈ ops → b < 256) →
      lineTrace ops = TM1729_WriteData [0x12, 0xFF, 0x00] 3 →
      ops = BusOp.start :: BusOp.byte 0x7C :: BusOp.byte 0x00 ::
        ([0x12, 0xFF, 0x00].map BusOp.byte ++ [BusOp.stop])) ∧
    TM1729_Clear =
      lineTrace (BusOp.start :: BusOp.byte 0x7C :: BusOp.byte 0x00 ::
        ((List.replicate 26 0).map BusOp.byte ++ [BusOp.stop])) :=
  ⟨by decide, by decide, by decide,
    C5_writeData_is_one_transaction [0x12, 0xFF, 0x00] 3 (by decide) (by decide) (by decide)⟩

/-- C7: for hour (base byte 9), minute (11) and score (13), with `t` and `u` the
`sge_data_10_15` entries of the tens and units digits: the low nibble of the
base byte is `t >> 4`, the low seven bits of the next byte are
`((t & 7) << 4) | (u >> 4)`, bits 4..6 of the third byte are `(u & 7) << 4`;
recombining the nibbles gives back exactly `t` and `u`; for the value 0 both
are the zero-digit entry 0xF5. -/
theorem C7_two_digit_table_B_layout (buf : List Nat) (hwf : WF buf) (type : Int) (k : Nat)
    (hk : (type = 2 ∧ k = 9) ∨ (type = 3 ∧ k = 11) ∨ (type = 4 ∧ k = 13))
    (v : Int) (hr : inRange type v) :
    rd (TM1729_DisplaySet type v buf).displayData k &&& 0x0F =
      tableAt sge_data_10_15 (v / 10 + 1) >>> 4 ∧
    rd (TM1729_DisplaySet type v buf).displayData (k + 1) &&& 0x7F =
      ((tableAt sge_data_10_15 (v / 10 + 1) &&& 0x07) <<< 4) |||
        (tableAt sge_data_10_15 (v % 10 + 1) >>> 4) ∧
    rd (TM1729_DisplaySet type v buf).displayData (k + 2) &&& 0x70 =
      (tableAt sge_data_10_15 (v % 10 + 1) &&& 0x07) <<< 4 ∧
    ((rd (TM1729_DisplaySet type v buf).displayData k &&& 0x0F) <<< 4) |||
      ((rd (TM1729_DisplaySet type v buf).displayData (k + 1) >>> 4) &&& 0x07) =
      tableAt sge_data_10_15 (v / 10 + 1) ∧
    ((rd (TM1729_DisplaySet type v buf).displayData (k + 1) &&& 0x0F) <<< 4) |||
      ((rd (TM1729_DisplaySet type v buf).displayData (k + 2) >>> 4) &&& 0x07) =
      tableAt sge_data_10_15 (v % 10 + 1) ∧
    (v = 0 → tableAt sge_data_10_15 (v / 10 + 1) = 0xF5 ∧
      tableAt sge_data_10_15 (v % 10 + 1) = 0xF5) := by
  obtain ⟨hnew, h0, h99⟩ := DisplaySet_digits10_15 hk hr buf
  obtain ⟨hdiv, hmod, hi, hj⟩ := digits_of_nonneg h0 h99
  have hk3 : k = 9 ∨ k = 11 ∨ k = 13 := by omega
  have e0 := rd_setDigits10_15 hwf hk3 v k
  have e1 := rd_setDigits10_15 hwf hk3 v (k + 1)
  have e2 := rd_setDigits10_15 hwf hk3 v (k + 2)
  rw [if_pos rfl, hdiv] at e0
  rw [if_neg (by omega), if_pos rfl, hdiv, hmod] at e1
  rw [if_neg (by omega), if_neg (by omega), if_pos rfl, hmod] at e2
  rw [hnew, e0, e1, e2]
  have ht := tableAt_10_15_lt (v / 10 + 1)
  have hu := tableAt_10_15_lt (v % 10 + 1)
  have hb1 := rd_lt hwf (k + 1)
  have hb2 := rd_lt hwf (k + 2)
  have f0 : (rd buf k &&& 0xF0 ||| tableAt sge_data_10_15 (v / 10 + 1) >>> 4) &&& 0x0F =
      tableAt sge_data_10_15 (v / 10 + 1) >>> 4 :=
    and_or_inside (by decide) (shr4_in_low_nibble _ ht) _
  refine ⟨f0, ?_, ?_, ?_, ?_, ?_⟩
  · rw [Nat.or_assoc]
    exact and_or_inside (by decide)
      (or_and_self (and7_shl4_in_low7 _) (shr4_in_low7 _ hu)) _
  · exact and_or_inside (by decide) (and7_shl4_in_70 _) _
  · rw [f0, tableAt_mid_byte_high hb1 hi hj]
    exact tableAt_recombine hi
  · rw [tableAt_mid_byte_low hb1 hi hj, tableAt_last_byte_high hb2 hj]
    exact tableAt_recombine hj
  · intro hv
    subst hv
    exact ⟨rfl, rfl⟩

theorem C7_two_digit_table_B_layout_witness :
    WF displayData ∧
    (((3 : Int) = 2 ∧ 11 = 9) ∨ ((3 : Int) = 3 ∧ 11 = 11) ∨ ((3 : Int) = 4 ∧ 11 = 13)) ∧
    inRange 3 0 ∧
    rd (TM1729_DisplaySet 3 0 displayData).displayData 11 &&& 0x0F =
      tableAt sge_data_10_15 (0 / 10 + 1) >>> 4 ∧
    rd (TM1729_DisplaySet 3 0 displayData).displayData (11 + 1) &&& 0x7F =
      ((tableAt sge_data_10_15 (0 / 10 + 1) &&& 0x07) <<< 4) |||
        (tableAt sge_data_10_15 (0 % 10 + 1) >>> 4) ∧
    rd (TM1729_DisplaySet 3 0 displayData).displayData (11 + 2) &&& 0x70 =
      (tableAt sge_data_10_15 (0 % 10 + 1) &&& 0x07) <<< 4 ∧
    ((rd (TM1729_DisplaySet 3 0 displayData).displayData 11 &&& 0x0F) <<< 4) |||
      ((rd (TM1729_DisplaySet 3 0 displayData).displayData (11 + 1) >>> 4) &&& 0x07) =
      tableAt sge_data_10_15 (0 / 10 + 1) ∧
    ((rd (TM1729_DisplaySet 3 0 displayData).displayData (11 + 1) &&& 0x0F) <<< 4) |||
      ((rd (TM1729_DisplaySet 3 0 displayData).displayData (11 + 2) >>> 4) &&& 0x07) =
      tableAt sge_data_10_15 (0 % 10 + 1) ∧
    ((0 : Int) = 0 → tableAt sge_data_10_15 (0 / 10 + 1) = 0xF5 ∧
      tableAt sge_data_10_15 (0 % 10 + 1) = 0xF5) :=
  ⟨by decide, by decide, by decide,
    C7_two_digit_table_B_layout displayData (by decide) 3 11 (by decide) 0 (by decide)⟩

/-- C8: for temperature 1 (tens byte 8, units byte 7), temperature 2 (6, 5) and
humidity (4, 3): a negative value leaves `(old & 0x80) | 0x20` in the tens byte
and `(old & 0x80) | sge_data_1_9[-v + 1]` in the units byte; a non-negative
value leaves `(old & 0x80) | sge_data_1_9[v/10 + 1]` and
`(old & 0x80) | sge_data_1_9[v%10 + 1]`; the top bit of both bytes is kept; and
temperature 1 = -9 leaves 0x7D in the low seven bits of byte 7. -/
theorem C8_two_digit_table_A_layout (buf : List Nat) (hwf : WF buf) (type : Int) (hi lo : Nat)
    (hk : (type = 6 ∧ hi = 8 ∧ lo = 7) ∨ (type = 7 ∧ hi = 6 ∧ lo = 5) ∨
      (type = 8 ∧ hi = 4 ∧ lo = 3))
    (v : Int) (hr : inRange type v) :
    (v < 0 →
      rd (TM1729_DisplaySet type v buf).displayData hi = (rd buf hi &&& 0x80) ||| 0x20 ∧
      rd (TM1729_DisplaySet type v buf).displayData lo =
        (rd buf lo &&& 0x80) ||| tableAt sge_data_1_9 (-v + 1)) ∧
    (0 ≤ v →
      rd (TM1729_DisplaySet type v buf).displayData hi =
        (rd buf hi &&& 0x80) ||| tableAt sge_data_1_9 (v / 10 + 1) ∧
      rd (TM1729_DisplaySet type v buf).displayData lo =
        (rd buf lo &&& 0x80) ||| tableAt sge_data_1_9 (v % 10 + 1)) ∧
    rd (TM1729_DisplaySet type v buf).displayData hi &&& 0x80 = rd buf hi &&& 0x80 ∧
    rd (TM1729_DisplaySet type v buf).displayData lo &&& 0x80 = rd buf lo &&& 0x80 ∧
    (type = 6 → v = -9 →
      rd (TM1729_DisplaySet type v buf).displayData 7 &&& 0x7F = 0x7D ∧
      tableAt sge_data_1_9 (9 + 1) = 0x7D) := by
  obtain ⟨ehi, elo⟩ := DisplaySet_table_A_pair hk hr hwf
  refine ⟨?_, ?_, ?_, ?_, ?_⟩
  · intro hneg
    rw [ehi, elo, if_pos hneg, if_pos hneg]
    exact ⟨rfl, rfl⟩
  · intro hpos
    have hneg : ¬ v < 0 := by omega
    rw [ehi, elo, if_neg hneg, if_neg hneg]
    exact ⟨rfl, rfl⟩
  · rw [ehi]
    split
    · exact and_or_outside (by decide) (tableAt_1_9_top _) _
    · exact and_or_outside (by decide) (tableAt_1_9_top _) _
  · rw [elo]
    exact and_or_outside (by decide) (tableAt_1_9_top _) _
  · intro ht hv
    subst hv
    have hlo : lo = 7 := by omega
    subst hlo
    rw [elo]
    exact ⟨and_or_inside (by decide) (by decide) _, rfl⟩

theorem C8_two_digit_table_A_layout_witness :
    WF displayData ∧
    (((6 : Int) = 6 ∧ 8 = 8 ∧ 7 = 7) ∨ ((6 : Int) = 7 ∧ 8 = 6 ∧ 7 = 5) ∨
      ((6 : Int) = 8 ∧ 8 = 4 ∧ 7 = 3)) ∧
    inRange 6 (-9) ∧
    ((-9 : Int) < 0 →
      rd (TM1729_DisplaySet 6 (-9) displayData).displayData 8 =
        (rd displayData 8 &&& 0x80) ||| 0x20 ∧
      rd (TM1729_DisplaySet 6 (-9) displayData).displayData 7 =
        (rd displayData 7 &&& 0x80) ||| tableAt sge_data_1_9 (- (-9) + 1)) ∧
    (0 ≤ (-9 : Int) →
      rd (TM1729_DisplaySet 6 (-9) displayData).displayData 8 =
        (rd displayData 8 &&& 0x80) ||| tableAt sge_data_1_9 (-9 / 10 + 1) ∧
      rd (TM1729_DisplaySet 6 (-9) displayData).displayData 7 =
        (rd displayData 7 &&& 0x80) ||| tableAt sge_data_1_9 (-9 % 10 + 1)) ∧
    rd (TM1729_DisplaySet 6 (-9) displayData).displayData 8 &&& 0x80 =
      rd displayData 8 &&& 0x80 ∧
    rd (TM1729_DisplaySet 6 (-9) displayData).displayData 7 &&& 0x80 =
      rd displayData 7 &&& 0x80 ∧
    ((6 : Int) = 6 → (-9 : Int) = -9 →
      rd (TM1729_DisplaySet 6 (-9) displayData).displayData 7 &&& 0x7F = 0x7D ∧
      tableAt sge_data_1_9 (9 + 1) = 0x7D) :=
  ⟨by decide, by decide, by decide,
    C8_two_digit_table_A_layout displayData (by decide) 6 8 7 (by decide) (-9) (by decide)⟩

/-- C9: for a value in 0..999 the CO2 call leaves `old[2] | sge_data_1_9[v/100 + 1]`
in byte 2, `old[1] | sge_data_1_9[(v/10)%10 + 1]` in byte 1 and
`(old[0] & 0x80) | sge_data_1_9[v%10 + 1]` in byte 0; for 123 the three merged
patterns are 0x50, 0x6B and 0x79. -/
theorem C9_co2_layout (buf : List Nat) (hwf : WF buf) (v : Int) (hr : inRange 9 v) :
    rd (TM1729_DisplaySet 9 v buf).displayData 2 =
      rd buf 2 ||| tableAt sge_data_1_9 (v / 100 + 1) ∧
    rd (TM1729_DisplaySet 9 v buf).displayData 1 =
      rd buf 1 ||| tableAt sge_data_1_9 ((v / 10) % 10 + 1) ∧
    rd (TM1729_DisplaySet 9 v buf).displayData 0 =
      (rd buf 0 &&& 0x80) ||| tableAt sge_data_1_9 (v % 10 + 1) ∧
    (v = 123 →
      tableAt sge_data_1_9 (v / 100 + 1) = 0x50 ∧
      tableAt sge_data_1_9 ((v / 10) % 10 + 1) = 0x6B ∧
      tableAt sge_data_1_9 (v % 10 + 1) = 0x79) := by
  have hr2 : v ≥ 0 ∧ v ≤ 999 := hr
  have h0 : 0 ≤ v := hr2.1
  have d100 : v.tdiv 100 = v / 100 := Int.tdiv_eq_ediv h0 (by decide)
  have d10 : v.tdiv 10 = v / 10 := Int.tdiv_eq_ediv h0 (by decide)
  have m10 : v.tmod 10 = v % 10 := Int.tmod_eq_emod h0 (by decide)
  have dm : (v / 10).tmod 10 = (v / 10) % 10 := Int.tmod_eq_emod (by omega) (by decide)
  have e2 := rd_setCO2 hwf v 2
  have e1 := rd_setCO2 hwf v 1
  have e0 := rd_setCO2 hwf v 0
  rw [if_pos rfl, d100] at e2
  rw [if_neg (show ¬ (1 : Nat) = 2 by decide), if_pos rfl, d10, dm] at e1
  rw [if_neg (show ¬ (0 : Nat) = 2 by decide), if_neg (show ¬ (0 : Nat) = 1 by decide),
    if_pos rfl, m10] at e0
  rw [DisplaySet_co2, if_pos hr2, sendAndReturn_displayData]
  refine ⟨e2, e1, e0, ?_⟩
  intro hv
  subst hv
  exact ⟨rfl, rfl, rfl⟩

theorem C9_co2_layout_witness :
    WF displayData ∧ inRange 9 123 ∧
    rd (TM1729_DisplaySet 9 123 displayData).displayData 2 =
      rd displayData 2 ||| tableAt sge_data_1_9 (123 / 100 + 1) ∧
    rd (TM1729_DisplaySet 9 123 displayData).displayData 1 =
      rd displayData 1 ||| tableAt sge_data_1_9 ((123 / 10) % 10 + 1) ∧
    rd (TM1729_DisplaySet 9 123 displayData).displayData 0 =
      (rd displayData 0 &&& 0x80) ||| tableAt sge_data_1_9 (123 % 10 + 1) ∧
    ((123 : Int) = 123 →
      tableAt sge_data_1_9 (123 / 100 + 1) = 0x50 ∧
      tableAt sge_data_1_9 ((123 / 10) % 10 + 1) = 0x6B ∧
      tableAt sge_data_1_9 (123 % 10 + 1) = 0x79) :=
  ⟨by decide, by decide, C9_co2_layout displayData (by decide) 123 (by decide)⟩

/-- C10: after a signal call at level `n` in 0..5 exactly `n` of the five
indicator bits are set; byte 9 masked with 0xE0 is 0x00, 0x20, 0x60, 0xE0,
0xE0, 0xE0 for `n` = 0..5; bit 7 of byte 13 is set iff `n >= 4`; bit 7 of
byte 12 is set iff `n = 5`; and every indicator bit lit at level `n` is lit at
level `n + 1`, whatever the buffers the two calls start from. -/
theorem C10_signal_levels (buf : List Nat) (hwf : WF buf) (n : Int) (hr : inRange 0 n) :
    (indicatorBits (TM1729_DisplaySet 0 n buf).displayData).count true = n.toNat ∧
    rd (TM1729_DisplaySet 0 n buf).displayData 9 &&& 0xE0 =
      [0x00, 0x20, 0x60, 0xE0, 0xE0, 0xE0].getD n.toNat 0 ∧
    ((rd (TM1729_DisplaySet 0 n buf).displayData 13).testBit 7 = true ↔ 4 ≤ n) ∧
    ((rd (TM1729_DisplaySet 0 n buf).displayData 12).testBit 7 = true ↔ n = 5) ∧
    (∀ buf2, WF buf2 → n + 1 ≤ 5 → ∀ i,
      (indicatorBits (TM1729_DisplaySet 0 n buf).displayData).getD i false = true →
      (indicatorBits (TM1729_DisplaySet 0 (n + 1) buf2).displayData).getD i false = true) := by
  have hr2 : n ≥ 0 ∧ n ≤ 5 := hr
  have hnew : (TM1729_DisplaySet 0 n buf).displayData = setSignal n buf := by
    rw [DisplaySet_signal, if_pos hr2]; rfl
  have hind := indicatorBits_setSignal hwf hr2
  have h9 := (setSignal_masked hwf hr2).1
  have h13 : (rd (setSignal n buf) 13).testBit 7 = decide (3 < n) := by
    have := hind
    unfold indicatorBits at this
    simp only [List.cons.injEq] at this
    exact this.2.2.2.1
  have h12 : (rd (setSignal n buf) 12).testBit 7 = decide (4 < n) := by
    have := hind
    unfold indicatorBits at this
    simp only [List.cons.injEq] at this
    exact this.2.2.2.2.1
  rw [hnew, hind, h9, h13, h12]
  have hd : n = 0 ∨ n = 1 ∨ n = 2 ∨ n = 3 ∨ n = 4 ∨ n = 5 := by omega
  refine ⟨?_, ?_, ?_, ?_, ?_⟩
  · rcases hd with rfl | rfl | rfl | rfl | rfl | rfl <;> decide
  · rcases hd with rfl | rfl | rfl | rfl | rfl | rfl <;> decide
  · rw [decide_eq_true_iff]; omega
  · rw [decide_eq_true_iff]; omega
  · intro buf2 hwf2 hle i
    have hr3 : n + 1 ≥ 0 ∧ n + 1 ≤ 5 := by omega
    have hnew2 : (TM1729_DisplaySet 0 (n + 1) buf2).displayData = setSignal (n + 1) buf2 := by
      rw [DisplaySet_signal, if_pos hr3]; rfl
    rw [hnew2, indicatorBits_setSignal hwf2 hr3]
    have hd4 : n = 0 ∨ n = 1 ∨ n = 2 ∨ n = 3 ∨ n = 4 := by omega
    have hi : i = 0 ∨ i = 1 ∨ i = 2 ∨ i = 3 ∨ i = 4 ∨ 5 ≤ i := by omega
    rcases hi with rfl | rfl | rfl | rfl | rfl | hi
    · rcases hd4 with rfl | rfl | rfl | rfl | rfl <;> decide
    · rcases hd4 with rfl | rfl | rfl | rfl | rfl <;> decide
    · rcases hd4 with rfl | rfl | rfl | rfl | rfl <;> decide
    · rcases hd4 with rfl | rfl | rfl | rfl | rfl <;> decide
    · rcases hd4 with rfl | rfl | rfl | rfl | rfl <;> decide
    · obtain ⟨j, rfl⟩ : ∃ j, i = j + 5 := ⟨i - 5, by omega⟩
      intro h
      exact absurd h (by simp [List.getD])

theorem C10_signal_levels_witness :
    WF displayData ∧ inRange 0 4 ∧
    (indicatorBits (TM1729_DisplaySet 0 4 displayData).displayData).count true = Int.toNat 4 ∧
    rd (TM1729_DisplaySet 0 4 displayData).displayData 9 &&& 0xE0 =
      [0x00, 0x20, 0x60, 0xE0, 0xE0, 0xE0].getD (Int.toNat 4) 0 ∧
    ((rd (TM1729_DisplaySet 0 4 displayData).displayData 13).testBit 7 = true ↔ 4 ≤ (4 : Int)) ∧
    ((rd (TM1729_DisplaySet 0 4 displayData).displayData 12).testBit 7 = true ↔ (4 : Int) = 5) ∧
    (∀ buf2, WF buf2 → (4 : Int) + 1 ≤ 5 → ∀ i,
      (indicatorBits (TM1729_DisplaySet 0 4 displayData).displayData).getD i false = true →
      (indicatorBits (TM1729_DisplaySet 0 (4 + 1) buf2).displayData).getD i false = true) :=
  ⟨by decide, by decide, C10_signal_levels displayData (by decide) 4 (by decide)⟩

/-- C11 (as stated, refuted): on the startup buffer, whose byte 15 is 0x82, a
battery call at level 2 leaves 0x0A, not 0x08, in the low nibble of byte 15,
because the clearing mask 0xF2 keeps bit 1. -/
theorem C11_low_nibble_counterexample :
    WF displayData ∧ inRange 5 2 ∧
    rd (TM1729_DisplaySet 5 2 displayData).displayData 15 &&& 0x0F = 0x0A ∧
    rd (TM1729_DisplaySet 5 2 displayData).displayData 15 &&& 0x0F ≠ 0x08 := by
  decide

/-- C11 (amended): after a battery call at level `L` in 0..4 the battery bits of
byte 15 (mask 0x0D) are exactly 0x00, 0x00, 0x08, 0x09, 0x0D for `L` = 0..4,
because bits 0, 2 and 3 are cleared with mask 0xF2 before the table value is
merged in; bit 1 of byte 15 is kept, so the low nibble is the table value
OR-ed with `old & 0x02`; the body bit (byte 4 bit 7) is set iff `L` is not 0. -/
theorem C11_battery_levels (buf : List Nat) (hwf : WF buf) (L : Int) (hr : inRange 5 L) :
    rd (TM1729_DisplaySet 5 L buf).displayData 15 &&& 0x0D =
      [0x00, 0x00, 0x08, 0x09, 0x0D].getD L.toNat 0 ∧
    rd (TM1729_DisplaySet 5 L buf).displayData 15 &&& 0x0F =
      (rd buf 15 &&& 0x02) ||| [0x00, 0x00, 0x08, 0x09, 0x0D].getD L.toNat 0 ∧
    rd (TM1729_DisplaySet 5 L buf).displayData 15 &&& 0x02 = rd buf 15 &&& 0x02 ∧
    ((rd (TM1729_DisplaySet 5 L buf).displayData 4).testBit 7 = true ↔ L ≠ 0) := by
  obtain ⟨hnew, h0, h4⟩ := DisplaySet_battery_ok hr buf
  have e15 := rd_setBattery hwf ⟨h0, h4⟩ 15
  have e4 := rd_setBattery hwf ⟨h0, h4⟩ 4
  rw [if_neg (show ¬ (15 : Nat) = 4 by decide), if_pos rfl] at e15
  rw [if_pos rfl] at e4
  rw [hnew, e15, e4]
  have hb := rd_lt hwf 15
  have hd : L = 0 ∨ L = 1 ∨ L = 2 ∨ L = 3 ∨ L = 4 := by omega
  refine ⟨?_, ?_, ?_, ?_⟩
  · rcases hd with rfl | rfl | rfl | rfl | rfl <;>
      exact and_or_inside (by decide) (by decide) _
  · rcases hd with rfl | rfl | rfl | rfl | rfl <;>
      exact battery_low_nibble _ hb _ (by decide) (by decide)
  · rcases hd with rfl | rfl | rfl | rfl | rfl <;>
      exact and_or_outside (by decide) (by decide) _
  · rcases hd with rfl | rfl | rfl | rfl | rfl
    · rw [if_pos rfl, Nat.testBit_and]
      have h7 : Nat.testBit 0x7F 7 = false := by decide
      simp [h7]
    all_goals
      rw [if_neg (by decide), Nat.testBit_or]
      have h8 : Nat.testBit 0x80 7 = true := by decide
      simp [h8]

theorem C11_battery_levels_witness :
    WF displayData ∧ inRange 5 2 ∧
    rd (TM1729_DisplaySet 5 2 displayData).displayData 15 &&& 0x0D =
      [0x00, 0x00, 0x08, 0x09, 0x0D].getD (Int.toNat 2) 0 ∧
    rd (TM1729_DisplaySet 5 2 displayData).displayData 15 &&& 0x0F =
      (rd displayData 15 &&& 0x02) ||| [0x00, 0x00, 0x08, 0x09, 0x0D].getD (Int.toNat 2) 0 ∧
    rd (TM1729_DisplaySet 5 2 displayData).displayData 15 &&& 0x02 = rd displayData 15 &&& 0x02 ∧
    ((rd (TM1729_DisplaySet 5 2 displayData).displayData 4).testBit 7 = true ↔ (2 : Int) ≠ 0) :=
  ⟨by decide, by decide, C11_battery_levels displayData (by decide) 2 (by decide)⟩

/-- C12: for every field other than CO2, a well-formed buffer and in-range
values `a` and `b`, setting `a` and then `b` leaves the same buffer as setting
`b` alone (so setting a value twice is idempotent); setting signal 0, then 5,
then 0 leaves the buffer that setting signal 0 once leaves, with all five
indicator bits clear. -/
theorem C12_last_write_wins (buf : List Nat) (hwf : WF buf) (type : Int) (hne : type ≠ 9)
    (a b : Int) (ha : inRange type a) (hb : inRange type b) :
    (TM1729_DisplaySet type b (TM1729_DisplaySet type a buf).displayData).displayData =
      (TM1729_DisplaySet type b buf).displayData ∧
    (TM1729_DisplaySet type a (TM1729_DisplaySet type a buf).displayData).displayData =
      (TM1729_DisplaySet type a buf).displayData ∧
    (TM1729_DisplaySet 0 0 (TM1729_DisplaySet 0 5
        (TM1729_DisplaySet 0 0 buf).displayData).displayData).displayData =
      (TM1729_DisplaySet 0 0 buf).displayData ∧
    indicatorBits (TM1729_DisplaySet 0 0 (TM1729_DisplaySet 0 5
        (TM1729_DisplaySet 0 0 buf).displayData).displayData).displayData =
      [false, false, false, false, false] := by
  have h0 : inRange 0 0 := by decide
  have h5 : inRange 0 5 := by decide
  have hw0 := WF_DisplaySet hwf 0 0
  have e := DisplaySet_twice hw0 (by decide) h5 h0
  have e2 := DisplaySet_twice hwf (by decide) h0 h0
  refine ⟨DisplaySet_twice hwf hne ha hb, DisplaySet_twice hwf hne ha ha, e.trans e2, ?_⟩
  rw [e, e2]
  have hnew : (TM1729_DisplaySet 0 0 buf).displayData = setSignal 0 buf := by
    rw [DisplaySet_signal, if_pos (by decide)]; rfl
  rw [hnew, indicatorBits_setSignal hwf (by decide)]
  decide

theorem C12_last_write_wins_witness :
    WF displayData ∧ (6 : Int) ≠ 9 ∧ inRange 6 (-5) ∧ inRange 6 42 ∧
    (TM1729_DisplaySet 6 42 (TM1729_DisplaySet 6 (-5) displayData).displayData).displayData =
      (TM1729_DisplaySet 6 42 displayData).displayData ∧
    (TM1729_DisplaySet 6 (-5) (TM1729_DisplaySet 6 (-5) displayData).displayData).displayData =
      (TM1729_DisplaySet 6 (-5) displayData).displayData ∧
    (TM1729_DisplaySet 0 0 (TM1729_DisplaySet 0 5
        (TM1729_DisplaySet 0 0 displayData).displayData).displayData).displayData =
      (TM1729_DisplaySet 0 0 displayData).displayData ∧
    indicatorBits (TM1729_DisplaySet 0 0 (TM1729_DisplaySet 0 5
        (TM1729_DisplaySet 0 0 displayData).displayData).displayData).displayData =
      [false, false, false, false, false] :=
  ⟨by decide, by decide, by decide, by decide,
    C12_last_write_wins displayData (by decide) 6 (by decide) (-5) 42 (by decide) (by decide)⟩

/-- C18: calls for two different fields commute on a well-formed buffer
(CO2 included), and after both calls the bits of each field's mask are those
the field's own call produces alone. -/
theorem C18_distinct_fields_commute (buf : List Nat) (hwf : WF buf) (X Y : Int)
    (hne : X ≠ Y) (a b : Int) (ha : inRange X a) (hb : inRange Y b) :
    (TM1729_DisplaySet Y b (TM1729_DisplaySet X a buf).displayData).displayData =
      (TM1729_DisplaySet X a (TM1729_DisplaySet Y b buf).displayData).displayData ∧
    (∀ j, rd (TM1729_DisplaySet Y b (TM1729_DisplaySet X a buf).displayData).displayData j
        &&& fieldMask Y j =
      rd (TM1729_DisplaySet Y b buf).displayData j &&& fieldMask Y j) ∧
    (∀ j, rd (TM1729_DisplaySet Y b (TM1729_DisplaySet X a buf).displayData).displayData j
        &&& fieldMask X j =
      rd (TM1729_DisplaySet X a buf).displayData j &&& fieldMask X j) := by
  have hwa := WF_DisplaySet hwf X a
  have hwb := WF_DisplaySet hwf Y b
  refine ⟨?_, ?_, ?_⟩
  · apply buf_ext
    · rw [(WF_DisplaySet hwa Y b).1, (WF_DisplaySet hwb X a).1]
    · intro j
      rw [DisplaySet_normal_form hwa hb, DisplaySet_normal_form hwf ha,
        DisplaySet_normal_form hwb ha, DisplaySet_normal_form hwf hb]
      exact commute_merge (fieldBits_kept hne ha hb j) (fieldBits_kept (Ne.symm hne) hb ha j)
  · intro j
    rw [DisplaySet_normal_form hwa hb, DisplaySet_normal_form hwf hb]
    exact merge_mask_congr (DisplaySet_other_mask hwf hne ha (inRange_known hb) j) _ _
  · intro j
    exact DisplaySet_other_mask hwa (Ne.symm hne) hb (inRange_known ha) j

theorem C18_distinct_fields_commute_witness :
    WF displayData ∧ (4 : Int) ≠ 5 ∧ inRange 4 87 ∧ inRange 5 3 ∧
    (TM1729_DisplaySet 5 3 (TM1729_DisplaySet 4 87 displayData).displayData).displayData =
      (TM1729_DisplaySet 4 87 (TM1729_DisplaySet 5 3 displayData).displayData).displayData ∧
    (∀ j, rd (TM1729_DisplaySet 5 3 (TM1729_DisplaySet 4 87 displayData).displayData).displayData j
        &&& fieldMask 5 j =
      rd (TM1729_DisplaySet 5 3 displayData).displayData j &&& fieldMask 5 j) ∧
    (∀ j, rd (TM1729_DisplaySet 5 3 (TM1729_DisplaySet 4 87 displayData).displayData).displayData j
        &&& fieldMask 4 j =
      rd (TM1729_DisplaySet 4 87 displayData).displayData j &&& fieldMask 4 j) :=
  ⟨by decide, by decide, by decide, by decide,
    C18_distinct_fields_commute displayData (by decide) 4 5 (by decide) 87 3 (by decide)
      (by decide)⟩

/-- C19: the entries of `sge_data_1_9` are pairwise distinct and below 0x80, the
entries of `sge_data_10_15` are pairwise distinct and have bit 3 clear, and two
different in-range values of one field never leave the same buffer: for every
field other than CO2 on every well-formed buffer, for CO2 on every well-formed
buffer whose bytes 1 and 2 have their low seven bits clear. -/
theorem C19_encoding_unambiguous (buf : List Nat) (hwf : WF buf) (type a b : Int)
    (ha : inRange type a) (hb : inRange type b) (hab : a ≠ b)
    (hco2 : type = 9 → rd buf 1 &&& 0x7F = 0 ∧ rd buf 2 &&& 0x7F = 0) :
    (sge_data_1_9.length = 11 ∧ sge_data_1_9.Nodup ∧ ∀ x ∈ sge_data_1_9, x < 0x80) ∧
    (sge_data_10_15.length = 11 ∧ sge_data_10_15.Nodup ∧
      ∀ x ∈ sge_data_10_15, x.testBit 3 = false) ∧
    (TM1729_DisplaySet type a buf).displayData ≠ (TM1729_DisplaySet type b buf).displayData := by
  refine ⟨by decide, by decide, ?_⟩
  intro heq
  apply hab
  apply fieldBits_injective ha hb
  intro j
  by_cases h9 : type = 9
  · subst h9
    obtain ⟨h1, h2⟩ := hco2 rfl
    rw [← DisplaySet_read_co2 hwf ha h1 h2 j, ← DisplaySet_read_co2 hwf hb h1 h2 j, heq]
  · rw [← DisplaySet_read_field hwf ha h9 j, ← DisplaySet_read_field hwf hb h9 j, heq]

theorem C19_encoding_unambiguous_witness :
    WF displayData ∧ inRange 6 (-5) ∧ inRange 6 5 ∧ (-5 : Int) ≠ 5 ∧
    ((6 : Int) = 9 → rd displayData 1 &&& 0x7F = 0 ∧ rd displayData 2 &&& 0x7F = 0) ∧
    (sge_data_1_9.length = 11 ∧ sge_data_1_9.Nodup ∧ ∀ x ∈ sge_data_1_9, x < 0x80) ∧
    (sge_data_10_15.length = 11 ∧ sge_data_10_15.Nodup ∧
      ∀ x ∈ sge_data_10_15, x.testBit 3 = false) ∧
    (TM1729_DisplaySet 6 (-5) displayData).displayData ≠
      (TM1729_DisplaySet 6 5 displayData).displayData :=
  ⟨by decide, by decide, by decide, by decide, by decide,
    C19_encoding_unambiguous displayData (by decide) 6 (-5) 5 (by decide) (by decide)
      (by decide) (by decide)⟩

/-- C17: along any sequence of `TM1729_DisplaySet` calls (any types, any
values) a bit of byte 1 or byte 2 that is set at some point is still set after
every later call; after CO2 = `a` and then CO2 = `b` the hundreds byte is
`old[2] | sge_data_1_9[a/100 + 1] | sge_data_1_9[b/100 + 1]`, which differs from the
result of CO2 = `b` alone exactly when the pattern of `a`'s hundreds digit has a
bit that is in neither `old[2]` nor the pattern of `b`'s hundreds digit. -/
theorem C17_co2_bits_persist (buf : List Nat) (hwf : WF buf) (before later : List (Int × Int))
    (a b : Int) (ha : inRange 9 a) (hb : inRange 9 b) :
    (∀ j, j = 1 ∨ j = 2 →
      rd (runCalls before buf) j &&& rd (runCalls (before ++ later) buf) j =
        rd (runCalls before buf) j) ∧
    rd (TM1729_DisplaySet 9 b (TM1729_DisplaySet 9 a buf).displayData).displayData 2 =
      rd buf 2 ||| tableAt sge_data_1_9 (a / 100 + 1) ||| tableAt sge_data_1_9 (b / 100 + 1) ∧
    (rd (TM1729_DisplaySet 9 b (TM1729_DisplaySet 9 a buf).displayData).displayData 2 ≠
        rd (TM1729_DisplaySet 9 b buf).displayData 2 ↔
      tableAt sge_data_1_9 (a / 100 + 1) &&&
          (rd buf 2 ||| tableAt sge_data_1_9 (b / 100 + 1)) ≠
        tableAt sge_data_1_9 (a / 100 + 1)) := by
  have hwa := WF_DisplaySet hwf 9 a
  have full : ∀ {x : List Nat}, WF x → rd x 2 &&& keepMask 9 2 = rd x 2 := fun hx =>
    and_byte_full (rd_lt hx 2)
  have eab : rd (TM1729_DisplaySet 9 b (TM1729_DisplaySet 9 a buf).displayData).displayData 2 =
      rd buf 2 ||| tableAt sge_data_1_9 (a / 100 + 1) |||
        tableAt sge_data_1_9 (b / 100 + 1) := by
    rw [DisplaySet_normal_form hwa hb, full hwa, DisplaySet_normal_form hwf ha, full hwf,
      fieldBits_co2 ha, fieldBits_co2 hb, if_pos rfl, if_pos rfl]
  have eb : rd (TM1729_DisplaySet 9 b buf).displayData 2 =
      rd buf 2 ||| tableAt sge_data_1_9 (b / 100 + 1) := by
    rw [DisplaySet_normal_form hwf hb, full hwf, fieldBits_co2 hb, if_pos rfl]
  refine ⟨?_, eab, ?_⟩
  · intro j hj
    rw [runCalls_append]
    exact runCalls_bytes_1_2_grow (WF_runCalls hwf before) later hj
  · rw [eab, eb]
    exact not_congr (or_or_eq_iff _ _ _)

theorem C17_co2_bits_persist_witness :
    WF displayData ∧ inRange 9 800 ∧ inRange 9 111 ∧
    (∀ j, j = 1 ∨ j = 2 →
      rd (runCalls [(9, 800)] displayData) j &&&
          rd (runCalls ([(9, 800)] ++ [(2, 7), (9, 111), (12, 0)]) displayData) j =
        rd (runCalls [(9, 800)] displayData) j) ∧
    rd (TM1729_DisplaySet 9 111 (TM1729_DisplaySet 9 800 displayData).displayData).displayData 2 =
      rd displayData 2 ||| tableAt sge_data_1_9 (800 / 100 + 1) |||
        tableAt sge_data_1_9 (111 / 100 + 1) ∧
    (rd (TM1729_DisplaySet 9 111 (TM1729_DisplaySet 9 800 displayData).displayData).displayData 2 ≠
        rd (TM1729_DisplaySet 9 111 displayData).displayData 2 ↔
      tableAt sge_data_1_9 (800 / 100 + 1) &&&
          (rd displayData 2 ||| tableAt sge_data_1_9 (111 / 100 + 1)) ≠
        tableAt sge_data_1_9 (800 / 100 + 1)) :=
  ⟨by decide, by decide, by decide,
    C17_co2_bits_persist displayData (by decide) [(9, 800)] [(2, 7), (9, 111), (12, 0)]
      800 111 (by decide) (by decide)⟩

/-- C13 (as stated, refuted): after `TM1729_Clear` the startup buffer still
holds 0x80 in byte 0, and after `TM1729_DisplayAll` it still holds 0x00 in
byte 1: neither function writes `displayData`. -/
theorem C13_buffer_not_overwritten_counterexample :
    rd (TM1729_Clear_call displayData).displayData 0 = 0x80 ∧
    rd (TM1729_Clear_call displayData).displayData 0 ≠ 0 ∧
    rd (TM1729_DisplayAll_call zeroBuf displayData).displayData 1 = 0x00 ∧
    rd (TM1729_DisplayAll_call zeroBuf displayData).displayData 1 ≠ 0xFF := by
  decide

/-- C13 (amended): `TM1729_Clear` transmits 26 zero bytes and
`TM1729_DisplayAll` transmits 26 bytes 0xFF (after 0x7C and 0x00, in one
transaction each), whatever `displayData` and the local array held before, and
both leave `displayData` as it was. -/
theorem C13_clear_and_fill_payloads (buf fillData : List Nat)
    (hlen : fillData.length = MAX_LIGHT) :
    (TM1729_Clear_call buf).trace =
      lineTrace (transaction (0x7C :: 0x00 :: List.replicate 26 0x00)) ∧
    (TM1729_Clear_call buf).displayData = buf ∧
    (TM1729_DisplayAll_call fillData buf).trace =
      lineTrace (transaction (0x7C :: 0x00 :: List.replicate 26 0xFF)) ∧
    (TM1729_DisplayAll_call fillData buf).displayData = buf := by
  refine ⟨WriteData_eq (by simp) (by decide), rfl, ?_, rfl⟩
  show TM1729_WriteData (TM1729_DisplayAll_loop fillData 0 MAX_LIGHT) MAX_LIGHT = _
  rw [DisplayAll_loop_eq hlen]
  exact WriteData_eq (by simp) (by decide)

theorem C13_clear_and_fill_payloads_witness :
    displayData.length = MAX_LIGHT ∧
    (TM1729_Clear_call displayData).trace =
      lineTrace (transaction (0x7C :: 0x00 :: List.replicate 26 0x00)) ∧
    (TM1729_Clear_call displayData).displayData = displayData ∧
    (TM1729_DisplayAll_call displayData displayData).trace =
      lineTrace (transaction (0x7C :: 0x00 :: List.replicate 26 0xFF)) ∧
    (TM1729_DisplayAll_call displayData displayData).displayData = displayData :=
  ⟨by decide, C13_clear_and_fill_payloads displayData displayData (by decide)⟩

/-- C14 (as stated, refuted): after one successful call, bell on, made on the
startup buffer, `App_Init` sends a payload whose byte 10 is 0x80, so its trace
is not the trace of the startup pattern. -/
theorem C14_payload_after_update_counterexample :
    (TM1729_DisplaySet 1 1 displayData).ret = 0 ∧
    (App_Init_call (TM1729_DisplaySet 1 1 displayData).displayData).trace =
      lineTrace (transaction (0x7C :: 0x00 ::
        [0x80, 0x00, 0x00, 0x80, 0x00, 0x80, 0x80, 0x80, 0x00, 0x10, 0x80, 0x80, 0x00,
         0x00, 0x80, 0x82, 0x00, 0x00, 0x00, 0x00, 0x00, 0x00, 0x00, 0x00, 0x00, 0x00])) ∧
    (App_Init_call (TM1729_DisplaySet 1 1 displayData).displayData).trace ≠
      lineTrace (transaction (0x7C :: 0x00 ::
        [0x80, 0x00, 0x00, 0x80, 0x00, 0x80, 0x80, 0x80, 0x00, 0x10, 0x00, 0x80, 0x00,
         0x00, 0x80, 0x82, 0x00, 0x00, 0x00, 0x00, 0x00, 0x00, 0x00, 0x00, 0x00, 0x00])) := by
  have hnew : (TM1729_DisplaySet 1 1 displayData).displayData =
      [0x80, 0x00, 0x00, 0x80, 0x00, 0x80, 0x80, 0x80, 0x00, 0x10, 0x80, 0x80, 0x00,
       0x00, 0x80, 0x82, 0x00, 0x00, 0x00, 0x00, 0x00, 0x00, 0x00, 0x00, 0x00, 0x00] := by
    decide
  have htr : (App_Init_call (TM1729_DisplaySet 1 1 displayData).displayData).trace =
      lineTrace (transaction (0x7C :: 0x00 ::
        [0x80, 0x00, 0x00, 0x80, 0x00, 0x80, 0x80, 0x80, 0x00, 0x10, 0x80, 0x80, 0x00,
         0x00, 0x80, 0x82, 0x00, 0x00, 0x00, 0x00, 0x00, 0x00, 0x00, 0x00, 0x00, 0x00])) := by
    rw [hnew]
    exact WriteData_eq (by decide) (by decide)
  refine ⟨by decide, htr, ?_⟩
  rw [htr]
  intro h
  have := lineTrace_inj _ _ (transaction_bytes_lt (by decide))
    (transaction_bytes_lt (by decide)) h
  exact absurd this (by decide)

/-- C14 (amended): `App_Init` transmits as payload the current contents of
`displayData` and leaves them as they are; in the state reached from the
startup buffer by any sequence of calls the payload is that state, and with no
call made it is the compiled-in startup pattern 0x80, 0x00, 0x00, 0x80, 0x00,
0x80, 0x80, 0x80, 0x00, 0x10, 0x00, 0x80, 0x00, 0x00, 0x80, 0x82 followed by ten
zero bytes. -/
theorem C14_app_init_sends_current_buffer (buf : List Nat) (hwf : WF buf)
    (calls : List (Int × Int)) :
    (App_Init_call buf).trace = lineTrace (transaction (0x7C :: 0x00 :: buf)) ∧
    (App_Init_call buf).displayData = buf ∧
    (App_Init_call (runCalls calls displayData)).trace =
      lineTrace (transaction (0x7C :: 0x00 :: runCalls calls displayData)) ∧
    (App_Init_call displayData).trace =
      lineTrace (transaction (0x7C :: 0x00 ::
        [0x80, 0x00, 0x00, 0x80, 0x00, 0x80, 0x80, 0x80, 0x00, 0x10, 0x00, 0x80, 0x00,
         0x00, 0x80, 0x82, 0x00, 0x00, 0x00, 0x00, 0x00, 0x00, 0x00, 0x00, 0x00, 0x00])) := by
  have hinit : WF displayData := by decide
  exact ⟨WriteData_eq hwf.1 (by decide), rfl,
    WriteData_eq (WF_runCalls hinit calls).1 (by decide),
    WriteData_eq hinit.1 (by decide)⟩

theorem C14_app_init_sends_current_buffer_witness :
    WF (TM1729_DisplaySet 1 1 displayData).displayData ∧
    (App_Init_call (TM1729_DisplaySet 1 1 displayData).displayData).trace =
      lineTrace (transaction (0x7C :: 0x00 :: (TM1729_DisplaySet 1 1 displayData).displayData)) ∧
    (App_Init_call (TM1729_DisplaySet 1 1 displayData).displayData).displayData =
      (TM1729_DisplaySet 1 1 displayData).displayData ∧
    (App_Init_call (runCalls [(1, 1), (2, 12)] displayData)).trace =
      lineTrace (transaction (0x7C :: 0x00 :: runCalls [(1, 1), (2, 12)] displayData)) ∧
    (App_Init_call displayData).trace =
      lineTrace (transaction (0x7C :: 0x00 ::
        [0x80, 0x00, 0x00, 0x80, 0x00, 0x80, 0x80, 0x80, 0x00, 0x10, 0x00, 0x80, 0x00,
         0x00, 0x80, 0x82, 0x00, 0x00, 0x00, 0x00, 0x00, 0x00, 0x00, 0x00, 0x00, 0x00])) :=
  ⟨by decide,
    C14_app_init_sends_current_buffer (TM1729_DisplaySet 1 1 displayData).displayData
      (by decide) [(1, 1), (2, 12)]⟩

/-- C15 (as stated, refuted): no sequence of protocol-layer calls whose bytes
are 0x7C, 0xA2, 0xF0, 0xFC, 0xC8 produces the trace of `TM1729_Init`; in
particular the trace is not that of one transaction with those five bytes. -/
theorem C15_four_commands_counterexample :
    (¬ ∃ ops : List BusOp, (∀ b, BusOp.byte b ∈ ops → b < 256) ∧
      TM1729_Init = MyI2C_Init ++ Delay_ms 10 ++ lineTrace ops ∧
      busBytes ops = [0x7C, 0xA2, 0xF0, 0xFC, 0xC8]) ∧
    TM1729_Init ≠ MyI2C_Init ++ Delay_ms 10 ++
      lineTrace (transaction [0x7C, 0xA2, 0xF0, 0xFC, 0xC8]) := by
  constructor
  · rintro ⟨ops, hops, h, hb⟩
    rw [Init_unique hops h] at hb
    exact absurd hb (by decide)
  · intro h
    exact absurd (Init_unique (transaction_bytes_lt (by decide)) h) (by decide)

/-- C15 (amended): after the pin setup and a 10 ms delay `TM1729_Init` calls
`MyI2C_Stop` once, then sends, between one start and one stop, the device
address 0x7C followed by exactly five command bytes: IC set (0xEA), display
control (0xA2), blanking control (0xF0), AC/power control (0xFC) and mode set
(0xC8), in that order; no other byte is transmitted and no other sequence of
protocol-layer calls produces its trace. -/
theorem C15_init_sequence :
    TM1729_Init = MyI2C_Init ++ Delay_ms 10 ++ MyI2C_Stop ++
      lineTrace (transaction [TM1729_SLAVE_ADDRESS, TM1729_ICSET, TM1729_DISCTL, TM1729_BLKCTL,
        TM1729_APCTL, TM1729_MODESET]) ∧
    [TM1729_SLAVE_ADDRESS, TM1729_ICSET, TM1729_DISCTL, TM1729_BLKCTL, TM1729_APCTL,
      TM1729_MODESET] = [0x7C, 0xEA, 0xA2, 0xF0, 0xFC, 0xC8] ∧
    (∀ ops : List BusOp, (∀ b, BusOp.byte b ∈ ops → b < 256) →
      TM1729_Init = MyI2C_Init ++ Delay_ms 10 ++ lineTrace ops →
      ops = BusOp.stop :: transaction [0x7C, 0xEA, 0xA2, 0xF0, 0xFC, 0xC8] ∧
      busBytes ops = [0x7C, 0xEA, 0xA2, 0xF0, 0xFC, 0xC8]) := by
  refine ⟨?_, rfl, ?_⟩
  · simp only [TM1729_Init, lineTrace, transaction, BusOp.lines, List.append_assoc,
      List.append_nil, List.map, List.cons_append, List.nil_append]
  · intro ops hops h
    rw [Init_unique hops h]
    exact ⟨rfl, rfl⟩

/-- C16 (as stated, refuted): with an empty payload, played from both lines
low, the data line changes three times while the clock is high, not twice: it
falls (start), rises (stop) and falls again. -/
theorem C16_three_edges_counterexample :
    dataEdgesClockHigh ⟨false, false⟩ (TM1729_WriteData [] 0) = [false, true, false] ∧
    (dataEdgesClockHigh ⟨false, false⟩ (TM1729_WriteData [] 0)).length ≠ 2 := by
  have h : dataEdgesClockHigh ⟨false, false⟩ (TM1729_WriteData [] 0) = [false, true, false] := by
    have hw : TM1729_WriteData [] 0 =
        lineTrace (transaction (TM1729_SLAVE_ADDRESS :: TM1729_ADSET :: [])) :=
      WriteData_eq rfl (by decide)
    rw [hw]
    exact transaction_edges (by decide) (by decide)
  rw [h]
  exact ⟨rfl, by decide⟩

/-- C16 (amended): for every payload, in the trace of `TM1729_WriteData` played
from clock and data both low, the data line changes level while the clock is
high exactly three times: a falling edge in `MyI2C_Start` (the start
condition), a rising edge in `MyI2C_Stop` (the stop condition) and a falling
edge right after it, because `MyI2C_Stop` drives the data line low before it
drives the clock low; no byte transmission moves the data line while the clock
is high; and the transaction leaves both lines low. -/
theorem C16_data_edges_while_clock_high (pData : List Nat) (len : Nat)
    (hlen : pData.length = len) (h255 : len ≤ 255) (hbytes : ∀ b ∈ pData, b < 256) :
    dataEdgesClockHigh ⟨false, false⟩ (TM1729_WriteData pData len) = [false, true, false] ∧
    dataEdgesClockHigh ⟨false, false⟩ MyI2C_Start = [false] ∧
    (∀ b, b < 256 → ∀ s, dataEdgesClockHigh s (MyI2C_SendByte b) = []) ∧
    dataEdgesClockHigh ⟨false, false⟩ MyI2C_Stop = [true, false] ∧
    Lines.run ⟨false, false⟩ (TM1729_WriteData pData len) = ⟨false, false⟩ := by
  refine ⟨?_, by decide, fun b hb s => SendByte_edges hb s, by decide,
    WriteData_run hlen h255 _⟩
  rw [WriteData_eq hlen h255]
  refine transaction_edges ?_ (List.cons_ne_nil _ _)
  intro b hb
  rcases List.mem_cons.1 hb with rfl | hb
  · decide
  · rcases List.mem_cons.1 hb with rfl | hb
    · decide
    · exact hbytes b hb

theorem C16_data_edges_while_clock_high_witness :
    [0x12, 0xFF, 0x00].length = 3 ∧ 3 ≤ 255 ∧ (∀ b ∈ [0x12, 0xFF, 0x00], b < 256) ∧
    dataEdgesClockHigh ⟨false, false⟩ (TM1729_WriteData [0x12, 0xFF, 0x00] 3) =
      [false, true, false] ∧
    dataEdgesClockHigh ⟨false, false⟩ MyI2C_Start = [false] ∧
    (∀ b, b < 256 → ∀ s, dataEdgesClockHigh s (MyI2C_SendByte b) = []) ∧
    dataEdgesClockHigh ⟨false, false⟩ MyI2C_Stop = [true, false] ∧
    Lines.run ⟨false, false⟩ (TM1729_WriteData [0x12, 0xFF, 0x00] 3) = ⟨false, false⟩ :=
  ⟨by decide, by decide, by decide,
    C16_data_edges_while_clock_high [0x12, 0xFF, 0x00] 3 (by decide) (by decide) (by decide)⟩

/-- C20: run with every table read checked against the 11 entries of the table
and every `displayData` access checked against its 26 bytes (the `&=` and `|=`
statements of the field bodies and each read `pData[i]` of the transfer that
follows them), `TM1729_DisplaySet` never meets an index out of bounds, for any
type, value and buffer: a value that passes a range check only produces table
indices in 0..10 (for a negative temperature the units index `-v + 1` lies in
2..10, for CO2 the hundreds index `v/100 + 1` is at most 10) and buffer indices
in 0..25; the transfer reads exactly the indices 0..25. The checks are real:
index 11 or -1 on a table and index 26 on the buffer stop the run, a transfer
one byte longer stops at index 26, and the bodies run on a value one past a
range meet a table index out of bounds, so the range checks are what
guarantees the bounds. -/
theorem C20_no_access_out_of_bounds (type data : Int) (buf : List Nat) :
    TM1729_DisplaySet_checked type data buf = some (TM1729_DisplaySet type data buf) ∧
    (sge_data_1_9.length = 11 ∧ sge_data_10_15.length = 11 ∧ MAX_LIGHT = 26) ∧
    (-9 ≤ data ∧ data < 0 →
      2 ≤ -data + 1 ∧ -data + 1 ≤ 10 ∧
      checkedTableAt sge_data_1_9 (-data + 1) = some (tableAt sge_data_1_9 (-data + 1))) ∧
    (0 ≤ data ∧ data ≤ 999 →
      1 ≤ data.tdiv 100 + 1 ∧ data.tdiv 100 + 1 ≤ 10 ∧
      checkedTableAt sge_data_1_9 (data.tdiv 100 + 1) =
        some (tableAt sge_data_1_9 (data.tdiv 100 + 1))) ∧
    (checkedTableAt sge_data_1_9 11 = none ∧ checkedTableAt sge_data_10_15 (-1) = none ∧
      checkedAndAssign 26 0xFF buf = none ∧ checkedOrAssign 26 0 buf = none) ∧
    (checkedSetDigits10_15 13 100 buf = none ∧ checkedSetTemp 8 7 (-10) buf = none ∧
      checkedSetHumidity 100 buf = none ∧ checkedSetCO2 1000 buf = none) ∧
    (TM1729_WriteData_checked MAX_LIGHT buf MAX_LIGHT = some (TM1729_WriteData buf MAX_LIGHT) ∧
      (∀ i, checkedRead MAX_LIGHT buf i = if i ≤ 25 then some (rd buf i) else none) ∧
      TM1729_WriteData_checked MAX_LIGHT buf (MAX_LIGHT + 1) = none ∧
      (∀ len, MAX_LIGHT < len % 256 → TM1729_WriteData_checked MAX_LIGHT buf len = none)) := by
  refine ⟨DisplaySet_checked_eq type data buf, ⟨rfl, rfl, rfl⟩, ?_, ?_, ⟨rfl, rfl, rfl, rfl⟩,
    ⟨rfl, rfl, rfl, rfl⟩, WriteData_checked_ok (by decide) buf, ?_,
    WriteData_checked_none (by decide) buf, fun len h => WriteData_checked_none h buf⟩
  · intro h
    exact ⟨by omega, by omega, checkedTableAt_1_9_ok (by omega) (by omega)⟩
  · intro h
    have d100 : data.tdiv 100 = data / 100 := Int.tdiv_eq_ediv h.1 (by decide)
    exact ⟨by omega, by omega, checkedTableAt_1_9_ok (by omega) (by omega)⟩
  · intro i
    by_cases hi : i ≤ 25
    · rw [if_pos hi, checkedRead_ok (show i < MAX_LIGHT by show i < 26; omega)]
      rfl
    · rw [if_neg hi, checkedRead_none (show MAX_LIGHT ≤ i by show 26 ≤ i; omega)]

end TM1729
